import Mathlib

/-!
# Northbound configurator servicer

A shallow embedding of `orc8r/cloud/go/services/configurator/servicers/northbound.go`.

The servicer talks to three collaborators that live outside the file: the storage
factory, the storage transaction it hands out, and the serde registry that validates
configuration payloads.  They are embedded as an environment of oracles (`Env`).  Every
call made to a collaborator is appended, with its arguments and its answer, to a trace.
The serde registry answers as an arbitrary function of the domain, the type tag and the
payload; the storage transaction answers as an arbitrary function of the trace so far,
so a store with any internal state is covered.  Each handler returns its response, its
error and the trace of the calls it made.

Conventions of the embedding:
* a Go `error` is `Option GoError` (`none` is `nil`); a Go `(value, error)` pair whose
  value is only read when the error is `nil` is `Except GoError value`;
* a Go map received in a request is the list of its entries in the order in which the
  `range` loop visits them; a Go map built for a response is an association list with
  unique keys (`GoMap.set` overwrites);
* `nil` and empty slices or maps are identified, pointers are the values they point to.
-/

namespace Configurator

/-! ## Library types: errors and status codes -/

/-- Raw serialized payload (Go `[]byte`). -/
abbrev Bytes := List Nat

/-- The gRPC status codes of `google.golang.org/grpc/codes`. -/
inductive Code
  | OK | Canceled | Unknown | InvalidArgument | DeadlineExceeded | NotFound | AlreadyExists
  | PermissionDenied | ResourceExhausted | FailedPrecondition | Aborted | OutOfRange
  | Unimplemented | Internal | Unavailable | DataLoss | Unauthenticated
  deriving DecidableEq, Repr

/-- Name of a status code, as printed by `Code.String()`. -/
def Code.name : Code → String
  | .OK => "OK"
  | .Canceled => "Canceled"
  | .Unknown => "Unknown"
  | .InvalidArgument => "InvalidArgument"
  | .DeadlineExceeded => "DeadlineExceeded"
  | .NotFound => "NotFound"
  | .AlreadyExists => "AlreadyExists"
  | .PermissionDenied => "PermissionDenied"
  | .ResourceExhausted => "ResourceExhausted"
  | .FailedPrecondition => "FailedPrecondition"
  | .Aborted => "Aborted"
  | .OutOfRange => "OutOfRange"
  | .Unimplemented => "Unimplemented"
  | .Internal => "Internal"
  | .Unavailable => "Unavailable"
  | .DataLoss => "DataLoss"
  | .Unauthenticated => "Unauthenticated"

/-- A non-nil Go `error` value: either an error produced by a collaborator that carries
only a message, or a gRPC status error carrying a code and a message. -/
inductive GoError
  | plain (msg : String)
  | status (code : Code) (msg : String)
  deriving DecidableEq, Repr

/-- The `Error()` method of a Go error. -/
def GoError.Error : GoError → String
  | .plain msg => msg
  | .status code msg => "rpc error: code = " ++ code.name ++ " desc = " ++ msg

/-- Go `status.Error(c, msg)`: `nil` for code `OK`, a status error otherwise. -/
def statusError (c : Code) (msg : String) : Option GoError :=
  if c = Code.OK then none else some (GoError.status c msg)

/-! ## Data model -/

/-- Modelled from the spec: the `storage.EntityID` declaration is outside the file; an
entity is identified inside a network by its type tag and key. -/
structure EntityID where
  Type_ : String
  Key : String
  deriving DecidableEq, Repr

/-- Modelled from the spec: the `storage.Network` declaration is outside the file;
identifier, type tag, display name, description and the mapping from configuration type
tag to serialized payload. -/
structure Network where
  ID : String
  Type_ : String := ""
  Name : String := ""
  Description : String := ""
  Configs : List (String × Bytes) := []
  Version : Nat := 0
  deriving DecidableEq, Repr

/-- Modelled from the spec: the `storage.NetworkUpdateCriteria` declaration is outside
the file; target network, deletion flag, fields to overwrite and configurations to add
or overwrite. -/
structure NetworkUpdateCriteria where
  ID : String
  DeleteNetwork : Bool := false
  NewName : Option String := none
  NewDescription : Option String := none
  NewType : Option String := none
  ConfigsToAddOrUpdate : List (String × Bytes) := []
  ConfigsToDelete : List String := []
  deriving DecidableEq, Repr

/-- Modelled from the spec: the `storage.NetworkEntity` declaration is outside the file;
identified by (network, type tag, key), with display name, description and one
configuration payload. -/
structure NetworkEntity where
  NetworkID : String := ""
  Type_ : String := ""
  Key : String := ""
  Name : String := ""
  Description : String := ""
  PhysicalID : String := ""
  Config : Bytes := []
  GraphID : String := ""
  Associations : List EntityID := []
  Version : Nat := 0
  deriving DecidableEq, Repr

/-- Modelled from the spec: the `storage.EntityUpdateCriteria` declaration is outside the
file; target (type, key), deletion flag and an optional new configuration payload. -/
structure EntityUpdateCriteria where
  Type_ : String := ""
  Key : String := ""
  DeleteEntity : Bool := false
  NewName : Option String := none
  NewDescription : Option String := none
  NewPhysicalID : Option String := none
  NewConfig : Option Bytes := none
  AssociationsToAdd : List EntityID := []
  AssociationsToDelete : List EntityID := []
  deriving DecidableEq, Repr

/-- Modelled from the spec: filter of a network load (declaration outside the file). -/
structure NetworkLoadFilter where
  Ids : List String := []
  TypeFilter : Option String := none
  deriving DecidableEq, Repr

/-- Modelled from the spec: criteria of a network load (declaration outside the file). -/
structure NetworkLoadCriteria where
  LoadMetadata : Bool := false
  LoadConfigs : Bool := false
  deriving DecidableEq, Repr

/-- Modelled from the spec: result set of a network load (declaration outside the file). -/
structure NetworkLoadResult where
  Networks : List Network := []
  NetworkIDsNotFound : List String := []
  deriving DecidableEq, Repr

/-- Modelled from the spec: filter of an entity load (declaration outside the file). -/
structure EntityLoadFilter where
  TypeFilter : Option String := none
  KeyFilter : Option String := none
  IDs : List EntityID := []
  deriving DecidableEq, Repr

/-- Modelled from the spec: criteria of an entity load (declaration outside the file). -/
structure EntityLoadCriteria where
  LoadMetadata : Bool := false
  LoadConfig : Bool := false
  LoadAssocsToThis : Bool := false
  LoadAssocsFromThis : Bool := false
  deriving DecidableEq, Repr

/-- Modelled from the spec: result set of an entity load (declaration outside the file). -/
structure EntityLoadResult where
  Entities : List NetworkEntity := []
  EntitiesNotFound : List EntityID := []
  deriving DecidableEq, Repr

/-- The options passed to `StartTransaction`. -/
structure TxOptions where
  ReadOnly : Bool
  deriving DecidableEq, Repr

/-- Modelled from the spec: the two fixed serde domains, network-config and
entity-config (the constants are declared outside the file). -/
inductive SerdeDomain
  | NetworkConfigSerdeDomain
  | NetworkEntitySerdeDomain
  deriving DecidableEq, Repr

/-! ## Requests and responses -/

structure LoadNetworksRequest where
  Filter : NetworkLoadFilter := {}
  Criteria : NetworkLoadCriteria := {}
  deriving DecidableEq, Repr

structure ListNetworkIDsResponse where
  NetworkIDs : List String := []
  deriving DecidableEq, Repr

structure CreateNetworksRequest where
  Networks : List Network := []
  deriving DecidableEq, Repr

structure CreateNetworksResponse where
  CreatedNetworks : List Network := []
  deriving DecidableEq, Repr

structure UpdateNetworksRequest where
  Updates : List NetworkUpdateCriteria := []
  deriving DecidableEq, Repr

structure DeleteNetworksRequest where
  NetworkIDs : List String := []
  deriving DecidableEq, Repr

/-- The empty acknowledgement message. -/
structure Void where
  deriving DecidableEq, Repr

structure LoadEntitiesRequest where
  NetworkID : String := ""
  Filter : EntityLoadFilter := {}
  Criteria : EntityLoadCriteria := {}
  deriving DecidableEq, Repr

/-- The `Request` field of a write: a one-of that holds a create, an update, or nothing
that the handler recognizes. -/
inductive WriteEntityRequest_Request
  | Create (Create : NetworkEntity)
  | Update (Update : EntityUpdateCriteria)
  | notSet
  deriving DecidableEq, Repr

structure WriteEntityRequest where
  Request : WriteEntityRequest_Request
  deriving DecidableEq, Repr

structure WriteEntitiesRequest where
  NetworkID : String := ""
  Writes : List WriteEntityRequest := []
  deriving DecidableEq, Repr

structure WriteEntitiesResponse where
  CreatedEntities : List NetworkEntity := []
  UpdatedEntities : List (String × NetworkEntity) := []
  deriving DecidableEq, Repr

structure CreateEntitiesRequest where
  NetworkID : String := ""
  Entities : List NetworkEntity := []
  deriving DecidableEq, Repr

structure CreateEntitiesResponse where
  CreatedEntities : List NetworkEntity := []
  deriving DecidableEq, Repr

structure UpdateEntitiesRequest where
  NetworkID : String := ""
  Updates : List EntityUpdateCriteria := []
  deriving DecidableEq, Repr

structure UpdateEntitiesResponse where
  UpdatedEntities : List (String × NetworkEntity) := []
  deriving DecidableEq, Repr

structure DeleteEntitiesRequest where
  NetworkID : String := ""
  ID : List EntityID := []
  deriving DecidableEq, Repr

/-! ## Go maps built by the handlers -/

/-- Go `m[k] = v` on a map kept as an association list with unique keys. -/
def GoMap.set {β : Type} : List (String × β) → String → β → List (String × β)
  | [], k, v => [(k, v)]
  | (k', v') :: rest, k, v =>
    if k' = k then (k, v) :: rest else (k', v') :: GoMap.set rest k v

/-- Go `m[k]` lookup. -/
def GoMap.get {β : Type} : List (String × β) → String → Option β
  | [], _ => none
  | (k', v') :: rest, k => if k' = k then some v' else GoMap.get rest k

/-- The keys of a map. -/
def GoMap.keys {β : Type} (m : List (String × β)) : List String :=
  m.map Prod.fst

/-! ## Calls, answers and traces -/

/-- A call on the storage transaction, with its arguments. -/
inductive StoreCall
  | LoadNetworks (filter : NetworkLoadFilter) (criteria : NetworkLoadCriteria)
  | LoadAllNetworks (criteria : NetworkLoadCriteria)
  | CreateNetwork (network : Network)
  | UpdateNetworks (updates : List NetworkUpdateCriteria)
  | LoadEntities (networkID : String) (filter : EntityLoadFilter) (criteria : EntityLoadCriteria)
  | CreateEntity (networkID : String) (entity : NetworkEntity)
  | UpdateEntity (networkID : String) (update : EntityUpdateCriteria)
  | Commit
  | Rollback
  deriving DecidableEq, Repr

/-- The answer of the storage transaction to a call. -/
inductive StoreResult
  | err (e : GoError)
  | done
  | network (n : Network)
  | networks (ns : List Network)
  | networkLoad (r : NetworkLoadResult)
  | entity (e : NetworkEntity)
  | entityLoad (r : EntityLoadResult)
  deriving DecidableEq, Repr

/-- One call to a collaborator together with its answer. -/
inductive Event
  | StartTransaction (opts : TxOptions) (err : Option GoError)
  | DeserializeLegacy (domain : SerdeDomain) (typeVal : String) (config : Bytes)
      (err : Option GoError)
  | Store (call : StoreCall) (result : StoreResult)
  deriving DecidableEq, Repr

/-- The calls made so far, oldest first. -/
abbrev Trace := List Event

/-- The collaborators of the servicer.  The serde registry is a pure function of its
arguments; the storage transaction answers as a function of the trace so far. -/
structure Env where
  StartTransaction : TxOptions → Option GoError
  DeserializeLegacy : SerdeDomain → String → Bytes → Option GoError
  FullNetworkLoadCriteria : NetworkLoadCriteria
  LoadNetworks : Trace → NetworkLoadFilter → NetworkLoadCriteria → Except GoError NetworkLoadResult
  LoadAllNetworks : Trace → NetworkLoadCriteria → Except GoError (List Network)
  CreateNetwork : Trace → Network → Except GoError Network
  UpdateNetworks : Trace → List NetworkUpdateCriteria → Option GoError
  LoadEntities : Trace → String → EntityLoadFilter → EntityLoadCriteria →
    Except GoError EntityLoadResult
  CreateEntity : Trace → String → NetworkEntity → Except GoError NetworkEntity
  UpdateEntity : Trace → String → EntityUpdateCriteria → Except GoError NetworkEntity
  Commit : Trace → Option GoError
  Rollback : Trace → Option GoError

/-- What a handler hands back: the response message, the error, and the trace of the
calls it made. -/
structure Outcome (ρ : Type) where
  res : ρ
  err : Option GoError
  trace : Trace

/-- Result of one pass through the body of a `for ... range` loop: go on with the next
item, or leave the enclosing function with a return value. -/
inductive Flow (ρ σ : Type)
  | next (s : σ)
  | ret (out : ρ)

/-- A Go `for _, x := range xs` loop whose body may return from the function. -/
def forRange {ι ρ σ : Type} (body : σ → ι → Flow ρ σ) : σ → List ι → Flow ρ σ
  | s, [] => Flow.next s
  | s, x :: xs =>
    match body s x with
    | Flow.next s' => forRange body s' xs
    | Flow.ret out => Flow.ret out

/-- An answer without a value. -/
def StoreResult.ofErr : Option GoError → StoreResult
  | none => StoreResult.done
  | some e => StoreResult.err e

/-! ## Calls to the collaborators, logged -/

/-- The factory call `srv.factory.StartTransaction(context, opts)`. -/
def StartTransaction (env : Env) (opts : TxOptions) : Trace × Option GoError :=
  let err := env.StartTransaction opts
  ([Event.StartTransaction opts err], err)

/-- The registry call `serde.DeserializeLegacy(domain, typeVal, config)`; only its error
is used by the servicer. -/
def DeserializeLegacy (env : Env) (tr : Trace) (domain : SerdeDomain) (typeVal : String)
    (config : Bytes) : Trace × Option GoError :=
  let err := env.DeserializeLegacy domain typeVal config
  (tr ++ [Event.DeserializeLegacy domain typeVal config err], err)

/-- The call `store.LoadNetworks(filter, criteria)`. -/
def storeLoadNetworks (env : Env) (tr : Trace) (filter : NetworkLoadFilter)
    (criteria : NetworkLoadCriteria) : Trace × Except GoError NetworkLoadResult :=
  match env.LoadNetworks tr filter criteria with
  | .error err =>
    (tr ++ [Event.Store (StoreCall.LoadNetworks filter criteria) (StoreResult.err err)],
      .error err)
  | .ok result =>
    (tr ++ [Event.Store (StoreCall.LoadNetworks filter criteria) (StoreResult.networkLoad result)],
      .ok result)

/-- The call `store.LoadAllNetworks(criteria)`. -/
def storeLoadAllNetworks (env : Env) (tr : Trace) (criteria : NetworkLoadCriteria) :
    Trace × Except GoError (List Network) :=
  match env.LoadAllNetworks tr criteria with
  | .error err =>
    (tr ++ [Event.Store (StoreCall.LoadAllNetworks criteria) (StoreResult.err err)], .error err)
  | .ok networks =>
    (tr ++ [Event.Store (StoreCall.LoadAllNetworks criteria) (StoreResult.networks networks)],
      .ok networks)

/-- The call `store.CreateNetwork(network)`. -/
def storeCreateNetwork (env : Env) (tr : Trace) (network : Network) :
    Trace × Except GoError Network :=
  match env.CreateNetwork tr network with
  | .error err =>
    (tr ++ [Event.Store (StoreCall.CreateNetwork network) (StoreResult.err err)], .error err)
  | .ok created =>
    (tr ++ [Event.Store (StoreCall.CreateNetwork network) (StoreResult.network created)],
      .ok created)

/-- The call `store.UpdateNetworks(updates)`. -/
def storeUpdateNetworks (env : Env) (tr : Trace) (updates : List NetworkUpdateCriteria) :
    Trace × Option GoError :=
  let err := env.UpdateNetworks tr updates
  (tr ++ [Event.Store (StoreCall.UpdateNetworks updates) (StoreResult.ofErr err)], err)

/-- The call `store.LoadEntities(networkID, filter, criteria)`. -/
def storeLoadEntities (env : Env) (tr : Trace) (networkID : String) (filter : EntityLoadFilter)
    (criteria : EntityLoadCriteria) : Trace × Except GoError EntityLoadResult :=
  match env.LoadEntities tr networkID filter criteria with
  | .error err =>
    (tr ++ [Event.Store (StoreCall.LoadEntities networkID filter criteria) (StoreResult.err err)],
      .error err)
  | .ok result =>
    (tr ++ [Event.Store (StoreCall.LoadEntities networkID filter criteria)
      (StoreResult.entityLoad result)], .ok result)

/-- The call `store.CreateEntity(networkID, entity)`. -/
def storeCreateEntity (env : Env) (tr : Trace) (networkID : String) (entity : NetworkEntity) :
    Trace × Except GoError NetworkEntity :=
  match env.CreateEntity tr networkID entity with
  | .error err =>
    (tr ++ [Event.Store (StoreCall.CreateEntity networkID entity) (StoreResult.err err)],
      .error err)
  | .ok ent =>
    (tr ++ [Event.Store (StoreCall.CreateEntity networkID entity) (StoreResult.entity ent)],
      .ok ent)

/-- The call `store.UpdateEntity(networkID, update)`. -/
def storeUpdateEntity (env : Env) (tr : Trace) (networkID : String)
    (update : EntityUpdateCriteria) : Trace × Except GoError NetworkEntity :=
  match env.UpdateEntity tr networkID update with
  | .error err =>
    (tr ++ [Event.Store (StoreCall.UpdateEntity networkID update) (StoreResult.err err)],
      .error err)
  | .ok ent =>
    (tr ++ [Event.Store (StoreCall.UpdateEntity networkID update) (StoreResult.entity ent)],
      .ok ent)

/-- The call `store.Commit()`. -/
def storeCommit (env : Env) (tr : Trace) : Trace × Option GoError :=
  let err := env.Commit tr
  (tr ++ [Event.Store StoreCall.Commit (StoreResult.ofErr err)], err)

/-- Modelled from the spec: `storage.RollbackLogOnError` is defined outside the file; it
calls `Rollback` on the transaction once, and a rollback failure is logged, not
propagated. -/
def RollbackLogOnError (env : Env) (tr : Trace) : Trace :=
  tr ++ [Event.Store StoreCall.Rollback (StoreResult.ofErr (env.Rollback tr))]

/-! ## Helpers of the servicer -/

/-- Validation of every entry of a network configuration map; the list is the map in
the order of the `range` loop. -/
def networkConfigsAreValid (env : Env) : Trace → List (String × Bytes) → Trace × Option GoError
  | tr, [] => (tr, none)
  | tr, (typeVal, config) :: rest =>
    match DeserializeLegacy env tr SerdeDomain.NetworkConfigSerdeDomain typeVal config with
    | (tr', some err) => (tr', some err)
    | (tr', none) => networkConfigsAreValid env tr' rest

/-- Validation of one entity configuration payload. -/
def entityConfigIsValid (env : Env) (tr : Trace) (typeVal : String) (config : Bytes) :
    Trace × Option GoError :=
  match DeserializeLegacy env tr SerdeDomain.NetworkEntitySerdeDomain typeVal config with
  | (tr', some err) => (tr', some err)
  | (tr', none) => (tr', none)

/-- Validate the configuration of an entity, then create it. -/
def createEntity (env : Env) (tr : Trace) (networkID : String) (entity : NetworkEntity) :
    Trace × Except GoError NetworkEntity :=
  match entityConfigIsValid env tr entity.Type_ entity.Config with
  | (tr', some err) => (tr', .error err)
  | (tr', none) => storeCreateEntity env tr' networkID entity

/-- Validate the new configuration of an update when there is one, then apply the
update. -/
def updateEntity (env : Env) (tr : Trace) (networkID : String) (update : EntityUpdateCriteria) :
    Trace × Except GoError NetworkEntity :=
  let checked : Trace × Option GoError :=
    match update.NewConfig with
    | some value => entityConfigIsValid env tr update.Type_ value
    | none => (tr, none)
  match checked with
  | (tr', some err) => (tr', .error err)
  | (tr', none) =>
    match storeUpdateEntity env tr' networkID update with
    | (tr'', .error err) => (tr'', .error err)
    | (tr'', .ok updatedEntity) => (tr'', .ok updatedEntity)

/-! ## The ten handlers -/

def LoadNetworks (env : Env) (req : LoadNetworksRequest) : Outcome NetworkLoadResult :=
  let res : NetworkLoadResult := {}
  match StartTransaction env { ReadOnly := true } with
  | (tr, some err) => ⟨res, some err, tr⟩
  | (tr, none) =>
    match storeLoadNetworks env tr req.Filter req.Criteria with
    | (tr', .error err) => ⟨res, some err, RollbackLogOnError env tr'⟩
    | (tr', .ok result) =>
      let c := storeCommit env tr'
      ⟨result, c.2, c.1⟩

def ListNetworkIDs (env : Env) (_void : Void) : Outcome ListNetworkIDsResponse :=
  let res : ListNetworkIDsResponse := {}
  match StartTransaction env { ReadOnly := true } with
  | (tr, some err) => ⟨res, some err, tr⟩
  | (tr, none) =>
    match storeLoadAllNetworks env tr env.FullNetworkLoadCriteria with
    | (tr', .error err) => ⟨res, some err, RollbackLogOnError env tr'⟩
    | (tr', .ok networks) =>
      let networkIDs := networks.foldl (fun ids network => ids ++ [network.ID]) []
      let c := storeCommit env tr'
      ⟨{ NetworkIDs := networkIDs }, c.2, c.1⟩

/-- Body of the loop of `CreateNetworks`; the state is the trace and `createdNetworks`. -/
def CreateNetworks.body (env : Env) (s : Trace × List Network) (network : Network) :
    Flow (Outcome CreateNetworksResponse) (Trace × List Network) :=
  let emptyRes : CreateNetworksResponse := {}
  match networkConfigsAreValid env s.1 network.Configs with
  | (tr, some err) => Flow.ret ⟨emptyRes, some err, tr⟩
  | (tr, none) =>
    match storeCreateNetwork env tr network with
    | (tr', .error err) => Flow.ret ⟨emptyRes, some err, RollbackLogOnError env tr'⟩
    | (tr', .ok createdNetwork) => Flow.next (tr', s.2 ++ [createdNetwork])

def CreateNetworks (env : Env) (req : CreateNetworksRequest) : Outcome CreateNetworksResponse :=
  let emptyRes : CreateNetworksResponse := {}
  match StartTransaction env { ReadOnly := false } with
  | (tr, some err) => ⟨emptyRes, some err, tr⟩
  | (tr, none) =>
    match forRange (CreateNetworks.body env) (tr, []) req.Networks with
    | Flow.ret out => out
    | Flow.next (tr', createdNetworks) =>
      let c := storeCommit env tr'
      ⟨{ CreatedNetworks := createdNetworks }, c.2, c.1⟩

/-- Body of the loop of `UpdateNetworks`; the state is the trace and `updates`. -/
def UpdateNetworks.body (env : Env) (s : Trace × List NetworkUpdateCriteria)
    (update : NetworkUpdateCriteria) :
    Flow (Outcome Void) (Trace × List NetworkUpdateCriteria) :=
  let void : Void := {}
  match networkConfigsAreValid env s.1 update.ConfigsToAddOrUpdate with
  | (tr, some err) => Flow.ret ⟨void, some err, tr⟩
  | (tr, none) => Flow.next (tr, s.2 ++ [update])

def UpdateNetworks (env : Env) (req : UpdateNetworksRequest) : Outcome Void :=
  let void : Void := {}
  match StartTransaction env { ReadOnly := false } with
  | (tr, some err) => ⟨void, some err, tr⟩
  | (tr, none) =>
    match forRange (UpdateNetworks.body env) (tr, []) req.Updates with
    | Flow.ret out => out
    | Flow.next (tr', updates) =>
      match storeUpdateNetworks env tr' updates with
      | (tr'', some err) => ⟨void, some err, RollbackLogOnError env tr''⟩
      | (tr'', none) =>
        let c := storeCommit env tr''
        ⟨void, c.2, c.1⟩

def DeleteNetworks (env : Env) (req : DeleteNetworksRequest) : Outcome Void :=
  let void : Void := {}
  match StartTransaction env { ReadOnly := false } with
  | (tr, some err) => ⟨void, some err, tr⟩
  | (tr, none) =>
    let deleteRequests : List NetworkUpdateCriteria :=
      req.NetworkIDs.foldl
        (fun acc networkID => acc ++ [{ ID := networkID, DeleteNetwork := true }]) []
    match storeUpdateNetworks env tr deleteRequests with
    | (tr', some err) => ⟨void, some err, RollbackLogOnError env tr'⟩
    | (tr', none) =>
      let c := storeCommit env tr'
      ⟨void, c.2, c.1⟩

def LoadEntities (env : Env) (req : LoadEntitiesRequest) : Outcome EntityLoadResult :=
  let emptyRes : EntityLoadResult := {}
  match StartTransaction env { ReadOnly := false } with
  | (tr, some err) => ⟨emptyRes, some err, tr⟩
  | (tr, none) =>
    match storeLoadEntities env tr req.NetworkID req.Filter req.Criteria with
    | (tr', .error err) => ⟨emptyRes, some err, RollbackLogOnError env tr'⟩
    | (tr', .ok loadResult) =>
      let c := storeCommit env tr'
      ⟨loadResult, c.2, c.1⟩

/-- Message of the error for a write that is neither a create nor an update: the format
verb prints the Go type of `write`. -/
def writeNotRecognized : String :=
  "write request *protos.WriteEntityRequest not recognized"

/-- Body of the loop of `WriteEntities`; the state is the trace and `ret`. -/
def WriteEntities.body (env : Env) (networkID : String) (s : Trace × WriteEntitiesResponse)
    (write : WriteEntityRequest) :
    Flow (Outcome WriteEntitiesResponse) (Trace × WriteEntitiesResponse) :=
  let emptyRes : WriteEntitiesResponse := {}
  match write.Request with
  | WriteEntityRequest_Request.Create op =>
    match createEntity env s.1 networkID op with
    | (tr, .error err) =>
      Flow.ret ⟨emptyRes, statusError Code.Internal err.Error, RollbackLogOnError env tr⟩
    | (tr, .ok createdEnt) =>
      Flow.next (tr, { s.2 with CreatedEntities := s.2.CreatedEntities ++ [createdEnt] })
  | WriteEntityRequest_Request.Update op =>
    match updateEntity env s.1 networkID op with
    | (tr, .error err) =>
      Flow.ret ⟨emptyRes, statusError Code.Internal err.Error, RollbackLogOnError env tr⟩
    | (tr, .ok updatedEnt) =>
      Flow.next (tr, { s.2 with
        UpdatedEntities := GoMap.set s.2.UpdatedEntities updatedEnt.Key updatedEnt })
  | WriteEntityRequest_Request.notSet =>
    Flow.ret ⟨emptyRes, statusError Code.InvalidArgument writeNotRecognized,
      RollbackLogOnError env s.1⟩

def WriteEntities (env : Env) (req : WriteEntitiesRequest) : Outcome WriteEntitiesResponse :=
  let emptyRes : WriteEntitiesResponse := {}
  match StartTransaction env { ReadOnly := false } with
  | (tr, some err) => ⟨emptyRes, some err, tr⟩
  | (tr, none) =>
    let ret : WriteEntitiesResponse := { UpdatedEntities := [] }
    match forRange (WriteEntities.body env req.NetworkID) (tr, ret) req.Writes with
    | Flow.ret out => out
    | Flow.next (tr', ret') =>
      let c := storeCommit env tr'
      ⟨ret', c.2, c.1⟩

/-- Body of the loop of `CreateEntities`; the state is the trace and `createdEntities`. -/
def CreateEntities.body (env : Env) (networkID : String) (s : Trace × List NetworkEntity)
    (entity : NetworkEntity) :
    Flow (Outcome CreateEntitiesResponse) (Trace × List NetworkEntity) :=
  let emptyRes : CreateEntitiesResponse := {}
  match createEntity env s.1 networkID entity with
  | (tr, .error err) => Flow.ret ⟨emptyRes, some err, RollbackLogOnError env tr⟩
  | (tr, .ok createdEntity) => Flow.next (tr, s.2 ++ [createdEntity])

def CreateEntities (env : Env) (req : CreateEntitiesRequest) : Outcome CreateEntitiesResponse :=
  let emptyRes : CreateEntitiesResponse := {}
  match StartTransaction env { ReadOnly := false } with
  | (tr, some err) => ⟨emptyRes, some err, tr⟩
  | (tr, none) =>
    match forRange (CreateEntities.body env req.NetworkID) (tr, []) req.Entities with
    | Flow.ret out => out
    | Flow.next (tr', createdEntities) =>
      let c := storeCommit env tr'
      ⟨{ CreatedEntities := createdEntities }, c.2, c.1⟩

/-- Body of the loop of `UpdateEntities`; the state is the trace and `updatedEntities`. -/
def UpdateEntities.body (env : Env) (networkID : String)
    (s : Trace × List (String × NetworkEntity)) (update : EntityUpdateCriteria) :
    Flow (Outcome UpdateEntitiesResponse) (Trace × List (String × NetworkEntity)) :=
  let emptyRes : UpdateEntitiesResponse := {}
  match updateEntity env s.1 networkID update with
  | (tr, .error err) => Flow.ret ⟨emptyRes, some err, RollbackLogOnError env tr⟩
  | (tr, .ok updatedEntity) => Flow.next (tr, GoMap.set s.2 update.Key updatedEntity)

def UpdateEntities (env : Env) (req : UpdateEntitiesRequest) : Outcome UpdateEntitiesResponse :=
  let emptyRes : UpdateEntitiesResponse := {}
  match StartTransaction env { ReadOnly := false } with
  | (tr, some err) => ⟨emptyRes, some err, tr⟩
  | (tr, none) =>
    match forRange (UpdateEntities.body env req.NetworkID) (tr, []) req.Updates with
    | Flow.ret out => out
    | Flow.next (tr', updatedEntities) =>
      let c := storeCommit env tr'
      ⟨{ UpdatedEntities := updatedEntities }, c.2, c.1⟩

/-- Body of the loop of `DeleteEntities`; the state is the trace. -/
def DeleteEntities.body (env : Env) (networkID : String) (tr : Trace) (entityID : EntityID) :
    Flow (Outcome Void) Trace :=
  let void : Void := {}
  let request : EntityUpdateCriteria :=
    { Type_ := entityID.Type_, Key := entityID.Key, DeleteEntity := true }
  match storeUpdateEntity env tr networkID request with
  | (tr', .error err) => Flow.ret ⟨void, some err, RollbackLogOnError env tr'⟩
  | (tr', .ok _) => Flow.next tr'

def DeleteEntities (env : Env) (req : DeleteEntitiesRequest) : Outcome Void :=
  let void : Void := {}
  match StartTransaction env { ReadOnly := false } with
  | (tr, some err) => ⟨void, some err, tr⟩
  | (tr, none) =>
    match forRange (DeleteEntities.body env req.NetworkID) tr req.ID with
    | Flow.ret out => out
    | Flow.next tr' =>
      let c := storeCommit env tr'
      ⟨void, c.2, c.1⟩

/-! ## Observations on traces -/

/-- The storage call of an event, if it is one. -/
def Event.storeCall? : Event → Option StoreCall
  | Event.Store c _ => some c
  | _ => none

/-- The calls received by the storage transaction, in order. -/
def storeCalls (tr : Trace) : List StoreCall :=
  tr.filterMap Event.storeCall?

/-- The (domain, type tag, payload) triple of a validation event. -/
def Event.validation? : Event → Option (SerdeDomain × String × Bytes)
  | Event.DeserializeLegacy d t b _ => some (d, t, b)
  | _ => none

/-- The validations requested from the registry, in order. -/
def validations (tr : Trace) : List (SerdeDomain × String × Bytes) :=
  tr.filterMap Event.validation?

/-- Commit and Rollback end a transaction. -/
def StoreCall.isTerminal : StoreCall → Bool
  | StoreCall.Commit => true
  | StoreCall.Rollback => true
  | _ => false

/-- The call was answered with an error. -/
def Event.failed : Event → Bool
  | Event.StartTransaction _ (some _) => true
  | Event.DeserializeLegacy _ _ _ (some _) => true
  | Event.Store _ (StoreResult.err _) => true
  | _ => false

/-- The configuration payloads carried by a storage call, each with the domain and type
tag under which it has to be valid. -/
def StoreCall.payloads : StoreCall → List (SerdeDomain × String × Bytes)
  | StoreCall.CreateNetwork n =>
    n.Configs.map (fun p => (SerdeDomain.NetworkConfigSerdeDomain, p.1, p.2))
  | StoreCall.UpdateNetworks us =>
    us.flatMap (fun u =>
      u.ConfigsToAddOrUpdate.map (fun p => (SerdeDomain.NetworkConfigSerdeDomain, p.1, p.2)))
  | StoreCall.CreateEntity _ e => [(SerdeDomain.NetworkEntitySerdeDomain, e.Type_, e.Config)]
  | StoreCall.UpdateEntity _ u =>
    match u.NewConfig with
    | some b => [(SerdeDomain.NetworkEntitySerdeDomain, u.Type_, b)]
    | none => []
  | _ => []

/-- Every storage call in the trace is preceded by a successful validation of each
payload it carries. -/
def ValidatedBeforePersist (tr : Trace) : Prop :=
  ∀ (before after : Trace) (c : StoreCall) (r : StoreResult),
    tr = before ++ Event.Store c r :: after →
    ∀ p ∈ c.payloads, Event.DeserializeLegacy p.1 p.2.1 p.2.2 none ∈ before

/-- No payload that the registry rejected in this trace is carried by a storage call of
the trace. -/
def NoRejectedPayloadStored (tr : Trace) : Prop :=
  ∀ (d : SerdeDomain) (t : String) (b : Bytes) (e : GoError),
    Event.DeserializeLegacy d t b (some e) ∈ tr →
    ∀ (c : StoreCall) (r : StoreResult), Event.Store c r ∈ tr → (d, t, b) ∉ c.payloads

/-- The storage call that a write asks for, when its tag is recognized. -/
def WriteEntityRequest.storeCall? (networkID : String) (w : WriteEntityRequest) :
    Option StoreCall :=
  match w.Request with
  | WriteEntityRequest_Request.Create e => some (StoreCall.CreateEntity networkID e)
  | WriteEntityRequest_Request.Update u => some (StoreCall.UpdateEntity networkID u)
  | WriteEntityRequest_Request.notSet => none

/-- The validation that goes with an entity update: its new configuration, if any. -/
def EntityUpdateCriteria.validation (u : EntityUpdateCriteria) :
    List (SerdeDomain × String × Bytes) :=
  match u.NewConfig with
  | some b => [(SerdeDomain.NetworkEntitySerdeDomain, u.Type_, b)]
  | none => []

/-- The validation that goes with an entity creation: its configuration. -/
def NetworkEntity.validation (e : NetworkEntity) : List (SerdeDomain × String × Bytes) :=
  [(SerdeDomain.NetworkEntitySerdeDomain, e.Type_, e.Config)]

/-- The validation that goes with a write. -/
def WriteEntityRequest.validation (w : WriteEntityRequest) :
    List (SerdeDomain × String × Bytes) :=
  match w.Request with
  | WriteEntityRequest_Request.Create e => e.validation
  | WriteEntityRequest_Request.Update u => u.validation
  | WriteEntityRequest_Request.notSet => []

/-- The deletion-flagged criteria that `DeleteEntities` builds for an identifier. -/
def EntityID.deleteCriteria (entityID : EntityID) : EntityUpdateCriteria :=
  { Type_ := entityID.Type_, Key := entityID.Key, DeleteEntity := true }

/-- The deletion-flagged criteria that `DeleteNetworks` builds for an identifier. -/
def deleteNetworkCriteria (networkID : String) : NetworkUpdateCriteria :=
  { ID := networkID, DeleteNetwork := true }

/-- The network creations answered with a record: (argument, record returned). -/
def createdNetworkRecords (tr : Trace) : List (Network × Network) :=
  tr.filterMap fun ev =>
    match ev with
    | Event.Store (StoreCall.CreateNetwork n) (StoreResult.network r) => some (n, r)
    | _ => none

/-- The entity creations answered with a record: (argument, record returned). -/
def createdEntityRecords (tr : Trace) : List (NetworkEntity × NetworkEntity) :=
  tr.filterMap fun ev =>
    match ev with
    | Event.Store (StoreCall.CreateEntity _ e) (StoreResult.entity r) => some (e, r)
    | _ => none

/-- The entity updates answered with a record: (criteria, record returned). -/
def updatedEntityRecords (tr : Trace) : List (EntityUpdateCriteria × NetworkEntity) :=
  tr.filterMap fun ev =>
    match ev with
    | Event.Store (StoreCall.UpdateEntity _ u) (StoreResult.entity r) => some (u, r)
    | _ => none

/-- The last record of a list of (criteria, record) pairs whose key, read off by `key`,
is `k`. -/
def lastRecordFor (key : EntityUpdateCriteria × NetworkEntity → String)
    (records : List (EntityUpdateCriteria × NetworkEntity)) (k : String) :
    Option NetworkEntity :=
  ((records.filter (fun p => key p = k)).getLast?).map Prod.snd

/-- The updates among a list of writes, in order. -/
def writeUpdates (writes : List WriteEntityRequest) : List EntityUpdateCriteria :=
  writes.filterMap fun w =>
    match w.Request with
    | WriteEntityRequest_Request.Update u => some u
    | _ => none

/-- The same collaborators with another answer to `Commit`. -/
def Env.withCommit (env : Env) (commit : Trace → Option GoError) : Env :=
  { env with Commit := commit }

/-- The trace of a transaction that was just opened for writing. -/
def openedForWrite : Trace :=
  [Event.StartTransaction { ReadOnly := false } none]

/-- Every validation event of the trace carries the answer of the registry. -/
def Consistent (env : Env) (tr : Trace) : Prop :=
  ∀ (d : SerdeDomain) (t : String) (b : Bytes) (r : Option GoError),
    Event.DeserializeLegacy d t b r ∈ tr → r = env.DeserializeLegacy d t b

/-- The successful validation event of one entry of a network configuration map. -/
def configAccepted (p : String × Bytes) : Event :=
  Event.DeserializeLegacy SerdeDomain.NetworkConfigSerdeDomain p.1 p.2 none

/-- The invariant kept by the handlers while they extend the trace: storage calls come
after the validation of their payloads, and validation events carry the answer of the
registry. -/
def Checked (env : Env) (tr : Trace) : Prop :=
  ValidatedBeforePersist tr ∧ Consistent env tr

/-- No call of the trace was answered with an error. -/
def Quiet (tr : Trace) : Prop :=
  ∀ ev ∈ tr, ev.failed = false

/-- An outcome that left the handler before `Commit`: the response is the empty form,
the error is not nil, `Commit` was not called, and a failed storage call (other than a
rollback) is what the error, through `wrap`, reports. -/
def Aborted {ρ : Type} (empty : ρ) (wrap : GoError → Option GoError) (out : Outcome ρ) : Prop :=
  out.res = empty ∧ out.err ≠ none ∧ StoreCall.Commit ∉ storeCalls out.trace ∧
  ∀ (c : StoreCall) (e : GoError), Event.Store c (StoreResult.err e) ∈ out.trace →
    c.isTerminal = false → out.err = wrap e

/-- The map `m` holds, under each key, the last record of `records` with that key, and
has no other key. -/
def MapOf (key : EntityUpdateCriteria × NetworkEntity → String)
    (records : List (EntityUpdateCriteria × NetworkEntity))
    (m : List (String × NetworkEntity)) : Prop :=
  (GoMap.keys m).Nodup ∧
  (∀ k, k ∈ GoMap.keys m ↔ ∃ p ∈ records, key p = k) ∧
  ∀ k, GoMap.get m k = lastRecordFor key records k

/-- The creations among a list of writes, in order. -/
def writeCreates (writes : List WriteEntityRequest) : List NetworkEntity :=
  writes.filterMap fun w =>
    match w.Request with
    | WriteEntityRequest_Request.Create e => some e
    | _ => none

/-- The validations that go with a network: one for each entry of its configuration
map. -/
def networkValidations (configs : List (String × Bytes)) : List (SerdeDomain × String × Bytes) :=
  configs.map (fun p => (SerdeDomain.NetworkConfigSerdeDomain, p.1, p.2))

/-- State of the loop of `CreateNetworks` after the networks `seen`. -/
def CreateNetworks.Inv (seen : List Network) (s : Trace × List Network) : Prop :=
  Quiet s.1 ∧ storeCalls s.1 = seen.map StoreCall.CreateNetwork ∧
  validations s.1 = seen.flatMap (fun n => networkValidations n.Configs) ∧
  (createdNetworkRecords s.1).map Prod.fst = seen ∧
  (createdNetworkRecords s.1).map Prod.snd = s.2

/-- State of the loop of `UpdateNetworks` after the updates `seen`. -/
def UpdateNetworks.Inv (seen : List NetworkUpdateCriteria)
    (s : Trace × List NetworkUpdateCriteria) : Prop :=
  Quiet s.1 ∧ storeCalls s.1 = [] ∧
  validations s.1 = seen.flatMap (fun u => networkValidations u.ConfigsToAddOrUpdate) ∧
  s.2 = seen

/-- State of the loop of `CreateEntities` after the entities `seen`. -/
def CreateEntities.Inv (networkID : String) (seen : List NetworkEntity)
    (s : Trace × List NetworkEntity) : Prop :=
  Quiet s.1 ∧ storeCalls s.1 = seen.map (StoreCall.CreateEntity networkID) ∧
  validations s.1 = seen.flatMap NetworkEntity.validation ∧
  (createdEntityRecords s.1).map Prod.fst = seen ∧
  (createdEntityRecords s.1).map Prod.snd = s.2

/-- State of the loop of `UpdateEntities` after the updates `seen`. -/
def UpdateEntities.Inv (networkID : String) (seen : List EntityUpdateCriteria)
    (s : Trace × List (String × NetworkEntity)) : Prop :=
  Quiet s.1 ∧ storeCalls s.1 = seen.map (StoreCall.UpdateEntity networkID) ∧
  validations s.1 = seen.flatMap EntityUpdateCriteria.validation ∧
  (updatedEntityRecords s.1).map Prod.fst = seen ∧
  MapOf (fun p => p.1.Key) (updatedEntityRecords s.1) s.2

/-- State of the loop of `WriteEntities` after the writes `seen`. -/
def WriteEntities.Inv (networkID : String) (seen : List WriteEntityRequest)
    (s : Trace × WriteEntitiesResponse) : Prop :=
  Quiet s.1 ∧ storeCalls s.1 = seen.filterMap (WriteEntityRequest.storeCall? networkID) ∧
  (∀ w ∈ seen, w.Request ≠ WriteEntityRequest_Request.notSet) ∧
  validations s.1 = seen.flatMap WriteEntityRequest.validation ∧
  (createdEntityRecords s.1).map Prod.fst = writeCreates seen ∧
  (createdEntityRecords s.1).map Prod.snd = s.2.CreatedEntities ∧
  (updatedEntityRecords s.1).map Prod.fst = writeUpdates seen ∧
  MapOf (fun p => p.2.Key) (updatedEntityRecords s.1) s.2.UpdatedEntities

/-- State of the loop of `DeleteEntities` after the identifiers `seen`. -/
def DeleteEntities.Inv (networkID : String) (seen : List EntityID) (tr : Trace) : Prop :=
  Quiet tr ∧
  storeCalls tr = seen.map (fun id => StoreCall.UpdateEntity networkID id.deleteCriteria) ∧
  validations tr = []

/-- The error that `WriteEntities` reports for a failed creation or update. -/
def wrapInternal (e : GoError) : Option GoError :=
  statusError Code.Internal e.Error

/-- The successful validation event of a (domain, type tag, payload) triple. -/
def accepted (v : SerdeDomain × String × Bytes) : Event :=
  Event.DeserializeLegacy v.1 v.2.1 v.2.2 none

/-- The registry rejects one of the listed payloads. -/
def rejects (env : Env) (vs : List (SerdeDomain × String × Bytes)) : Bool :=
  vs.any (fun v => (env.DeserializeLegacy v.1 v.2.1 v.2.2).isSome)

/-- The three ways a handler can end.  Either the transaction could not be opened; or the
handler left early (`Aborted`), after a failed call or after `trouble`; or it reached
`Commit` after a trace `tr` without a failed call and without a terminal call, with a
response `res` described by `Good`, and then the answer to `Commit` is the error, whatever
that answer is. -/
def Outcomes {ρ : Type} (empty : ρ) (wrap : GoError → Option GoError)
    (Good : Trace → ρ → Prop) (trouble : Prop) (run : Env → Outcome ρ) (env : Env) : Prop :=
  (∃ o e, run env = ⟨empty, some e, [Event.StartTransaction o (some e)]⟩) ∨
  (Aborted empty wrap (run env) ∧ ((∃ ev ∈ (run env).trace, ev.failed = true) ∨ trouble)) ∨
  (∃ tr res, Quiet tr ∧ (∀ c ∈ storeCalls tr, c.isTerminal = false) ∧ Good tr res ∧
    ∀ f, run (env.withCommit f) =
      ⟨res, f tr, tr ++ [Event.Store StoreCall.Commit (StoreResult.ofErr (f tr))]⟩)

/-- The `ReadOnly` option with which the transaction of a trace was opened. -/
def openedReadOnly : Trace → Option Bool
  | Event.StartTransaction opts _ :: _ => some opts.ReadOnly
  | _ => none

/-- The `WriteEntities` request that creates the given entities: one create-tagged write
for each of them. -/
def createWrites (networkID : String) (entities : List NetworkEntity) : WriteEntitiesRequest :=
  { NetworkID := networkID,
    Writes := entities.map (fun e => { Request := WriteEntityRequest_Request.Create e }) }

/-- The terminal calls (`Commit`, `Rollback`) received by the storage transaction, in
order. -/
def terminalCalls (tr : Trace) : List StoreCall :=
  (storeCalls tr).filter StoreCall.isTerminal

/-! ## Sample collaborators -/

/-- A store that accepts everything: creations echo their argument, updates answer with
an entity that has the type and key of the criteria. -/
def acceptingStore (deserialize : SerdeDomain → String → Bytes → Option GoError) : Env :=
  { StartTransaction := fun _ => none
    DeserializeLegacy := deserialize
    FullNetworkLoadCriteria := { LoadMetadata := true, LoadConfigs := true }
    LoadNetworks := fun _ _ _ => .ok {}
    LoadAllNetworks := fun _ _ => .ok []
    CreateNetwork := fun _ n => .ok n
    UpdateNetworks := fun _ _ => none
    LoadEntities := fun _ _ _ _ => .ok {}
    CreateEntity := fun _ networkID e => .ok { e with NetworkID := networkID }
    UpdateEntity := fun _ networkID u =>
      .ok { NetworkID := networkID, Type_ := u.Type_, Key := u.Key,
            Config := u.NewConfig.getD [] }
    Commit := fun _ => none
    Rollback := fun _ => none }

/-- Collaborators that accept every payload and every storage call. -/
def envAllGood : Env :=
  acceptingStore (fun _ _ _ => none)

/-- Collaborators whose registry rejects every payload. -/
def envRejecting : Env :=
  acceptingStore (fun _ _ _ => some (GoError.plain "bad config"))

/-- Collaborators whose store fails every entity creation and update. -/
def envStoreDown : Env :=
  { envAllGood with
    CreateEntity := fun _ _ _ => .error (GoError.plain "store down")
    UpdateEntity := fun _ _ _ => .error (GoError.plain "store down")
    CreateNetwork := fun _ _ => .error (GoError.plain "store down")
    UpdateNetworks := fun _ _ => some (GoError.plain "store down")
    LoadNetworks := fun _ _ _ => .error (GoError.plain "store down")
    LoadAllNetworks := fun _ _ => .error (GoError.plain "store down")
    LoadEntities := fun _ _ _ _ => .error (GoError.plain "store down") }

/-- Collaborators for which everything succeeds except `Commit`. -/
def envCommitFails : Env :=
  envAllGood.withCommit (fun _ => some (GoError.plain "commit failed"))

/-- A store in which an entity can be created once: a second creation with a key already
created in the same transaction fails. -/
def envOnce : Env :=
  { envAllGood with
    CreateEntity := fun tr networkID e =>
      if (createdEntityRecords tr).any (fun p => p.1.Key = e.Key) then
        .error (GoError.plain "already exists")
      else .ok { e with NetworkID := networkID } }

/-! ## Sample requests -/

/-- A network with one configuration. -/
def sampleNetwork : Network :=
  { ID := "n1", Type_ := "lte", Configs := [("cfg", [1, 2])] }

/-- A second network. -/
def sampleNetwork2 : Network :=
  { ID := "n2", Type_ := "lte", Configs := [("cfg", [3]), ("dns", [4])] }

/-- An update of the configuration of a network. -/
def sampleNetworkUpdate : NetworkUpdateCriteria :=
  { ID := "n1", ConfigsToAddOrUpdate := [("cfg", [5])] }

/-- An entity with a configuration. -/
def sampleEntity : NetworkEntity :=
  { Type_ := "cfg", Key := "e1", Config := [1] }

/-- A second entity. -/
def sampleEntity2 : NetworkEntity :=
  { Type_ := "cfg", Key := "e2", Config := [2] }

/-- An update with a new configuration. -/
def sampleUpdate : EntityUpdateCriteria :=
  { Type_ := "cfg", Key := "e1", NewConfig := some [3] }

/-- An update of an entity with the same key and another type. -/
def sampleUpdateOtherType : EntityUpdateCriteria :=
  { Type_ := "other", Key := "e1" }

/-- A request to create the sample entity. -/
def sampleCreateEntities : CreateEntitiesRequest :=
  { NetworkID := "n1", Entities := [sampleEntity] }

/-- A request to create two entities. -/
def sampleCreateTwo : CreateEntitiesRequest :=
  { NetworkID := "n1", Entities := [sampleEntity, sampleEntity2] }

/-- A request to apply the sample update. -/
def sampleUpdateEntities : UpdateEntitiesRequest :=
  { NetworkID := "n1", Updates := [sampleUpdate] }

/-- A request to delete the sample entity. -/
def sampleDeleteEntities : DeleteEntitiesRequest :=
  { NetworkID := "n1", ID := [{ Type_ := "cfg", Key := "e1" }] }

/-- A request with one creation. -/
def sampleWriteCreate : WriteEntitiesRequest :=
  { NetworkID := "n1", Writes := [⟨WriteEntityRequest_Request.Create sampleEntity⟩] }

/-- A request with a creation followed by an update of the created entity. -/
def sampleWrites : WriteEntitiesRequest :=
  { NetworkID := "n1",
    Writes := [⟨WriteEntityRequest_Request.Create sampleEntity⟩,
               ⟨WriteEntityRequest_Request.Update sampleUpdate⟩] }

/-- A request to create the sample network. -/
def sampleCreateNetworks : CreateNetworksRequest :=
  { Networks := [sampleNetwork] }

/-- A request to update the sample network. -/
def sampleUpdateNetworks : UpdateNetworksRequest :=
  { Updates := [sampleNetworkUpdate] }

/-- A request to delete two networks. -/
def sampleDeleteNetworks : DeleteNetworksRequest :=
  { NetworkIDs := ["n1", "n2"] }

/-- A request to load the entities of a network. -/
def sampleLoadEntities : LoadEntitiesRequest :=
  { NetworkID := "n1" }

/-- A request to create the two sample networks. -/
def sampleCreateTwoNetworks : CreateNetworksRequest :=
  { Networks := [sampleNetwork, sampleNetwork2] }

/-- A request with two updates that have the same key and different types. -/
def sampleUpdateSameKey : UpdateEntitiesRequest :=
  { NetworkID := "n1", Updates := [sampleUpdate, sampleUpdateOtherType] }

/-- The record that the accepting store returns for the sample entity. -/
def sampleCreated : NetworkEntity :=
  { sampleEntity with NetworkID := "n1" }

/-- The trace after the transaction was opened and the sample entity was created. -/
def afterSampleCreate : Trace :=
  openedForWrite ++
    [Event.DeserializeLegacy SerdeDomain.NetworkEntitySerdeDomain "cfg" [1] none,
     Event.Store (StoreCall.CreateEntity "n1" sampleEntity) (StoreResult.entity sampleCreated)]

/-- The record that the accepting store returns for the update of another type. -/
def sampleUpdatedOther : NetworkEntity :=
  { NetworkID := "n1", Type_ := "other", Key := "e1" }

/-- The trace after the transaction was opened and the update of another type was
applied. -/
def afterSampleUpdate : Trace :=
  openedForWrite ++
    [Event.Store (StoreCall.UpdateEntity "n1" sampleUpdateOtherType)
      (StoreResult.entity sampleUpdatedOther)]

/-- A request that creates the sample entity twice, then a second entity. -/
def sampleCreateTwice : CreateEntitiesRequest :=
  { NetworkID := "n1", Entities := [sampleEntity, sampleEntity, sampleEntity2] }

/-- A request with an update without configuration followed by one with a
configuration. -/
def sampleUpdateTwo : UpdateEntitiesRequest :=
  { NetworkID := "n1", Updates := [sampleUpdateOtherType, sampleUpdate] }

/-- A request with the same creation twice. -/
def sampleWriteTwice : WriteEntitiesRequest :=
  { NetworkID := "n1",
    Writes := [⟨WriteEntityRequest_Request.Create sampleEntity⟩,
               ⟨WriteEntityRequest_Request.Create sampleEntity⟩,
               ⟨WriteEntityRequest_Request.Update sampleUpdate⟩] }

/-- A request with a creation, a write without a recognized tag, and an update. -/
def sampleWriteNotSet : WriteEntitiesRequest :=
  { NetworkID := "n1",
    Writes := [⟨WriteEntityRequest_Request.Create sampleEntity⟩,
               ⟨WriteEntityRequest_Request.notSet⟩,
               ⟨WriteEntityRequest_Request.Update sampleUpdate⟩] }

/-- Outcome of a loop satisfies `P` when the loop runs to its end and `Q` when the body
returned from the function. -/
def Flow.sat {ρ σ : Type} (P : σ → Prop) (Q : ρ → Prop) : Flow ρ σ → Prop
  | Flow.next s => P s
  | Flow.ret out => Q out

/-! # Properties -/

/-! ## Loops -/

@[simp]
theorem flow_sat_next {ρ σ : Type} (P : σ → Prop) (Q : ρ → Prop) (s : σ) :
    (Flow.next s : Flow ρ σ).sat P Q = P s := rfl

@[simp]
theorem flow_sat_ret {ρ σ : Type} (P : σ → Prop) (Q : ρ → Prop) (out : ρ) :
    (Flow.ret out : Flow ρ σ).sat P Q = Q out := rfl

/-- Loop rule: an invariant indexed by the items already visited; the body is only
looked at on items of the list. -/
theorem forRange_sat_indexed {ι ρ σ : Type} (body : σ → ι → Flow ρ σ)
    (P : List ι → σ → Prop) (Q : ρ → Prop) :
    ∀ (xs : List ι),
      (∀ seen s x, x ∈ xs → P seen s → (body s x).sat (P (seen ++ [x])) Q) →
      ∀ (seen : List ι) (s : σ), P seen s → (forRange body s xs).sat (P (seen ++ xs)) Q := by
  intro xs
  induction xs with
  | nil => intro _ seen s h; simpa [forRange] using h
  | cons x xs ih =>
    intro step seen s h
    have hx := step seen s x (by simp) h
    unfold forRange
    cases hb : body s x with
    | next s' =>
      rw [hb] at hx
      have := ih (fun seen s y hy => step seen s y (by simp [hy])) (seen ++ [x]) s' hx
      simpa using this
    | ret out =>
      rw [hb] at hx
      simpa using hx

/-- Loop rule: a plain invariant. -/
theorem forRange_sat {ι ρ σ : Type} (body : σ → ι → Flow ρ σ) (P : σ → Prop) (Q : ρ → Prop)
    (step : ∀ s x, P s → (body s x).sat P Q) (xs : List ι) (s : σ) (h : P s) :
    (forRange body s xs).sat P Q :=
  forRange_sat_indexed body (fun _ => P) Q xs (fun _ s x _ hs => step s x hs) [] s h

/-- A loop over a concatenation runs the first part, then the second. -/
theorem forRange_append {ι ρ σ : Type} (body : σ → ι → Flow ρ σ) (xs ys : List ι) (s : σ) :
    forRange body s (xs ++ ys) =
      match forRange body s xs with
      | Flow.next s' => forRange body s' ys
      | Flow.ret out => Flow.ret out := by
  induction xs generalizing s with
  | nil => simp [forRange]
  | cons x xs ih =>
    simp only [List.cons_append, forRange]
    cases body s x with
    | next s' => simpa using ih s'
    | ret out => rfl

/-! ## Validation helpers -/

theorem networkConfigsAreValid_none (env : Env) :
    ∀ (configs : List (String × Bytes)) (tr : Trace),
      (networkConfigsAreValid env tr configs).2 = none →
      (networkConfigsAreValid env tr configs).1 = tr ++ configs.map configAccepted ∧
      ∀ p ∈ configs, env.DeserializeLegacy SerdeDomain.NetworkConfigSerdeDomain p.1 p.2 = none := by
  intro configs
  induction configs with
  | nil => intro tr _; simp [networkConfigsAreValid]
  | cons p rest ih =>
    intro tr h
    obtain ⟨t, b⟩ := p
    simp only [networkConfigsAreValid, DeserializeLegacy] at h ⊢
    cases hd : env.DeserializeLegacy SerdeDomain.NetworkConfigSerdeDomain t b with
    | some e => simp [hd] at h
    | none =>
      simp only [hd] at h ⊢
      obtain ⟨h1, h2⟩ := ih _ h
      refine ⟨?_, ?_⟩
      · rw [h1]; simp [configAccepted]
      · intro p hp
        rcases List.mem_cons.1 hp with rfl | hp
        · exact hd
        · exact h2 p hp

theorem networkConfigsAreValid_some (env : Env) :
    ∀ (configs : List (String × Bytes)) (tr : Trace) (e : GoError),
      (networkConfigsAreValid env tr configs).2 = some e →
      ∃ seen x later, configs = seen ++ x :: later ∧
        (networkConfigsAreValid env tr configs).1 = tr ++ seen.map configAccepted ++
          [Event.DeserializeLegacy SerdeDomain.NetworkConfigSerdeDomain x.1 x.2 (some e)] ∧
        env.DeserializeLegacy SerdeDomain.NetworkConfigSerdeDomain x.1 x.2 = some e ∧
        ∀ p ∈ seen, env.DeserializeLegacy SerdeDomain.NetworkConfigSerdeDomain p.1 p.2 = none := by
  intro configs
  induction configs with
  | nil => intro tr e h; simp [networkConfigsAreValid] at h
  | cons p rest ih =>
    intro tr e h
    obtain ⟨t, b⟩ := p
    simp only [networkConfigsAreValid, DeserializeLegacy] at h ⊢
    cases hd : env.DeserializeLegacy SerdeDomain.NetworkConfigSerdeDomain t b with
    | some e' =>
      simp only [hd] at h ⊢
      cases h
      exact ⟨[], (t, b), rest, by simp, by simp, hd, by simp⟩
    | none =>
      simp only [hd] at h ⊢
      obtain ⟨seen, x, later, h1, h2, h3, h4⟩ := ih _ e h
      refine ⟨(t, b) :: seen, x, later, by simp [h1], ?_, h3, ?_⟩
      · rw [h2]; simp [configAccepted]
      · intro p hp
        rcases List.mem_cons.1 hp with rfl | hp
        · exact hd
        · exact h4 p hp

/-! ## Validate before persist -/

theorem validatedBeforePersist_append {tr : Trace} (h : ValidatedBeforePersist tr) (ev : Event)
    (hev : ∀ c r, ev = Event.Store c r →
      ∀ p ∈ c.payloads, Event.DeserializeLegacy p.1 p.2.1 p.2.2 none ∈ tr) :
    ValidatedBeforePersist (tr ++ [ev]) := by
  intro before after c r heq p hp
  rcases List.eq_nil_or_concat after with rfl | ⟨after', a, rfl⟩
  · have := List.append_inj' heq rfl
    obtain ⟨h1, h2⟩ := this
    subst h1
    simp only [List.cons.injEq, and_true] at h2
    exact hev c r h2 p hp
  · have heq' : tr ++ [ev] = (before ++ Event.Store c r :: after') ++ [a] := by
      simpa using heq
    have := List.append_inj' heq' rfl
    exact h before after' c r this.1 p hp

theorem validatedBeforePersist_append_list {tr : Trace} (h : ValidatedBeforePersist tr) :
    ∀ (evs : Trace), (∀ ev ∈ evs, ev.storeCall? = none) →
      ValidatedBeforePersist (tr ++ evs) := by
  intro evs
  induction evs using List.reverseRecOn with
  | nil => intro _; simpa using h
  | append_singleton evs ev ih =>
    intro hev
    rw [← List.append_assoc]
    refine validatedBeforePersist_append (ih fun ev' h' => hev ev' (by simp [h'])) ev ?_
    intro c r hc
    have := hev ev (by simp)
    simp [hc, Event.storeCall?] at this

theorem validatedBeforePersist_start (opts : TxOptions) (err : Option GoError) :
    ValidatedBeforePersist [Event.StartTransaction opts err] := by
  have h0 : ValidatedBeforePersist [] := by
    intro before after c r heq
    simp at heq
  have := validatedBeforePersist_append h0 (Event.StartTransaction opts err)
    (by intro c r h; cases h)
  simpa using this

theorem noRejectedPayloadStored_of {env : Env} {tr : Trace} (h : ValidatedBeforePersist tr)
    (hc : Consistent env tr) : NoRejectedPayloadStored tr := by
  intro d t b e hrej c r hstore hp
  obtain ⟨before, after, heq⟩ := List.mem_iff_append.1 hstore
  have hok := h before after c r heq (d, t, b) hp
  have hok' : Event.DeserializeLegacy d t b none ∈ tr := by
    rw [heq]; simp [hok]
  have h1 := hc d t b none hok'
  have h2 := hc d t b (some e) hrej
  rw [← h1] at h2
  cases h2

/-- The two properties that the handlers keep while they extend the trace. -/
theorem checked_final {env : Env} {tr : Trace}
    (h : ValidatedBeforePersist tr ∧ Consistent env tr) :
    ValidatedBeforePersist tr ∧ NoRejectedPayloadStored tr :=
  ⟨h.1, noRejectedPayloadStored_of h.1 h.2⟩

theorem consistent_append {env : Env} {tr : Trace} (h : Consistent env tr) (evs : Trace)
    (hev : ∀ d t b r, Event.DeserializeLegacy d t b r ∈ evs → r = env.DeserializeLegacy d t b) :
    Consistent env (tr ++ evs) := by
  intro d t b r hmem
  rcases List.mem_append.1 hmem with h' | h'
  · exact h d t b r h'
  · exact hev d t b r h'

theorem checked_append_deser {env : Env} {tr : Trace} (h : Checked env tr) (d : SerdeDomain)
    (t : String) (b : Bytes) :
    Checked env (tr ++ [Event.DeserializeLegacy d t b (env.DeserializeLegacy d t b)]) := by
  refine ⟨validatedBeforePersist_append h.1 _ (by intro c r hc; cases hc), ?_⟩
  refine consistent_append h.2 _ ?_
  intro d' t' b' r hmem
  simp only [List.mem_singleton, Event.DeserializeLegacy.injEq] at hmem
  obtain ⟨rfl, rfl, rfl, rfl⟩ := hmem
  rfl

theorem checked_append_store {env : Env} {tr : Trace} (h : Checked env tr) (c : StoreCall)
    (r : StoreResult)
    (hp : ∀ p ∈ c.payloads, Event.DeserializeLegacy p.1 p.2.1 p.2.2 none ∈ tr) :
    Checked env (tr ++ [Event.Store c r]) := by
  refine ⟨validatedBeforePersist_append h.1 _ ?_, ?_⟩
  · intro c' r' hc
    cases hc
    exact hp
  · refine consistent_append h.2 _ ?_
    intro d t b r' hmem
    simp at hmem

theorem checked_start (env : Env) (opts : TxOptions) (err : Option GoError) :
    Checked env [Event.StartTransaction opts err] := by
  refine ⟨validatedBeforePersist_start opts err, ?_⟩
  intro d t b r hmem
  simp at hmem

theorem checked_rollback {env : Env} {tr : Trace} (h : Checked env tr) :
    Checked env (RollbackLogOnError env tr) :=
  checked_append_store h _ _ (by simp [StoreCall.payloads])

theorem checked_commit {env : Env} {tr : Trace} (h : Checked env tr) :
    Checked env (storeCommit env tr).1 :=
  checked_append_store h _ _ (by simp [StoreCall.payloads])

theorem checked_createEntity {env : Env} {tr : Trace} (h : Checked env tr) (networkID : String)
    (entity : NetworkEntity) : Checked env (createEntity env tr networkID entity).1 := by
  have h1 := checked_append_deser h SerdeDomain.NetworkEntitySerdeDomain entity.Type_
    entity.Config
  simp only [Configurator.createEntity, entityConfigIsValid, DeserializeLegacy,
    storeCreateEntity]
  cases hd : env.DeserializeLegacy SerdeDomain.NetworkEntitySerdeDomain entity.Type_
      entity.Config with
  | some e => simpa [hd] using h1
  | none =>
    rw [hd] at h1
    simp only []
    cases hc : env.CreateEntity _ networkID entity with
    | error e => exact checked_append_store h1 _ _ (by simp [StoreCall.payloads])
    | ok r => exact checked_append_store h1 _ _ (by simp [StoreCall.payloads])

theorem checked_updateEntity {env : Env} {tr : Trace} (h : Checked env tr) (networkID : String)
    (update : EntityUpdateCriteria) : Checked env (updateEntity env tr networkID update).1 := by
  simp only [Configurator.updateEntity, entityConfigIsValid, DeserializeLegacy,
    storeUpdateEntity]
  cases hn : update.NewConfig with
  | none =>
    simp only []
    cases hc : env.UpdateEntity _ networkID update with
    | error e => exact checked_append_store h _ _ (by simp [StoreCall.payloads, hn])
    | ok r => exact checked_append_store h _ _ (by simp [StoreCall.payloads, hn])
  | some b =>
    have h1 := checked_append_deser h SerdeDomain.NetworkEntitySerdeDomain update.Type_ b
    simp only []
    cases hd : env.DeserializeLegacy SerdeDomain.NetworkEntitySerdeDomain update.Type_ b with
    | some e => simpa [hd] using h1
    | none =>
      rw [hd] at h1
      simp only []
      cases hc : env.UpdateEntity _ networkID update with
      | error e => exact checked_append_store h1 _ _ (by simp [StoreCall.payloads, hn])
      | ok r => exact checked_append_store h1 _ _ (by simp [StoreCall.payloads, hn])

/-- Validation of a network configuration map keeps the invariant and, when it succeeds,
leaves a successful validation event for every entry. -/
theorem checked_networkConfigs {env : Env} {tr : Trace} (h : Checked env tr)
    (configs : List (String × Bytes)) :
    Checked env (networkConfigsAreValid env tr configs).1 ∧
    (∀ ev ∈ tr, ev ∈ (networkConfigsAreValid env tr configs).1) ∧
    ((networkConfigsAreValid env tr configs).2 = none →
      ∀ p ∈ configs, configAccepted p ∈ (networkConfigsAreValid env tr configs).1) := by
  cases hr : (networkConfigsAreValid env tr configs).2 with
  | none =>
    obtain ⟨h1, h2⟩ := networkConfigsAreValid_none env configs tr hr
    rw [h1]
    refine ⟨⟨validatedBeforePersist_append_list h.1 _ ?_, consistent_append h.2 _ ?_⟩, ?_, ?_⟩
    · intro ev hev
      obtain ⟨p, _, rfl⟩ := List.mem_map.1 hev
      rfl
    · intro d t b r hmem
      obtain ⟨p, hp, hev⟩ := List.mem_map.1 hmem
      simp only [configAccepted, Event.DeserializeLegacy.injEq] at hev
      obtain ⟨rfl, rfl, rfl, rfl⟩ := hev
      exact (h2 p hp).symm
    · intro ev hev; simp [hev]
    · intro _ p hp
      exact List.mem_append_right _ (List.mem_map_of_mem _ hp)
  | some e =>
    obtain ⟨seen, x, later, h0, h1, h2, h3⟩ := networkConfigsAreValid_some env configs tr e hr
    rw [h1]
    refine ⟨⟨?_, ?_⟩, ?_, ?_⟩
    · rw [List.append_assoc]
      refine validatedBeforePersist_append_list h.1 _ ?_
      intro ev hev
      rcases List.mem_append.1 hev with hev | hev
      · obtain ⟨p, _, rfl⟩ := List.mem_map.1 hev
        rfl
      · simp only [List.mem_singleton] at hev
        subst hev
        rfl
    · rw [List.append_assoc]
      refine consistent_append h.2 _ ?_
      intro d t b r hmem
      rcases List.mem_append.1 hmem with hev | hev
      · obtain ⟨p, hp, hev⟩ := List.mem_map.1 hev
        simp only [configAccepted, Event.DeserializeLegacy.injEq] at hev
        obtain ⟨rfl, rfl, rfl, rfl⟩ := hev
        exact (h3 p hp).symm
      · simp only [List.mem_singleton, Event.DeserializeLegacy.injEq] at hev
        obtain ⟨rfl, rfl, rfl, rfl⟩ := hev
        exact h2.symm
    · intro ev hev; simp [hev]
    · intro hn; cases hn

theorem checked_CreateNetworks (env : Env) (req : CreateNetworksRequest) :
    Checked env (CreateNetworks env req).trace := by
  simp only [CreateNetworks, StartTransaction]
  cases hs : env.StartTransaction { ReadOnly := false } with
  | some e => exact checked_start env _ _
  | none =>
    simp only []
    have hloop := forRange_sat (CreateNetworks.body env)
      (fun s => Checked env s.1) (fun out => Checked env out.trace)
      (by
        intro s x hP
        obtain ⟨h1, -, h3⟩ := checked_networkConfigs hP x.Configs
        simp only [CreateNetworks.body]
        cases hv : networkConfigsAreValid env s.1 x.Configs with
        | mk tr err =>
          rw [hv] at h1 h3
          cases err with
          | some e => simpa using h1
          | none =>
            have hpay : ∀ p ∈ (StoreCall.CreateNetwork x).payloads,
                Event.DeserializeLegacy p.1 p.2.1 p.2.2 none ∈ tr := by
              intro p hp
              simp only [StoreCall.payloads, List.mem_map] at hp
              obtain ⟨q, hq, rfl⟩ := hp
              exact h3 rfl q hq
            simp only [storeCreateNetwork]
            cases hc : env.CreateNetwork tr x with
            | error e => exact checked_rollback (checked_append_store h1 _ _ hpay)
            | ok r => exact checked_append_store h1 _ _ hpay)
      req.Networks ([Event.StartTransaction { ReadOnly := false } none], [])
      (checked_start env _ _)
    cases hf : forRange (CreateNetworks.body env)
        ([Event.StartTransaction { ReadOnly := false } none], []) req.Networks with
    | ret out => rw [hf] at hloop; simpa using hloop
    | next s =>
      rw [hf] at hloop
      exact checked_commit hloop

theorem checked_UpdateNetworks (env : Env) (req : UpdateNetworksRequest) :
    Checked env (UpdateNetworks env req).trace := by
  simp only [UpdateNetworks, StartTransaction]
  cases hs : env.StartTransaction { ReadOnly := false } with
  | some e => exact checked_start env _ _
  | none =>
    simp only []
    have hloop := forRange_sat (UpdateNetworks.body env)
      (fun s => Checked env s.1 ∧
        ∀ u ∈ s.2, ∀ p ∈ u.ConfigsToAddOrUpdate, configAccepted p ∈ s.1)
      (fun out => Checked env out.trace)
      (by
        intro s x hP
        obtain ⟨h1, h2, h3⟩ := checked_networkConfigs hP.1 x.ConfigsToAddOrUpdate
        simp only [UpdateNetworks.body]
        cases hv : networkConfigsAreValid env s.1 x.ConfigsToAddOrUpdate with
        | mk tr err =>
          rw [hv] at h1 h2 h3
          cases err with
          | some e => simpa using h1
          | none =>
            refine ⟨h1, ?_⟩
            intro u hu p hp
            rcases List.mem_append.1 hu with hu | hu
            · exact h2 _ (hP.2 u hu p hp)
            · simp only [List.mem_singleton] at hu
              subst hu
              exact h3 rfl p hp)
      req.Updates ([Event.StartTransaction { ReadOnly := false } none], [])
      ⟨checked_start env _ _, by simp⟩
    cases hf : forRange (UpdateNetworks.body env)
        ([Event.StartTransaction { ReadOnly := false } none], []) req.Updates with
    | ret out => rw [hf] at hloop; simpa using hloop
    | next s =>
      rw [hf] at hloop
      obtain ⟨tr, updates⟩ := s
      have hpay : ∀ p ∈ (StoreCall.UpdateNetworks updates).payloads,
          Event.DeserializeLegacy p.1 p.2.1 p.2.2 none ∈ tr := by
        intro p hp
        simp only [StoreCall.payloads, List.mem_flatMap, List.mem_map] at hp
        obtain ⟨u, hu, q, hq, rfl⟩ := hp
        exact hloop.2 u hu q hq
      have hst := checked_append_store hloop.1 (StoreCall.UpdateNetworks updates)
        (StoreResult.ofErr (env.UpdateNetworks tr updates)) hpay
      simp only [storeUpdateNetworks]
      cases hu : env.UpdateNetworks tr updates with
      | some e =>
        rw [hu] at hst
        exact checked_rollback hst
      | none =>
        rw [hu] at hst
        exact checked_commit hst

theorem checked_CreateEntities (env : Env) (req : CreateEntitiesRequest) :
    Checked env (CreateEntities env req).trace := by
  simp only [CreateEntities, StartTransaction]
  cases hs : env.StartTransaction { ReadOnly := false } with
  | some e => exact checked_start env _ _
  | none =>
    simp only []
    have hloop := forRange_sat (CreateEntities.body env req.NetworkID)
      (fun s => Checked env s.1) (fun out => Checked env out.trace)
      (by
        intro s x hP
        have h1 := checked_createEntity hP req.NetworkID x
        simp only [CreateEntities.body]
        cases hv : createEntity env s.1 req.NetworkID x with
        | mk tr r =>
          rw [hv] at h1
          cases r with
          | error e => exact checked_rollback h1
          | ok r => exact h1)
      req.Entities ([Event.StartTransaction { ReadOnly := false } none], [])
      (checked_start env _ _)
    cases hf : forRange (CreateEntities.body env req.NetworkID)
        ([Event.StartTransaction { ReadOnly := false } none], []) req.Entities with
    | ret out => rw [hf] at hloop; simpa using hloop
    | next s =>
      rw [hf] at hloop
      exact checked_commit hloop

theorem checked_UpdateEntities (env : Env) (req : UpdateEntitiesRequest) :
    Checked env (UpdateEntities env req).trace := by
  simp only [UpdateEntities, StartTransaction]
  cases hs : env.StartTransaction { ReadOnly := false } with
  | some e => exact checked_start env _ _
  | none =>
    simp only []
    have hloop := forRange_sat (UpdateEntities.body env req.NetworkID)
      (fun s => Checked env s.1) (fun out => Checked env out.trace)
      (by
        intro s x hP
        have h1 := checked_updateEntity hP req.NetworkID x
        simp only [UpdateEntities.body]
        cases hv : updateEntity env s.1 req.NetworkID x with
        | mk tr r =>
          rw [hv] at h1
          cases r with
          | error e => exact checked_rollback h1
          | ok r => exact h1)
      req.Updates ([Event.StartTransaction { ReadOnly := false } none], [])
      (checked_start env _ _)
    cases hf : forRange (UpdateEntities.body env req.NetworkID)
        ([Event.StartTransaction { ReadOnly := false } none], []) req.Updates with
    | ret out => rw [hf] at hloop; simpa using hloop
    | next s =>
      rw [hf] at hloop
      exact checked_commit hloop

theorem checked_WriteEntities (env : Env) (req : WriteEntitiesRequest) :
    Checked env (WriteEntities env req).trace := by
  simp only [WriteEntities, StartTransaction]
  cases hs : env.StartTransaction { ReadOnly := false } with
  | some e => exact checked_start env _ _
  | none =>
    simp only []
    have hloop := forRange_sat (WriteEntities.body env req.NetworkID)
      (fun s => Checked env s.1) (fun out => Checked env out.trace)
      (by
        intro s x hP
        simp only [WriteEntities.body]
        cases hx : x.Request with
        | Create op =>
          have h1 := checked_createEntity hP req.NetworkID op
          simp only []
          cases hv : createEntity env s.1 req.NetworkID op with
          | mk tr r =>
            rw [hv] at h1
            cases r with
            | error e => exact checked_rollback h1
            | ok r => exact h1
        | Update op =>
          have h1 := checked_updateEntity hP req.NetworkID op
          simp only []
          cases hv : updateEntity env s.1 req.NetworkID op with
          | mk tr r =>
            rw [hv] at h1
            cases r with
            | error e => exact checked_rollback h1
            | ok r => exact h1
        | notSet => exact checked_rollback hP)
      req.Writes ([Event.StartTransaction { ReadOnly := false } none], { UpdatedEntities := [] })
      (checked_start env _ _)
    cases hf : forRange (WriteEntities.body env req.NetworkID)
        ([Event.StartTransaction { ReadOnly := false } none], { UpdatedEntities := [] })
        req.Writes with
    | ret out => rw [hf] at hloop; simpa using hloop
    | next s =>
      rw [hf] at hloop
      exact checked_commit hloop

/-- C2. Validate before persist: in the trace of `CreateNetworks`, `UpdateNetworks`,
`CreateEntities`, `UpdateEntities` and `WriteEntities`, whatever the registry and the
store answer, every storage call is preceded by a successful validation of each payload
it carries (every entry of `Configs` or `ConfigsToAddOrUpdate` under the network domain,
an entity `Config` under the entity domain with the type of the entity, a `NewConfig`
under the entity domain with the type of the update), and no payload that the registry
rejected is carried by a storage call. -/
theorem C2_validate_before_persist (env : Env) :
    (∀ req, ValidatedBeforePersist (CreateNetworks env req).trace ∧
      NoRejectedPayloadStored (CreateNetworks env req).trace) ∧
    (∀ req, ValidatedBeforePersist (UpdateNetworks env req).trace ∧
      NoRejectedPayloadStored (UpdateNetworks env req).trace) ∧
    (∀ req, ValidatedBeforePersist (CreateEntities env req).trace ∧
      NoRejectedPayloadStored (CreateEntities env req).trace) ∧
    (∀ req, ValidatedBeforePersist (UpdateEntities env req).trace ∧
      NoRejectedPayloadStored (UpdateEntities env req).trace) ∧
    (∀ req, ValidatedBeforePersist (WriteEntities env req).trace ∧
      NoRejectedPayloadStored (WriteEntities env req).trace) :=
  ⟨fun req => checked_final (checked_CreateNetworks env req),
   fun req => checked_final (checked_UpdateNetworks env req),
   fun req => checked_final (checked_CreateEntities env req),
   fun req => checked_final (checked_UpdateEntities env req),
   fun req => checked_final (checked_WriteEntities env req)⟩

/-! ## Maps -/

theorem goMap_get_set {β : Type} (m : List (String × β)) (k k' : String) (v : β) :
    GoMap.get (GoMap.set m k v) k' = if k = k' then some v else GoMap.get m k' := by
  induction m with
  | nil => simp [GoMap.set, GoMap.get]
  | cons p rest ih =>
    obtain ⟨a, b⟩ := p
    by_cases hak : a = k
    · subst hak
      by_cases hk : a = k' <;> simp [GoMap.set, GoMap.get, hk]
    · by_cases hk : k = k'
      · subst hk
        simp [GoMap.set, GoMap.get, hak, ih]
      · simp [GoMap.set, GoMap.get, hak, ih, hk]

theorem goMap_keys_set {β : Type} (m : List (String × β)) (k k' : String) (v : β) :
    k' ∈ GoMap.keys (GoMap.set m k v) ↔ k' = k ∨ k' ∈ GoMap.keys m := by
  induction m with
  | nil => simp [GoMap.set, GoMap.keys]
  | cons p rest ih =>
    obtain ⟨a, b⟩ := p
    by_cases hak : a = k
    · subst hak
      simp [GoMap.set, GoMap.keys]
    · simp only [GoMap.keys] at ih
      simp only [GoMap.set, hak, GoMap.keys, if_false, List.map_cons, List.mem_cons, ih]
      tauto

theorem goMap_nodup_set {β : Type} (m : List (String × β)) (k : String) (v : β)
    (h : (GoMap.keys m).Nodup) : (GoMap.keys (GoMap.set m k v)).Nodup := by
  induction m with
  | nil => simp [GoMap.set, GoMap.keys]
  | cons p rest ih =>
    obtain ⟨a, b⟩ := p
    have h' : a ∉ GoMap.keys rest ∧ (GoMap.keys rest).Nodup := by
      simpa [GoMap.keys] using h
    by_cases hak : a = k
    · subst hak
      simpa [GoMap.set, GoMap.keys] using h
    · have hset : GoMap.set ((a, b) :: rest) k v = (a, b) :: GoMap.set rest k v := by
        simp [GoMap.set, hak]
      rw [hset]
      have hk : GoMap.keys ((a, b) :: GoMap.set rest k v) = a :: GoMap.keys (GoMap.set rest k v) :=
        rfl
      rw [hk, List.nodup_cons]
      refine ⟨?_, ih h'.2⟩
      rw [goMap_keys_set]
      rintro (h1 | h1)
      · exact hak h1
      · exact h'.1 h1

theorem lastRecordFor_append (key : EntityUpdateCriteria × NetworkEntity → String)
    (records : List (EntityUpdateCriteria × NetworkEntity))
    (p : EntityUpdateCriteria × NetworkEntity) (k : String) :
    lastRecordFor key (records ++ [p]) k =
      if key p = k then some p.2 else lastRecordFor key records k := by
  by_cases h : key p = k
  · simp [lastRecordFor, List.filter_append, h, List.getLast?_append]
  · simp [lastRecordFor, List.filter_append, h]

/-! ## Observations on extended traces -/

theorem quiet_append (tr evs : Trace) : Quiet (tr ++ evs) ↔ Quiet tr ∧ Quiet evs := by
  simp only [Quiet, List.mem_append]
  constructor
  · intro h
    exact ⟨fun ev hev => h ev (Or.inl hev), fun ev hev => h ev (Or.inr hev)⟩
  · rintro ⟨h1, h2⟩ ev (hev | hev)
    · exact h1 ev hev
    · exact h2 ev hev

theorem quiet_accepted (vs : List (SerdeDomain × String × Bytes)) : Quiet (vs.map accepted) := by
  intro ev hev
  obtain ⟨v, _, rfl⟩ := List.mem_map.1 hev
  rfl

theorem storeCalls_accepted (vs : List (SerdeDomain × String × Bytes)) :
    storeCalls (vs.map accepted) = [] := by
  induction vs with
  | nil => rfl
  | cons v vs ih => simp [storeCalls, accepted, Event.storeCall?]

theorem validations_accepted (vs : List (SerdeDomain × String × Bytes)) :
    validations (vs.map accepted) = vs := by
  induction vs with
  | nil => rfl
  | cons v vs ih =>
    simp only [validations] at ih
    simp [validations, accepted, Event.validation?, ih]

theorem createdNetworkRecords_accepted (vs : List (SerdeDomain × String × Bytes)) :
    createdNetworkRecords (vs.map accepted) = [] := by
  induction vs with
  | nil => rfl
  | cons v vs ih => simp [createdNetworkRecords, accepted]

theorem createdEntityRecords_accepted (vs : List (SerdeDomain × String × Bytes)) :
    createdEntityRecords (vs.map accepted) = [] := by
  induction vs with
  | nil => rfl
  | cons v vs ih => simp [createdEntityRecords, accepted]

theorem updatedEntityRecords_accepted (vs : List (SerdeDomain × String × Bytes)) :
    updatedEntityRecords (vs.map accepted) = [] := by
  induction vs with
  | nil => rfl
  | cons v vs ih => simp [updatedEntityRecords, accepted]

theorem mem_accepted_not_store (vs : List (SerdeDomain × String × Bytes)) (c : StoreCall)
    (r : StoreResult) : Event.Store c r ∉ vs.map accepted := by
  intro h
  obtain ⟨v, _, hv⟩ := List.mem_map.1 h
  cases hv

/-! ## The two entity helpers, case by case -/

/-- The three ways `createEntity` can go: the configuration is rejected, the store
refuses the creation, the store returns the created record. -/
theorem createEntity_cases (env : Env) (tr : Trace) (networkID : String) (e : NetworkEntity) :
    (∃ err, rejects env e.validation = true ∧ createEntity env tr networkID e =
        (tr ++ [Event.DeserializeLegacy SerdeDomain.NetworkEntitySerdeDomain e.Type_ e.Config
          (some err)], .error err)) ∨
    (∃ err, rejects env e.validation = false ∧ createEntity env tr networkID e =
        (tr ++ e.validation.map accepted ++
          [Event.Store (StoreCall.CreateEntity networkID e) (StoreResult.err err)], .error err)) ∨
    (∃ r, rejects env e.validation = false ∧ createEntity env tr networkID e =
        (tr ++ e.validation.map accepted ++
          [Event.Store (StoreCall.CreateEntity networkID e) (StoreResult.entity r)], .ok r)) := by
  simp only [createEntity, entityConfigIsValid, DeserializeLegacy, storeCreateEntity,
    NetworkEntity.validation, accepted, List.map_cons, List.map_nil, rejects, List.any_cons,
    List.any_nil, Bool.or_false]
  cases hd : env.DeserializeLegacy SerdeDomain.NetworkEntitySerdeDomain e.Type_ e.Config with
  | some err => exact Or.inl ⟨err, rfl, rfl⟩
  | none =>
    simp only []
    cases hc : env.CreateEntity _ networkID e with
    | error err => exact Or.inr (Or.inl ⟨err, rfl, rfl⟩)
    | ok r => exact Or.inr (Or.inr ⟨r, rfl, rfl⟩)

/-- The three ways `updateEntity` can go: the new configuration is rejected, the store
refuses the update, the store returns the updated record. -/
theorem updateEntity_cases (env : Env) (tr : Trace) (networkID : String)
    (u : EntityUpdateCriteria) :
    (∃ b err, u.NewConfig = some b ∧ rejects env u.validation = true ∧
      updateEntity env tr networkID u =
        (tr ++ [Event.DeserializeLegacy SerdeDomain.NetworkEntitySerdeDomain u.Type_ b
          (some err)], .error err)) ∨
    (∃ err, rejects env u.validation = false ∧ updateEntity env tr networkID u =
        (tr ++ u.validation.map accepted ++
          [Event.Store (StoreCall.UpdateEntity networkID u) (StoreResult.err err)], .error err)) ∨
    (∃ r, rejects env u.validation = false ∧ updateEntity env tr networkID u =
        (tr ++ u.validation.map accepted ++
          [Event.Store (StoreCall.UpdateEntity networkID u) (StoreResult.entity r)], .ok r)) := by
  simp only [updateEntity, entityConfigIsValid, DeserializeLegacy, storeUpdateEntity,
    EntityUpdateCriteria.validation, accepted, rejects]
  cases hn : u.NewConfig with
  | none =>
    simp only [List.map_nil, List.append_nil, List.any_nil]
    cases hc : env.UpdateEntity _ networkID u with
    | error err => exact Or.inr (Or.inl ⟨err, trivial, rfl⟩)
    | ok r => exact Or.inr (Or.inr ⟨r, trivial, rfl⟩)
  | some b =>
    simp only [List.map_cons, List.map_nil, List.any_cons, List.any_nil, Bool.or_false]
    cases hd : env.DeserializeLegacy SerdeDomain.NetworkEntitySerdeDomain u.Type_ b with
    | some err => exact Or.inl ⟨b, err, rfl, rfl, rfl⟩
    | none =>
      simp only []
      cases hc : env.UpdateEntity _ networkID u with
      | error err => exact Or.inr (Or.inl ⟨err, rfl, rfl⟩)
      | ok r => exact Or.inr (Or.inr ⟨r, rfl, rfl⟩)

theorem quiet_no_failed_store {tr : Trace} (h : Quiet tr) (c : StoreCall) (e : GoError) :
    Event.Store c (StoreResult.err e) ∉ tr := by
  intro hmem
  have := h _ hmem
  simp [Event.failed] at this

theorem storeCalls_append (tr evs : Trace) :
    storeCalls (tr ++ evs) = storeCalls tr ++ storeCalls evs := by
  simp [storeCalls, List.filterMap_append]

theorem validations_append (tr evs : Trace) :
    validations (tr ++ evs) = validations tr ++ validations evs := by
  simp [validations, List.filterMap_append]

theorem createdNetworkRecords_append (tr evs : Trace) :
    createdNetworkRecords (tr ++ evs) = createdNetworkRecords tr ++ createdNetworkRecords evs := by
  simp [createdNetworkRecords, List.filterMap_append]

theorem createdEntityRecords_append (tr evs : Trace) :
    createdEntityRecords (tr ++ evs) = createdEntityRecords tr ++ createdEntityRecords evs := by
  simp [createdEntityRecords, List.filterMap_append]

theorem updatedEntityRecords_append (tr evs : Trace) :
    updatedEntityRecords (tr ++ evs) = updatedEntityRecords tr ++ updatedEntityRecords evs := by
  simp [updatedEntityRecords, List.filterMap_append]

@[simp]
theorem storeCalls_nil : storeCalls [] = [] := rfl

@[simp]
theorem storeCalls_cons_store (c : StoreCall) (r : StoreResult) (tr : Trace) :
    storeCalls (Event.Store c r :: tr) = c :: storeCalls tr := rfl

@[simp]
theorem storeCalls_cons_deser (d : SerdeDomain) (t : String) (b : Bytes) (r : Option GoError)
    (tr : Trace) : storeCalls (Event.DeserializeLegacy d t b r :: tr) = storeCalls tr := rfl

@[simp]
theorem storeCalls_cons_start (o : TxOptions) (r : Option GoError) (tr : Trace) :
    storeCalls (Event.StartTransaction o r :: tr) = storeCalls tr := rfl

@[simp]
theorem validations_nil : validations [] = [] := rfl

@[simp]
theorem validations_cons_store (c : StoreCall) (r : StoreResult) (tr : Trace) :
    validations (Event.Store c r :: tr) = validations tr := rfl

@[simp]
theorem validations_cons_deser (d : SerdeDomain) (t : String) (b : Bytes) (r : Option GoError)
    (tr : Trace) :
    validations (Event.DeserializeLegacy d t b r :: tr) = (d, t, b) :: validations tr := rfl

@[simp]
theorem validations_cons_start (o : TxOptions) (r : Option GoError) (tr : Trace) :
    validations (Event.StartTransaction o r :: tr) = validations tr := rfl

theorem mem_accepted_append (vs : List (SerdeDomain × String × Bytes)) (rest : Trace)
    (c : StoreCall) (r : StoreResult) :
    Event.Store c r ∈ vs.map accepted ++ rest ↔ Event.Store c r ∈ rest := by
  rw [List.mem_append]
  constructor
  · rintro (h | h)
    · exact absurd h (mem_accepted_not_store vs c r)
    · exact h
  · exact Or.inr

theorem quiet_opened : Quiet openedForWrite := by
  intro ev hev
  simp only [openedForWrite, List.mem_singleton] at hev
  subst hev
  rfl

theorem quiet_snoc {tr : Trace} (h : Quiet tr) (ev : Event) (hev : ev.failed = false) :
    Quiet (tr ++ [ev]) := by
  rw [quiet_append]
  refine ⟨h, ?_⟩
  intro ev' h'
  simp only [List.mem_singleton] at h'
  subst h'
  exact hev

/-- An early return after a quiet trace: what has to be checked concerns only the events
added since. -/
theorem aborted_extend {ρ : Type} (empty : ρ) (wrap : GoError → Option GoError)
    (err : Option GoError) (tr evs : Trace) (hq : Quiet tr)
    (hc : StoreCall.Commit ∉ storeCalls tr) (herr : err ≠ none)
    (hcommit : StoreCall.Commit ∉ storeCalls evs)
    (hfail : ∀ c e, Event.Store c (StoreResult.err e) ∈ evs → c.isTerminal = false →
      err = wrap e) :
    Aborted empty wrap ⟨empty, err, tr ++ evs⟩ := by
  refine ⟨rfl, herr, ?_, ?_⟩
  · simp only [storeCalls_append, List.mem_append, not_or]
    exact ⟨hc, hcommit⟩
  · intro c e hmem hterm
    rcases List.mem_append.1 hmem with h | h
    · exact absurd h (quiet_no_failed_store hq c e)
    · exact hfail c e h hterm

/-! ## Loop bodies -/

theorem step_CreateEntities (env : Env) (networkID : String) (seen : List NetworkEntity)
    (s : Trace × List NetworkEntity) (x : NetworkEntity)
    (h : CreateEntities.Inv networkID seen s) :
    (CreateEntities.body env networkID s x).sat (CreateEntities.Inv networkID (seen ++ [x]))
      (fun out => Aborted {} some out ∧ ∃ ev ∈ out.trace, ev.failed = true) := by
  obtain ⟨hq, hc, hv, hf, hs⟩ := h
  have hnc : StoreCall.Commit ∉ storeCalls s.1 := by simp [hc]
  simp only [CreateEntities.body]
  rcases createEntity_cases env s.1 networkID x with ⟨err, -, heq⟩ | ⟨err, -, heq⟩ | ⟨r, -, heq⟩
  · rw [heq]
    simp only [flow_sat_ret, RollbackLogOnError, List.append_assoc]
    refine ⟨aborted_extend _ _ _ _ _ hq hnc (by simp) ?_ ?_, ?_⟩
    · simp
    · intro c e hmem hterm
      simp at hmem
      obtain ⟨rfl, -⟩ := hmem
      simp [StoreCall.isTerminal] at hterm
    · exact ⟨Event.DeserializeLegacy SerdeDomain.NetworkEntitySerdeDomain x.Type_ x.Config
        (some err), by simp, rfl⟩
  · rw [heq]
    simp only [flow_sat_ret, RollbackLogOnError, List.append_assoc]
    refine ⟨aborted_extend _ _ _ _ _ hq hnc (by simp) ?_ ?_, ?_⟩
    · simp [storeCalls_append, storeCalls_accepted]
    · intro c e hmem hterm
      rw [mem_accepted_append] at hmem
      simp at hmem
      rcases hmem with ⟨-, rfl⟩ | ⟨rfl, -⟩
      · rfl
      · simp [StoreCall.isTerminal] at hterm
    · exact ⟨Event.Store (StoreCall.CreateEntity networkID x) (StoreResult.err err),
        by simp, rfl⟩
  · rw [heq]
    simp only [flow_sat_next, CreateEntities.Inv]
    refine ⟨quiet_snoc ((quiet_append _ _).2 ⟨hq, quiet_accepted _⟩) _ rfl, ?_, ?_, ?_, ?_⟩
    · simp [storeCalls_append, hc, storeCalls_accepted]
    · simp [validations_append, hv, validations_accepted]
    · simp only [createdEntityRecords_append, List.map_append, hf, createdEntityRecords_accepted]
      simp [createdEntityRecords]
    · simp only [createdEntityRecords_append, List.map_append, hs, createdEntityRecords_accepted]
      simp [createdEntityRecords]

theorem mapOf_nil (key : EntityUpdateCriteria × NetworkEntity → String) : MapOf key [] [] := by
  refine ⟨by simp [GoMap.keys], ?_, ?_⟩
  · intro k; simp [GoMap.keys]
  · intro k; simp [GoMap.get, lastRecordFor]

theorem mapOf_snoc (key : EntityUpdateCriteria × NetworkEntity → String)
    (records : List (EntityUpdateCriteria × NetworkEntity)) (m : List (String × NetworkEntity))
    (p : EntityUpdateCriteria × NetworkEntity) (h : MapOf key records m) :
    MapOf key (records ++ [p]) (GoMap.set m (key p) p.2) := by
  obtain ⟨h1, h2, h3⟩ := h
  refine ⟨goMap_nodup_set m _ _ h1, ?_, ?_⟩
  · intro k
    rw [goMap_keys_set, h2]
    constructor
    · rintro (rfl | ⟨q, hq, rfl⟩)
      · exact ⟨p, by simp, rfl⟩
      · exact ⟨q, by simp [hq], rfl⟩
    · rintro ⟨q, hq, rfl⟩
      rcases List.mem_append.1 hq with hq | hq
      · exact Or.inr ⟨q, hq, rfl⟩
      · simp only [List.mem_singleton] at hq
        subst hq
        exact Or.inl rfl
  · intro k
    rw [goMap_get_set, lastRecordFor_append, h3]

theorem step_UpdateEntities (env : Env) (networkID : String) (seen : List EntityUpdateCriteria)
    (s : Trace × List (String × NetworkEntity)) (x : EntityUpdateCriteria)
    (h : UpdateEntities.Inv networkID seen s) :
    (UpdateEntities.body env networkID s x).sat (UpdateEntities.Inv networkID (seen ++ [x]))
      (fun out => Aborted {} some out ∧ ∃ ev ∈ out.trace, ev.failed = true) := by
  obtain ⟨hq, hc, hv, hf, hm⟩ := h
  have hnc : StoreCall.Commit ∉ storeCalls s.1 := by simp [hc]
  simp only [UpdateEntities.body]
  rcases updateEntity_cases env s.1 networkID x with
    ⟨b, err, -, -, heq⟩ | ⟨err, -, heq⟩ | ⟨r, -, heq⟩
  · rw [heq]
    simp only [flow_sat_ret, RollbackLogOnError, List.append_assoc]
    refine ⟨aborted_extend _ _ _ _ _ hq hnc (by simp) ?_ ?_, ?_⟩
    · simp
    · intro c e hmem hterm
      simp at hmem
      obtain ⟨rfl, -⟩ := hmem
      simp [StoreCall.isTerminal] at hterm
    · exact ⟨Event.DeserializeLegacy SerdeDomain.NetworkEntitySerdeDomain x.Type_ b
        (some err), by simp, rfl⟩
  · rw [heq]
    simp only [flow_sat_ret, RollbackLogOnError, List.append_assoc]
    refine ⟨aborted_extend _ _ _ _ _ hq hnc (by simp) ?_ ?_, ?_⟩
    · simp [storeCalls_append, storeCalls_accepted]
    · intro c e hmem hterm
      rw [mem_accepted_append] at hmem
      simp at hmem
      rcases hmem with ⟨-, rfl⟩ | ⟨rfl, -⟩
      · rfl
      · simp [StoreCall.isTerminal] at hterm
    · exact ⟨Event.Store (StoreCall.UpdateEntity networkID x) (StoreResult.err err),
        by simp, rfl⟩
  · rw [heq]
    simp only [flow_sat_next, UpdateEntities.Inv]
    have hrec : updatedEntityRecords (s.1 ++ List.map accepted x.validation ++
        [Event.Store (StoreCall.UpdateEntity networkID x) (StoreResult.entity r)]) =
        updatedEntityRecords s.1 ++ [(x, r)] := by
      simp only [updatedEntityRecords_append, updatedEntityRecords_accepted]
      simp [updatedEntityRecords]
    refine ⟨quiet_snoc ((quiet_append _ _).2 ⟨hq, quiet_accepted _⟩) _ rfl, ?_, ?_, ?_, ?_⟩
    · simp [storeCalls_append, hc, storeCalls_accepted]
    · simp [validations_append, hv, validations_accepted]
    · rw [hrec]; simp [hf]
    · rw [hrec]
      exact mapOf_snoc (fun p => p.1.Key) _ _ (x, r) hm

theorem step_DeleteEntities (env : Env) (networkID : String) (seen : List EntityID)
    (s : Trace) (x : EntityID) (h : DeleteEntities.Inv networkID seen s) :
    (DeleteEntities.body env networkID s x).sat (DeleteEntities.Inv networkID (seen ++ [x]))
      (fun out => Aborted {} some out ∧ ∃ ev ∈ out.trace, ev.failed = true) := by
  obtain ⟨hq, hc, hv⟩ := h
  have hnc : StoreCall.Commit ∉ storeCalls s := by simp [hc]
  simp only [DeleteEntities.body, storeUpdateEntity]
  cases hu : env.UpdateEntity s networkID
      { Type_ := x.Type_, Key := x.Key, DeleteEntity := true } with
  | error err =>
    simp only [flow_sat_ret, RollbackLogOnError, List.append_assoc]
    refine ⟨aborted_extend _ _ _ _ _ hq hnc (by simp) ?_ ?_, ?_⟩
    · simp
    · intro c e hmem hterm
      simp at hmem
      rcases hmem with ⟨-, rfl⟩ | ⟨rfl, -⟩
      · rfl
      · simp [StoreCall.isTerminal] at hterm
    · exact ⟨Event.Store (StoreCall.UpdateEntity networkID
        { Type_ := x.Type_, Key := x.Key, DeleteEntity := true }) (StoreResult.err err),
        by simp, rfl⟩
  | ok r =>
    simp only [flow_sat_next, DeleteEntities.Inv]
    refine ⟨quiet_snoc hq _ rfl, ?_, ?_⟩
    · simp [storeCalls_append, hc, EntityID.deleteCriteria]
    · simp [validations_append, hv]

theorem wrapInternal_ne_none (e : GoError) : wrapInternal e ≠ none := by
  simp [wrapInternal, statusError]

theorem step_WriteEntities (env : Env) (networkID : String) (writes : List WriteEntityRequest)
    (seen : List WriteEntityRequest) (s : Trace × WriteEntitiesResponse)
    (x : WriteEntityRequest) (hx : x ∈ writes) (h : WriteEntities.Inv networkID seen s) :
    (WriteEntities.body env networkID s x).sat (WriteEntities.Inv networkID (seen ++ [x]))
      (fun out => Aborted {} wrapInternal out ∧
        ((∃ ev ∈ out.trace, ev.failed = true) ∨
          ∃ w ∈ writes, w.Request = WriteEntityRequest_Request.notSet)) := by
  obtain ⟨hq, hc, hk, hv, hcf, hcs, huf, hm⟩ := h
  have hnc : StoreCall.Commit ∉ storeCalls s.1 := by
    rw [hc]
    intro hmem
    obtain ⟨w, -, hw⟩ := List.mem_filterMap.1 hmem
    simp only [WriteEntityRequest.storeCall?] at hw
    split at hw <;> cases hw
  simp only [WriteEntities.body]
  cases hreq : x.Request with
  | notSet =>
    simp only [flow_sat_ret, RollbackLogOnError]
    refine ⟨aborted_extend _ _ _ _ _ hq hnc (by simp [statusError]) ?_ ?_, Or.inr ⟨x, hx, hreq⟩⟩
    · simp
    · intro c e hmem hterm
      simp at hmem
      obtain ⟨rfl, -⟩ := hmem
      simp [StoreCall.isTerminal] at hterm
  | Create op =>
    simp only []
    rcases createEntity_cases env s.1 networkID op with
      ⟨err, -, heq⟩ | ⟨err, -, heq⟩ | ⟨r, -, heq⟩
    · rw [heq]
      simp only [flow_sat_ret, RollbackLogOnError, List.append_assoc]
      refine ⟨aborted_extend _ _ _ _ _ hq hnc (wrapInternal_ne_none err) ?_ ?_, Or.inl ?_⟩
      · simp
      · intro c e hmem hterm
        simp at hmem
        obtain ⟨rfl, -⟩ := hmem
        simp [StoreCall.isTerminal] at hterm
      · exact ⟨Event.DeserializeLegacy SerdeDomain.NetworkEntitySerdeDomain op.Type_ op.Config
          (some err), by simp, rfl⟩
    · rw [heq]
      simp only [flow_sat_ret, RollbackLogOnError, List.append_assoc]
      refine ⟨aborted_extend _ _ _ _ _ hq hnc (wrapInternal_ne_none err) ?_ ?_, Or.inl ?_⟩
      · simp [storeCalls_append, storeCalls_accepted]
      · intro c e hmem hterm
        rw [mem_accepted_append] at hmem
        simp at hmem
        rcases hmem with ⟨-, rfl⟩ | ⟨rfl, -⟩
        · rfl
        · simp [StoreCall.isTerminal] at hterm
      · exact ⟨Event.Store (StoreCall.CreateEntity networkID op) (StoreResult.err err),
          by simp, rfl⟩
    · rw [heq]
      simp only [flow_sat_next, WriteEntities.Inv]
      have hcr : createdEntityRecords (s.1 ++ List.map accepted op.validation ++
          [Event.Store (StoreCall.CreateEntity networkID op) (StoreResult.entity r)]) =
          createdEntityRecords s.1 ++ [(op, r)] := by
        simp only [createdEntityRecords_append, createdEntityRecords_accepted]
        simp [createdEntityRecords]
      have hur : updatedEntityRecords (s.1 ++ List.map accepted op.validation ++
          [Event.Store (StoreCall.CreateEntity networkID op) (StoreResult.entity r)]) =
          updatedEntityRecords s.1 := by
        simp only [updatedEntityRecords_append, updatedEntityRecords_accepted]
        simp [updatedEntityRecords]
      refine ⟨quiet_snoc ((quiet_append _ _).2 ⟨hq, quiet_accepted _⟩) _ rfl,
        ?_, ?_, ?_, ?_, ?_, ?_, ?_⟩
      · simp [storeCalls_append, hc, storeCalls_accepted, List.filterMap_append,
          WriteEntityRequest.storeCall?, hreq]
      · intro w hw
        rcases List.mem_append.1 hw with hw | hw
        · exact hk w hw
        · simp only [List.mem_singleton] at hw
          subst hw
          simp [hreq]
      · simp [validations_append, hv, validations_accepted, WriteEntityRequest.validation, hreq]
      · rw [hcr]; simp [hcf, writeCreates, List.filterMap_append, hreq]
      · rw [hcr]; simp [hcs]
      · rw [hur]; simp [huf, writeUpdates, List.filterMap_append, hreq]
      · rw [hur]; exact hm
  | Update op =>
    simp only []
    rcases updateEntity_cases env s.1 networkID op with
      ⟨b, err, -, -, heq⟩ | ⟨err, -, heq⟩ | ⟨r, -, heq⟩
    · rw [heq]
      simp only [flow_sat_ret, RollbackLogOnError, List.append_assoc]
      refine ⟨aborted_extend _ _ _ _ _ hq hnc (wrapInternal_ne_none err) ?_ ?_, Or.inl ?_⟩
      · simp
      · intro c e hmem hterm
        simp at hmem
        obtain ⟨rfl, -⟩ := hmem
        simp [StoreCall.isTerminal] at hterm
      · exact ⟨Event.DeserializeLegacy SerdeDomain.NetworkEntitySerdeDomain op.Type_ b
          (some err), by simp, rfl⟩
    · rw [heq]
      simp only [flow_sat_ret, RollbackLogOnError, List.append_assoc]
      refine ⟨aborted_extend _ _ _ _ _ hq hnc (wrapInternal_ne_none err) ?_ ?_, Or.inl ?_⟩
      · simp [storeCalls_append, storeCalls_accepted]
      · intro c e hmem hterm
        rw [mem_accepted_append] at hmem
        simp at hmem
        rcases hmem with ⟨-, rfl⟩ | ⟨rfl, -⟩
        · rfl
        · simp [StoreCall.isTerminal] at hterm
      · exact ⟨Event.Store (StoreCall.UpdateEntity networkID op) (StoreResult.err err),
          by simp, rfl⟩
    · rw [heq]
      simp only [flow_sat_next, WriteEntities.Inv]
      have hcr : createdEntityRecords (s.1 ++ List.map accepted op.validation ++
          [Event.Store (StoreCall.UpdateEntity networkID op) (StoreResult.entity r)]) =
          createdEntityRecords s.1 := by
        simp only [createdEntityRecords_append, createdEntityRecords_accepted]
        simp [createdEntityRecords]
      have hur : updatedEntityRecords (s.1 ++ List.map accepted op.validation ++
          [Event.Store (StoreCall.UpdateEntity networkID op) (StoreResult.entity r)]) =
          updatedEntityRecords s.1 ++ [(op, r)] := by
        simp only [updatedEntityRecords_append, updatedEntityRecords_accepted]
        simp [updatedEntityRecords]
      refine ⟨quiet_snoc ((quiet_append _ _).2 ⟨hq, quiet_accepted _⟩) _ rfl,
        ?_, ?_, ?_, ?_, ?_, ?_, ?_⟩
      · simp [storeCalls_append, hc, storeCalls_accepted, List.filterMap_append,
          WriteEntityRequest.storeCall?, hreq]
      · intro w hw
        rcases List.mem_append.1 hw with hw | hw
        · exact hk w hw
        · simp only [List.mem_singleton] at hw
          subst hw
          simp [hreq]
      · simp [validations_append, hv, validations_accepted, WriteEntityRequest.validation, hreq]
      · rw [hcr]; simp [hcf, writeCreates, List.filterMap_append, hreq]
      · rw [hcr]; exact hcs
      · rw [hur]; simp [huf, writeUpdates, List.filterMap_append, hreq]
      · rw [hur]
        exact mapOf_snoc (fun p => p.2.Key) _ _ (op, r) hm

theorem map_configAccepted (configs : List (String × Bytes)) :
    configs.map configAccepted = (networkValidations configs).map accepted := by
  simp [networkValidations, List.map_map, Function.comp_def, configAccepted, accepted]

/-- The two ways the validation of a configuration map can go. -/
theorem networkConfigsAreValid_cases (env : Env) (tr : Trace) (configs : List (String × Bytes)) :
    (networkConfigsAreValid env tr configs =
        (tr ++ (networkValidations configs).map accepted, none)) ∨
    (∃ seen x later err, configs = seen ++ x :: later ∧
      networkConfigsAreValid env tr configs =
        (tr ++ ((networkValidations seen).map accepted ++
          [Event.DeserializeLegacy SerdeDomain.NetworkConfigSerdeDomain x.1 x.2 (some err)]),
          some err)) := by
  cases hr : (networkConfigsAreValid env tr configs).2 with
  | none =>
    left
    have h := (networkConfigsAreValid_none env configs tr hr).1
    rw [map_configAccepted] at h
    exact Prod.ext h hr
  | some err =>
    right
    obtain ⟨seen, x, later, h0, h1, -, -⟩ := networkConfigsAreValid_some env configs tr err hr
    rw [map_configAccepted, List.append_assoc] at h1
    exact ⟨seen, x, later, err, h0, Prod.ext h1 hr⟩

theorem step_CreateNetworks (env : Env) (seen : List Network) (s : Trace × List Network)
    (x : Network) (h : CreateNetworks.Inv seen s) :
    (CreateNetworks.body env s x).sat (CreateNetworks.Inv (seen ++ [x]))
      (fun out => Aborted {} some out ∧ ∃ ev ∈ out.trace, ev.failed = true) := by
  obtain ⟨hq, hc, hv, hf, hs⟩ := h
  have hnc : StoreCall.Commit ∉ storeCalls s.1 := by simp [hc]
  simp only [CreateNetworks.body]
  rcases networkConfigsAreValid_cases env s.1 x.Configs with heq | ⟨done, y, later, err, -, heq⟩
  · rw [heq]
    simp only [storeCreateNetwork]
    cases hcn : env.CreateNetwork (s.1 ++ List.map accepted (networkValidations x.Configs)) x with
    | error err =>
      simp only [flow_sat_ret, RollbackLogOnError, List.append_assoc]
      refine ⟨aborted_extend _ _ _ _ _ hq hnc (by simp) ?_ ?_, ?_⟩
      · simp [storeCalls_append, storeCalls_accepted]
      · intro c e hmem hterm
        rw [mem_accepted_append] at hmem
        simp at hmem
        rcases hmem with ⟨-, rfl⟩ | ⟨rfl, -⟩
        · rfl
        · simp [StoreCall.isTerminal] at hterm
      · exact ⟨Event.Store (StoreCall.CreateNetwork x) (StoreResult.err err), by simp, rfl⟩
    | ok r =>
      simp only [flow_sat_next, CreateNetworks.Inv]
      have hcr : createdNetworkRecords (s.1 ++ List.map accepted (networkValidations x.Configs) ++
          [Event.Store (StoreCall.CreateNetwork x) (StoreResult.network r)]) =
          createdNetworkRecords s.1 ++ [(x, r)] := by
        simp only [createdNetworkRecords_append, createdNetworkRecords_accepted]
        simp [createdNetworkRecords]
      refine ⟨quiet_snoc ((quiet_append _ _).2 ⟨hq, quiet_accepted _⟩) _ rfl, ?_, ?_, ?_, ?_⟩
      · simp [storeCalls_append, hc, storeCalls_accepted]
      · simp [validations_append, hv, validations_accepted]
      · rw [hcr]; simp [hf]
      · rw [hcr]; simp [hs]
  · rw [heq]
    simp only [flow_sat_ret]
    refine ⟨aborted_extend _ _ _ _ _ hq hnc (by simp) ?_ ?_, ?_⟩
    · simp [storeCalls_append, storeCalls_accepted]
    · intro c e hmem hterm
      rw [mem_accepted_append] at hmem
      simp at hmem
    · exact ⟨Event.DeserializeLegacy SerdeDomain.NetworkConfigSerdeDomain y.1 y.2 (some err),
        by simp, rfl⟩

theorem step_UpdateNetworks (env : Env) (seen : List NetworkUpdateCriteria)
    (s : Trace × List NetworkUpdateCriteria) (x : NetworkUpdateCriteria)
    (h : UpdateNetworks.Inv seen s) :
    (UpdateNetworks.body env s x).sat (UpdateNetworks.Inv (seen ++ [x]))
      (fun out => Aborted {} some out ∧ ∃ ev ∈ out.trace, ev.failed = true) := by
  obtain ⟨hq, hc, hv, hs⟩ := h
  have hnc : StoreCall.Commit ∉ storeCalls s.1 := by simp [hc]
  simp only [UpdateNetworks.body]
  rcases networkConfigsAreValid_cases env s.1 x.ConfigsToAddOrUpdate with
    heq | ⟨done, y, later, err, -, heq⟩
  · rw [heq]
    simp only [flow_sat_next, UpdateNetworks.Inv]
    refine ⟨(quiet_append _ _).2 ⟨hq, quiet_accepted _⟩, ?_, ?_, ?_⟩
    · simp [storeCalls_append, hc, storeCalls_accepted]
    · simp [validations_append, hv, validations_accepted]
    · simp [hs]
  · rw [heq]
    simp only [flow_sat_ret]
    refine ⟨aborted_extend _ _ _ _ _ hq hnc (by simp) ?_ ?_, ?_⟩
    · simp [storeCalls_append, storeCalls_accepted]
    · intro c e hmem hterm
      rw [mem_accepted_append] at hmem
      simp at hmem
    · exact ⟨Event.DeserializeLegacy SerdeDomain.NetworkConfigSerdeDomain y.1 y.2 (some err),
        by simp, rfl⟩

/-! ## The handlers, case by case -/

theorem withCommit_self (env : Env) : env.withCommit env.Commit = env := rfl

theorem body_withCommit_CreateEntities (env : Env) (f : Trace → Option GoError)
    (networkID : String) :
    CreateEntities.body (env.withCommit f) networkID = CreateEntities.body env networkID := rfl

theorem networkConfigsAreValid_withCommit (env : Env) (f : Trace → Option GoError)
    (configs : List (String × Bytes)) (tr : Trace) :
    networkConfigsAreValid (env.withCommit f) tr configs = networkConfigsAreValid env tr configs := by
  induction configs generalizing tr with
  | nil => rfl
  | cons p rest ih =>
    obtain ⟨t, b⟩ := p
    simp only [networkConfigsAreValid]
    have hd : DeserializeLegacy (env.withCommit f) tr SerdeDomain.NetworkConfigSerdeDomain t b =
        DeserializeLegacy env tr SerdeDomain.NetworkConfigSerdeDomain t b := rfl
    rw [hd]
    cases DeserializeLegacy env tr SerdeDomain.NetworkConfigSerdeDomain t b with
    | mk tr' err =>
      cases err with
      | some e => rfl
      | none => exact ih tr'

theorem body_withCommit_CreateNetworks (env : Env) (f : Trace → Option GoError) :
    CreateNetworks.body (env.withCommit f) = CreateNetworks.body env := by
  funext s x
  simp only [CreateNetworks.body, networkConfigsAreValid_withCommit]
  rfl

theorem body_withCommit_UpdateNetworks (env : Env) (f : Trace → Option GoError) :
    UpdateNetworks.body (env.withCommit f) = UpdateNetworks.body env := by
  funext s x
  simp only [UpdateNetworks.body, networkConfigsAreValid_withCommit]

theorem body_withCommit_UpdateEntities (env : Env) (f : Trace → Option GoError)
    (networkID : String) :
    UpdateEntities.body (env.withCommit f) networkID = UpdateEntities.body env networkID := rfl

theorem body_withCommit_WriteEntities (env : Env) (f : Trace → Option GoError)
    (networkID : String) :
    WriteEntities.body (env.withCommit f) networkID = WriteEntities.body env networkID := rfl

theorem body_withCommit_DeleteEntities (env : Env) (f : Trace → Option GoError)
    (networkID : String) :
    DeleteEntities.body (env.withCommit f) networkID = DeleteEntities.body env networkID := rfl

theorem inv_opened_CreateEntities (networkID : String) :
    CreateEntities.Inv networkID [] (openedForWrite, []) :=
  ⟨quiet_opened, rfl, rfl, rfl, rfl⟩

theorem outcomes_CreateEntities (env : Env) (req : CreateEntitiesRequest) :
    Outcomes {} some
      (fun tr res => CreateEntities.Inv req.NetworkID req.Entities (tr, res.CreatedEntities))
      False (fun env => CreateEntities env req) env := by
  cases hs : env.StartTransaction { ReadOnly := false } with
  | some e =>
    left
    exact ⟨{ ReadOnly := false }, e, by simp [CreateEntities, StartTransaction, hs]⟩
  | none =>
    right
    have hloop := forRange_sat_indexed (CreateEntities.body env req.NetworkID)
      (CreateEntities.Inv req.NetworkID)
      (fun out => Aborted {} some out ∧ ∃ ev ∈ out.trace, ev.failed = true) req.Entities
      (fun seen s x _ h => step_CreateEntities env req.NetworkID seen s x h) []
      (openedForWrite, []) (inv_opened_CreateEntities req.NetworkID)
    cases hf : forRange (CreateEntities.body env req.NetworkID) (openedForWrite, [])
        req.Entities with
    | ret out =>
      left
      rw [hf] at hloop
      have heq : CreateEntities env req = out := by
        simp only [CreateEntities, StartTransaction, hs]
        rw [show ([Event.StartTransaction { ReadOnly := false } none] : Trace) = openedForWrite
          from rfl, hf]
      simp only [heq]
      exact ⟨hloop.1, Or.inl hloop.2⟩
    | next s =>
      right
      rw [hf] at hloop
      simp only [List.nil_append, flow_sat_next] at hloop
      refine ⟨s.1, { CreatedEntities := s.2 }, hloop.1, ?_, hloop, ?_⟩
      · intro c hc
        rw [hloop.2.1] at hc
        obtain ⟨x, -, rfl⟩ := List.mem_map.1 hc
        rfl
      · intro f
        have hs' : (env.withCommit f).StartTransaction { ReadOnly := false } = none := hs
        simp only [CreateEntities, StartTransaction, hs', body_withCommit_CreateEntities]
        rw [show ([Event.StartTransaction { ReadOnly := false } none] : Trace) = openedForWrite
          from rfl, hf]
        rfl

theorem inv_opened_UpdateEntities (networkID : String) :
    UpdateEntities.Inv networkID [] (openedForWrite, []) :=
  ⟨quiet_opened, rfl, rfl, rfl, mapOf_nil _⟩

theorem inv_opened_WriteEntities (networkID : String) :
    WriteEntities.Inv networkID [] (openedForWrite, { UpdatedEntities := [] }) :=
  ⟨quiet_opened, rfl, by simp, rfl, rfl, rfl, rfl, mapOf_nil _⟩

theorem inv_opened_DeleteEntities (networkID : String) :
    DeleteEntities.Inv networkID [] openedForWrite :=
  ⟨quiet_opened, rfl, rfl⟩

theorem inv_opened_CreateNetworks : CreateNetworks.Inv [] (openedForWrite, []) :=
  ⟨quiet_opened, rfl, rfl, rfl, rfl⟩

theorem inv_opened_UpdateNetworks : UpdateNetworks.Inv [] (openedForWrite, []) :=
  ⟨quiet_opened, rfl, rfl, rfl⟩

theorem outcomes_UpdateEntities (env : Env) (req : UpdateEntitiesRequest) :
    Outcomes {} some
      (fun tr res => UpdateEntities.Inv req.NetworkID req.Updates (tr, res.UpdatedEntities))
      False (fun env => UpdateEntities env req) env := by
  cases hs : env.StartTransaction { ReadOnly := false } with
  | some e =>
    left
    exact ⟨{ ReadOnly := false }, e, by simp [UpdateEntities, StartTransaction, hs]⟩
  | none =>
    right
    have hloop := forRange_sat_indexed (UpdateEntities.body env req.NetworkID)
      (UpdateEntities.Inv req.NetworkID)
      (fun out => Aborted {} some out ∧ ∃ ev ∈ out.trace, ev.failed = true) req.Updates
      (fun seen s x _ h => step_UpdateEntities env req.NetworkID seen s x h) []
      (openedForWrite, []) (inv_opened_UpdateEntities req.NetworkID)
    cases hf : forRange (UpdateEntities.body env req.NetworkID) (openedForWrite, [])
        req.Updates with
    | ret out =>
      left
      rw [hf] at hloop
      have heq : UpdateEntities env req = out := by
        simp only [UpdateEntities, StartTransaction, hs]
        rw [show ([Event.StartTransaction { ReadOnly := false } none] : Trace) = openedForWrite
          from rfl, hf]
      simp only [heq]
      exact ⟨hloop.1, Or.inl hloop.2⟩
    | next s =>
      right
      rw [hf] at hloop
      simp only [List.nil_append, flow_sat_next] at hloop
      refine ⟨s.1, { UpdatedEntities := s.2 }, hloop.1, ?_, hloop, ?_⟩
      · intro c hc
        rw [hloop.2.1] at hc
        obtain ⟨x, -, rfl⟩ := List.mem_map.1 hc
        rfl
      · intro f
        have hs' : (env.withCommit f).StartTransaction { ReadOnly := false } = none := hs
        simp only [UpdateEntities, StartTransaction, hs', body_withCommit_UpdateEntities]
        rw [show ([Event.StartTransaction { ReadOnly := false } none] : Trace) = openedForWrite
          from rfl, hf]
        rfl

theorem outcomes_WriteEntities (env : Env) (req : WriteEntitiesRequest) :
    Outcomes {} wrapInternal
      (fun tr res => WriteEntities.Inv req.NetworkID req.Writes (tr, res))
      (∃ w ∈ req.Writes, w.Request = WriteEntityRequest_Request.notSet)
      (fun env => WriteEntities env req) env := by
  cases hs : env.StartTransaction { ReadOnly := false } with
  | some e =>
    left
    exact ⟨{ ReadOnly := false }, e, by simp [WriteEntities, StartTransaction, hs]⟩
  | none =>
    right
    have hloop := forRange_sat_indexed (WriteEntities.body env req.NetworkID)
      (WriteEntities.Inv req.NetworkID)
      (fun out => Aborted {} wrapInternal out ∧
        ((∃ ev ∈ out.trace, ev.failed = true) ∨
          ∃ w ∈ req.Writes, w.Request = WriteEntityRequest_Request.notSet)) req.Writes
      (fun seen s x hx h => step_WriteEntities env req.NetworkID req.Writes seen s x hx h) []
      (openedForWrite, { UpdatedEntities := [] }) (inv_opened_WriteEntities req.NetworkID)
    cases hf : forRange (WriteEntities.body env req.NetworkID)
        (openedForWrite, { UpdatedEntities := [] }) req.Writes with
    | ret out =>
      left
      rw [hf] at hloop
      have heq : WriteEntities env req = out := by
        simp only [WriteEntities, StartTransaction, hs]
        rw [show ([Event.StartTransaction { ReadOnly := false } none] : Trace) = openedForWrite
          from rfl, hf]
      simp only [heq]
      exact hloop
    | next s =>
      right
      rw [hf] at hloop
      simp only [List.nil_append, flow_sat_next] at hloop
      refine ⟨s.1, s.2, hloop.1, ?_, hloop, ?_⟩
      · intro c hc
        rw [hloop.2.1] at hc
        obtain ⟨w, -, hw⟩ := List.mem_filterMap.1 hc
        simp only [WriteEntityRequest.storeCall?] at hw
        split at hw <;> cases hw <;> rfl
      · intro f
        have hs' : (env.withCommit f).StartTransaction { ReadOnly := false } = none := hs
        simp only [WriteEntities, StartTransaction, hs', body_withCommit_WriteEntities]
        rw [show ([Event.StartTransaction { ReadOnly := false } none] : Trace) = openedForWrite
          from rfl, hf]
        rfl

theorem outcomes_DeleteEntities (env : Env) (req : DeleteEntitiesRequest) :
    Outcomes {} some
      (fun tr _ => DeleteEntities.Inv req.NetworkID req.ID tr)
      False (fun env => DeleteEntities env req) env := by
  cases hs : env.StartTransaction { ReadOnly := false } with
  | some e =>
    left
    exact ⟨{ ReadOnly := false }, e, by simp [DeleteEntities, StartTransaction, hs]⟩
  | none =>
    right
    have hloop := forRange_sat_indexed (DeleteEntities.body env req.NetworkID)
      (DeleteEntities.Inv req.NetworkID)
      (fun out => Aborted {} some out ∧ ∃ ev ∈ out.trace, ev.failed = true) req.ID
      (fun seen s x _ h => step_DeleteEntities env req.NetworkID seen s x h) []
      openedForWrite (inv_opened_DeleteEntities req.NetworkID)
    cases hf : forRange (DeleteEntities.body env req.NetworkID) openedForWrite req.ID with
    | ret out =>
      left
      rw [hf] at hloop
      have heq : DeleteEntities env req = out := by
        simp only [DeleteEntities, StartTransaction, hs]
        rw [show ([Event.StartTransaction { ReadOnly := false } none] : Trace) = openedForWrite
          from rfl, hf]
      simp only [heq]
      exact ⟨hloop.1, Or.inl hloop.2⟩
    | next s =>
      right
      rw [hf] at hloop
      simp only [List.nil_append, flow_sat_next] at hloop
      refine ⟨s, {}, hloop.1, ?_, hloop, ?_⟩
      · intro c hc
        rw [hloop.2.1] at hc
        obtain ⟨x, -, rfl⟩ := List.mem_map.1 hc
        rfl
      · intro f
        have hs' : (env.withCommit f).StartTransaction { ReadOnly := false } = none := hs
        simp only [DeleteEntities, StartTransaction, hs', body_withCommit_DeleteEntities]
        rw [show ([Event.StartTransaction { ReadOnly := false } none] : Trace) = openedForWrite
          from rfl, hf]
        rfl

theorem outcomes_CreateNetworks (env : Env) (req : CreateNetworksRequest) :
    Outcomes {} some
      (fun tr res => CreateNetworks.Inv req.Networks (tr, res.CreatedNetworks))
      False (fun env => CreateNetworks env req) env := by
  cases hs : env.StartTransaction { ReadOnly := false } with
  | some e =>
    left
    exact ⟨{ ReadOnly := false }, e, by simp [CreateNetworks, StartTransaction, hs]⟩
  | none =>
    right
    have hloop := forRange_sat_indexed (CreateNetworks.body env) CreateNetworks.Inv
      (fun out => Aborted {} some out ∧ ∃ ev ∈ out.trace, ev.failed = true) req.Networks
      (fun seen s x _ h => step_CreateNetworks env seen s x h) []
      (openedForWrite, []) inv_opened_CreateNetworks
    cases hf : forRange (CreateNetworks.body env) (openedForWrite, []) req.Networks with
    | ret out =>
      left
      rw [hf] at hloop
      have heq : CreateNetworks env req = out := by
        simp only [CreateNetworks, StartTransaction, hs]
        rw [show ([Event.StartTransaction { ReadOnly := false } none] : Trace) = openedForWrite
          from rfl, hf]
      simp only [heq]
      exact ⟨hloop.1, Or.inl hloop.2⟩
    | next s =>
      right
      rw [hf] at hloop
      simp only [List.nil_append, flow_sat_next] at hloop
      refine ⟨s.1, { CreatedNetworks := s.2 }, hloop.1, ?_, hloop, ?_⟩
      · intro c hc
        rw [hloop.2.1] at hc
        obtain ⟨x, -, rfl⟩ := List.mem_map.1 hc
        rfl
      · intro f
        have hs' : (env.withCommit f).StartTransaction { ReadOnly := false } = none := hs
        simp only [CreateNetworks, StartTransaction, hs', body_withCommit_CreateNetworks]
        rw [show ([Event.StartTransaction { ReadOnly := false } none] : Trace) = openedForWrite
          from rfl, hf]
        rfl

theorem foldl_snoc_map {α β : Type} (f : α → β) (xs : List α) (acc : List β) :
    xs.foldl (fun acc x => acc ++ [f x]) acc = acc ++ xs.map f := by
  induction xs generalizing acc with
  | nil => simp
  | cons x xs ih => simp [ih]

theorem quiet_started (o : TxOptions) : Quiet [Event.StartTransaction o none] := by
  intro ev hev
  simp only [List.mem_singleton] at hev
  subst hev
  rfl

theorem outcomes_UpdateNetworks (env : Env) (req : UpdateNetworksRequest) :
    Outcomes {} some
      (fun tr _ => storeCalls tr = [StoreCall.UpdateNetworks req.Updates] ∧
        validations tr =
          req.Updates.flatMap (fun u => networkValidations u.ConfigsToAddOrUpdate))
      False (fun env => UpdateNetworks env req) env := by
  cases hs : env.StartTransaction { ReadOnly := false } with
  | some e =>
    left
    exact ⟨{ ReadOnly := false }, e, by simp [UpdateNetworks, StartTransaction, hs]⟩
  | none =>
    right
    have hloop := forRange_sat_indexed (UpdateNetworks.body env) UpdateNetworks.Inv
      (fun out => Aborted {} some out ∧ ∃ ev ∈ out.trace, ev.failed = true) req.Updates
      (fun seen s x _ h => step_UpdateNetworks env seen s x h) []
      (openedForWrite, []) inv_opened_UpdateNetworks
    cases hf : forRange (UpdateNetworks.body env) (openedForWrite, []) req.Updates with
    | ret out =>
      left
      rw [hf] at hloop
      have heq : UpdateNetworks env req = out := by
        simp only [UpdateNetworks, StartTransaction, hs]
        rw [show ([Event.StartTransaction { ReadOnly := false } none] : Trace) = openedForWrite
          from rfl, hf]
      simp only [heq]
      exact ⟨hloop.1, Or.inl hloop.2⟩
    | next s =>
      rw [hf] at hloop
      simp only [List.nil_append, flow_sat_next] at hloop
      obtain ⟨tr, updates⟩ := s
      obtain ⟨hq, hc, hv, hu⟩ := hloop
      simp only at hq hc hv hu
      subst hu
      have hnc : StoreCall.Commit ∉ storeCalls tr := by simp [hc]
      cases hup : env.UpdateNetworks tr req.Updates with
      | some err =>
        left
        have heq : UpdateNetworks env req =
            ⟨{}, some err, tr ++ [Event.Store (StoreCall.UpdateNetworks req.Updates)
              (StoreResult.err err), Event.Store StoreCall.Rollback (StoreResult.ofErr
                (env.Rollback (tr ++ [Event.Store (StoreCall.UpdateNetworks req.Updates)
                  (StoreResult.err err)])))]⟩ := by
          simp only [UpdateNetworks, StartTransaction, hs]
          rw [show ([Event.StartTransaction { ReadOnly := false } none] : Trace) = openedForWrite
            from rfl, hf]
          simp [storeUpdateNetworks, hup, RollbackLogOnError, StoreResult.ofErr]
        simp only [heq]
        refine ⟨aborted_extend _ _ _ _ _ hq hnc (by simp) ?_ ?_, Or.inl ?_⟩
        · simp
        · intro c e hmem hterm
          simp at hmem
          rcases hmem with ⟨-, rfl⟩ | ⟨rfl, -⟩
          · rfl
          · simp [StoreCall.isTerminal] at hterm
        · exact ⟨Event.Store (StoreCall.UpdateNetworks req.Updates) (StoreResult.err err),
            by simp, rfl⟩
      | none =>
        right
        refine ⟨tr ++ [Event.Store (StoreCall.UpdateNetworks req.Updates) StoreResult.done], {},
          quiet_snoc hq _ rfl, ?_, ⟨?_, ?_⟩, ?_⟩
        · intro c hmem
          simp [storeCalls_append, hc] at hmem
          subst hmem
          rfl
        · simp [storeCalls_append, hc]
        · simp [validations_append, hv]
        · intro f
          have hs' : (env.withCommit f).StartTransaction { ReadOnly := false } = none := hs
          have hup' : (env.withCommit f).UpdateNetworks tr req.Updates = none := hup
          simp only [UpdateNetworks, StartTransaction, hs', body_withCommit_UpdateNetworks]
          rw [show ([Event.StartTransaction { ReadOnly := false } none] : Trace) = openedForWrite
            from rfl, hf]
          simp only [storeUpdateNetworks, hup']
          rfl

theorem outcomes_DeleteNetworks (env : Env) (req : DeleteNetworksRequest) :
    Outcomes {} some
      (fun tr _ => storeCalls tr =
        [StoreCall.UpdateNetworks (req.NetworkIDs.map deleteNetworkCriteria)] ∧
        validations tr = [])
      False (fun env => DeleteNetworks env req) env := by
  have hfold : req.NetworkIDs.foldl
      (fun acc networkID => acc ++ [({ ID := networkID, DeleteNetwork := true } :
        NetworkUpdateCriteria)]) [] = req.NetworkIDs.map deleteNetworkCriteria := by
    have := foldl_snoc_map deleteNetworkCriteria req.NetworkIDs []
    simpa [deleteNetworkCriteria] using this
  cases hs : env.StartTransaction { ReadOnly := false } with
  | some e =>
    left
    exact ⟨{ ReadOnly := false }, e, by simp [DeleteNetworks, StartTransaction, hs]⟩
  | none =>
    right
    cases hup : env.UpdateNetworks openedForWrite (req.NetworkIDs.map deleteNetworkCriteria) with
    | some err =>
      left
      have heq : DeleteNetworks env req =
          ⟨{}, some err, openedForWrite ++
            [Event.Store (StoreCall.UpdateNetworks (req.NetworkIDs.map deleteNetworkCriteria))
              (StoreResult.err err), Event.Store StoreCall.Rollback (StoreResult.ofErr
                (env.Rollback (openedForWrite ++ [Event.Store (StoreCall.UpdateNetworks
                  (req.NetworkIDs.map deleteNetworkCriteria)) (StoreResult.err err)])))]⟩ := by
        simp only [DeleteNetworks, StartTransaction, hs, hfold]
        rw [show ([Event.StartTransaction { ReadOnly := false } none] : Trace) = openedForWrite
          from rfl]
        simp [storeUpdateNetworks, hup, RollbackLogOnError, StoreResult.ofErr]
      simp only [heq]
      refine ⟨aborted_extend _ _ _ _ _ quiet_opened (by simp [openedForWrite]) (by simp) ?_ ?_,
        Or.inl ?_⟩
      · simp
      · intro c e hmem hterm
        simp at hmem
        rcases hmem with ⟨-, rfl⟩ | ⟨rfl, -⟩
        · rfl
        · simp [StoreCall.isTerminal] at hterm
      · exact ⟨Event.Store (StoreCall.UpdateNetworks (req.NetworkIDs.map deleteNetworkCriteria))
          (StoreResult.err err), by simp, rfl⟩
    | none =>
      right
      refine ⟨openedForWrite ++ [Event.Store (StoreCall.UpdateNetworks
          (req.NetworkIDs.map deleteNetworkCriteria)) StoreResult.done], {},
        quiet_snoc quiet_opened _ rfl, ?_, ⟨?_, ?_⟩, ?_⟩
      · intro c hmem
        simp [storeCalls_append, openedForWrite] at hmem
        subst hmem
        rfl
      · simp [storeCalls_append, openedForWrite]
      · simp [validations_append, openedForWrite]
      · intro f
        have hs' : (env.withCommit f).StartTransaction { ReadOnly := false } = none := hs
        have hup' : (env.withCommit f).UpdateNetworks openedForWrite
            (req.NetworkIDs.map deleteNetworkCriteria) = none := hup
        simp only [DeleteNetworks, StartTransaction, hs', hfold]
        rw [show ([Event.StartTransaction { ReadOnly := false } none] : Trace) = openedForWrite
          from rfl]
        simp only [storeUpdateNetworks, hup']
        rfl

theorem outcomes_LoadNetworks (env : Env) (req : LoadNetworksRequest) :
    Outcomes {} some
      (fun tr res => tr = [Event.StartTransaction { ReadOnly := true } none,
        Event.Store (StoreCall.LoadNetworks req.Filter req.Criteria)
          (StoreResult.networkLoad res)])
      False (fun env => LoadNetworks env req) env := by
  cases hs : env.StartTransaction { ReadOnly := true } with
  | some e =>
    left
    exact ⟨{ ReadOnly := true }, e, by simp [LoadNetworks, StartTransaction, hs]⟩
  | none =>
    right
    cases hl : env.LoadNetworks [Event.StartTransaction { ReadOnly := true } none] req.Filter
        req.Criteria with
    | error err =>
      left
      have heq : LoadNetworks env req =
          ⟨{}, some err, [Event.StartTransaction { ReadOnly := true } none] ++
            [Event.Store (StoreCall.LoadNetworks req.Filter req.Criteria) (StoreResult.err err),
              Event.Store StoreCall.Rollback (StoreResult.ofErr
                (env.Rollback ([Event.StartTransaction { ReadOnly := true } none] ++
                  [Event.Store (StoreCall.LoadNetworks req.Filter req.Criteria)
                    (StoreResult.err err)])))]⟩ := by
        simp [LoadNetworks, StartTransaction, hs, storeLoadNetworks, hl, RollbackLogOnError]
      simp only [heq]
      refine ⟨aborted_extend _ _ _ _ _ (quiet_started _) (by simp) (by simp) ?_ ?_, Or.inl ?_⟩
      · simp
      · intro c e hmem hterm
        simp at hmem
        rcases hmem with ⟨-, rfl⟩ | ⟨rfl, -⟩
        · rfl
        · simp [StoreCall.isTerminal] at hterm
      · exact ⟨Event.Store (StoreCall.LoadNetworks req.Filter req.Criteria)
          (StoreResult.err err), by simp, rfl⟩
    | ok result =>
      right
      refine ⟨_, result, ?_, ?_, rfl, ?_⟩
      · exact quiet_snoc (quiet_started _) _ rfl
      · intro c hmem
        simp at hmem
        subst hmem
        rfl
      · intro f
        have hs' : (env.withCommit f).StartTransaction { ReadOnly := true } = none := hs
        have hl' : (env.withCommit f).LoadNetworks
            [Event.StartTransaction { ReadOnly := true } none] req.Filter req.Criteria =
            .ok result := hl
        simp only [LoadNetworks, StartTransaction, hs', storeLoadNetworks, hl']
        rfl

theorem outcomes_ListNetworkIDs (env : Env) (void : Void) :
    Outcomes {} some
      (fun tr res => ∃ networks, tr = [Event.StartTransaction { ReadOnly := true } none,
        Event.Store (StoreCall.LoadAllNetworks env.FullNetworkLoadCriteria)
          (StoreResult.networks networks)] ∧ res.NetworkIDs = networks.map (fun n => n.ID))
      False (fun env => ListNetworkIDs env void) env := by
  cases hs : env.StartTransaction { ReadOnly := true } with
  | some e =>
    left
    exact ⟨{ ReadOnly := true }, e, by simp [ListNetworkIDs, StartTransaction, hs]⟩
  | none =>
    right
    cases hl : env.LoadAllNetworks [Event.StartTransaction { ReadOnly := true } none]
        env.FullNetworkLoadCriteria with
    | error err =>
      left
      have heq : ListNetworkIDs env void =
          ⟨{}, some err, [Event.StartTransaction { ReadOnly := true } none] ++
            [Event.Store (StoreCall.LoadAllNetworks env.FullNetworkLoadCriteria)
              (StoreResult.err err),
              Event.Store StoreCall.Rollback (StoreResult.ofErr
                (env.Rollback ([Event.StartTransaction { ReadOnly := true } none] ++
                  [Event.Store (StoreCall.LoadAllNetworks env.FullNetworkLoadCriteria)
                    (StoreResult.err err)])))]⟩ := by
        simp [ListNetworkIDs, StartTransaction, hs, storeLoadAllNetworks, hl, RollbackLogOnError]
      simp only [heq]
      refine ⟨aborted_extend _ _ _ _ _ (quiet_started _) (by simp) (by simp) ?_ ?_, Or.inl ?_⟩
      · simp
      · intro c e hmem hterm
        simp at hmem
        rcases hmem with ⟨-, rfl⟩ | ⟨rfl, -⟩
        · rfl
        · simp [StoreCall.isTerminal] at hterm
      · exact ⟨Event.Store (StoreCall.LoadAllNetworks env.FullNetworkLoadCriteria)
          (StoreResult.err err), by simp, rfl⟩
    | ok networks =>
      right
      refine ⟨_, { NetworkIDs := networks.map (fun n => n.ID) }, ?_, ?_,
        ⟨networks, rfl, rfl⟩, ?_⟩
      · exact quiet_snoc (quiet_started _) _ rfl
      · intro c hmem
        simp at hmem
        subst hmem
        rfl
      · intro f
        have hs' : (env.withCommit f).StartTransaction { ReadOnly := true } = none := hs
        have hl' : (env.withCommit f).LoadAllNetworks
            [Event.StartTransaction { ReadOnly := true } none]
            (env.withCommit f).FullNetworkLoadCriteria = .ok networks := hl
        have hfold := foldl_snoc_map (fun n : Network => n.ID) networks []
        simp only [List.nil_append] at hfold
        simp only [ListNetworkIDs, StartTransaction, hs', storeLoadAllNetworks, hl', hfold]
        rfl

theorem outcomes_LoadEntities (env : Env) (req : LoadEntitiesRequest) :
    Outcomes {} some
      (fun tr res => tr = [Event.StartTransaction { ReadOnly := false } none,
        Event.Store (StoreCall.LoadEntities req.NetworkID req.Filter req.Criteria)
          (StoreResult.entityLoad res)])
      False (fun env => LoadEntities env req) env := by
  cases hs : env.StartTransaction { ReadOnly := false } with
  | some e =>
    left
    exact ⟨{ ReadOnly := false }, e, by simp [LoadEntities, StartTransaction, hs]⟩
  | none =>
    right
    cases hl : env.LoadEntities [Event.StartTransaction { ReadOnly := false } none]
        req.NetworkID req.Filter req.Criteria with
    | error err =>
      left
      have heq : LoadEntities env req =
          ⟨{}, some err, [Event.StartTransaction { ReadOnly := false } none] ++
            [Event.Store (StoreCall.LoadEntities req.NetworkID req.Filter req.Criteria)
              (StoreResult.err err),
              Event.Store StoreCall.Rollback (StoreResult.ofErr
                (env.Rollback ([Event.StartTransaction { ReadOnly := false } none] ++
                  [Event.Store (StoreCall.LoadEntities req.NetworkID req.Filter req.Criteria)
                    (StoreResult.err err)])))]⟩ := by
        simp [LoadEntities, StartTransaction, hs, storeLoadEntities, hl, RollbackLogOnError]
      simp only [heq]
      refine ⟨aborted_extend _ _ _ _ _ (quiet_started _) (by simp) (by simp) ?_ ?_, Or.inl ?_⟩
      · simp
      · intro c e hmem hterm
        simp at hmem
        rcases hmem with ⟨-, rfl⟩ | ⟨rfl, -⟩
        · rfl
        · simp [StoreCall.isTerminal] at hterm
      · exact ⟨Event.Store (StoreCall.LoadEntities req.NetworkID req.Filter req.Criteria)
          (StoreResult.err err), by simp, rfl⟩
    | ok result =>
      right
      refine ⟨_, result, ?_, ?_, rfl, ?_⟩
      · exact quiet_snoc (quiet_started _) _ rfl
      · intro c hmem
        simp at hmem
        subst hmem
        rfl
      · intro f
        have hs' : (env.withCommit f).StartTransaction { ReadOnly := false } = none := hs
        have hl' : (env.withCommit f).LoadEntities
            [Event.StartTransaction { ReadOnly := false } none] req.NetworkID req.Filter
            req.Criteria = .ok result := hl
        simp only [LoadEntities, StartTransaction, hs', storeLoadEntities, hl']
        rfl

/-! ## Consequences of the case analysis -/

theorem mem_storeCalls_of_mem {tr : Trace} {c : StoreCall} {r : StoreResult}
    (h : Event.Store c r ∈ tr) : c ∈ storeCalls tr :=
  List.mem_filterMap.2 ⟨_, h, rfl⟩

theorem ofErr_eq_err {o : Option GoError} {e : GoError}
    (h : StoreResult.ofErr o = StoreResult.err e) : o = some e := by
  cases o with
  | none => cases h
  | some e' => cases h; rfl

theorem ofErr_failed {o : Option GoError}
    (h : (Event.Store StoreCall.Commit (StoreResult.ofErr o)).failed = false) : o = none := by
  cases o with
  | none => rfl
  | some e => simp [StoreResult.ofErr, Event.failed] at h

/-- A failed storage call, other than a terminal one, is what the handler reports. -/
theorem outcomes_failed_store {ρ : Type} {empty : ρ} {wrap : GoError → Option GoError}
    {Good : Trace → ρ → Prop} {trouble : Prop} {run : Env → Outcome ρ} {env : Env}
    (h : Outcomes empty wrap Good trouble run env) (c : StoreCall) (e : GoError)
    (hmem : Event.Store c (StoreResult.err e) ∈ (run env).trace) (hterm : c.isTerminal = false) :
    (run env).err = wrap e := by
  rcases h with ⟨o, e', heq⟩ | ⟨hab, -⟩ | ⟨tr, res, hq, -, -, hrun⟩
  · rw [heq] at hmem
    simp at hmem
  · exact hab.2.2.2 c e hmem hterm
  · have heq := hrun env.Commit
    rw [withCommit_self] at heq
    rw [heq] at hmem
    rcases List.mem_append.1 hmem with h1 | h1
    · exact absurd h1 (quiet_no_failed_store hq c e)
    · simp only [List.mem_singleton, Event.Store.injEq] at h1
      obtain ⟨rfl, -⟩ := h1
      simp [StoreCall.isTerminal] at hterm

/-- A failed `Commit` is reported as the error, comes without a rollback, and leaves the
response that a successful `Commit` would have left. -/
theorem outcomes_commit_failed {ρ : Type} {empty : ρ} {wrap : GoError → Option GoError}
    {Good : Trace → ρ → Prop} {trouble : Prop} {run : Env → Outcome ρ} {env : Env}
    (h : Outcomes empty wrap Good trouble run env) (e : GoError)
    (hmem : Event.Store StoreCall.Commit (StoreResult.err e) ∈ (run env).trace) :
    (run env).err = some e ∧ StoreCall.Rollback ∉ storeCalls (run env).trace ∧
    (run env).res = (run (env.withCommit fun _ => none)).res ∧
    (run (env.withCommit fun _ => none)).err = none := by
  rcases h with ⟨o, e', heq⟩ | ⟨hab, -⟩ | ⟨tr, res, hq, hnt, -, hrun⟩
  · rw [heq] at hmem
    simp at hmem
  · exact absurd (mem_storeCalls_of_mem hmem) hab.2.2.1
  · have heq := hrun env.Commit
    rw [withCommit_self] at heq
    have heq' := hrun (fun _ => none)
    rw [heq] at hmem
    rcases List.mem_append.1 hmem with h1 | h1
    · have := hnt _ (mem_storeCalls_of_mem h1)
      simp [StoreCall.isTerminal] at this
    · simp only [List.mem_singleton, Event.Store.injEq, true_and] at h1
      have hc := ofErr_eq_err h1.symm
      refine ⟨by rw [heq]; exact hc, ?_, by rw [heq, heq'], by rw [heq']⟩
      rw [heq]
      simp only [storeCalls_append, List.mem_append, not_or]
      refine ⟨?_, by simp⟩
      intro hr
      have := hnt _ hr
      simp [StoreCall.isTerminal] at this

/-- A handler that returns no error went all the way to a successful `Commit`. -/
theorem outcomes_of_ok {ρ : Type} {empty : ρ} {wrap : GoError → Option GoError}
    {Good : Trace → ρ → Prop} {trouble : Prop} {run : Env → Outcome ρ} {env : Env}
    (h : Outcomes empty wrap Good trouble run env) (hok : (run env).err = none) :
    ∃ tr, Quiet tr ∧ (∀ c ∈ storeCalls tr, c.isTerminal = false) ∧ Good tr (run env).res ∧
      (run env).trace = tr ++ [Event.Store StoreCall.Commit StoreResult.done] := by
  rcases h with ⟨o, e', heq⟩ | ⟨hab, -⟩ | ⟨tr, res, hq, hnt, hgood, hrun⟩
  · rw [heq] at hok
    cases hok
  · exact absurd hok hab.2.1
  · have heq := hrun env.Commit
    rw [withCommit_self] at heq
    rw [heq] at hok
    simp only at hok
    refine ⟨tr, hq, hnt, by rw [heq]; exact hgood, ?_⟩
    rw [heq, hok]
    rfl

/-- A handler none of whose calls failed, and that met no trouble, went all the way to a
successful `Commit`. -/
theorem outcomes_of_quiet {ρ : Type} {empty : ρ} {wrap : GoError → Option GoError}
    {Good : Trace → ρ → Prop} {trouble : Prop} {run : Env → Outcome ρ} {env : Env}
    (h : Outcomes empty wrap Good trouble run env) (hnt : ¬ trouble)
    (hquiet : Quiet (run env).trace) :
    ∃ tr, Quiet tr ∧ (∀ c ∈ storeCalls tr, c.isTerminal = false) ∧ Good tr (run env).res ∧
      (run env).err = none ∧
      (run env).trace = tr ++ [Event.Store StoreCall.Commit StoreResult.done] := by
  rcases h with ⟨o, e', heq⟩ | ⟨-, ⟨ev, hev, hf⟩ | ht⟩ | ⟨tr, res, hq, hterm, hgood, hrun⟩
  · rw [heq] at hquiet
    have := hquiet _ (List.mem_singleton_self _)
    simp [Event.failed] at this
  · have := hquiet ev hev
    rw [hf] at this
    cases this
  · exact absurd ht hnt
  · have heq := hrun env.Commit
    rw [withCommit_self] at heq
    rw [heq] at hquiet
    have hc := ofErr_failed (hquiet _ (List.mem_append_right _ (List.mem_singleton_self _)))
    refine ⟨tr, hq, hterm, by rw [heq]; exact hgood, by rw [heq]; exact hc, ?_⟩
    rw [heq, hc]
    rfl

/-! ## The claims -/

/-- C1. The invariant "exactly one terminal call per opened transaction" is broken by
`CreateNetworks` and `UpdateNetworks`: when the configuration of a network is rejected,
the transaction has been opened, the error is returned, and neither `Commit` nor
`Rollback` is called, no storage call at all. -/
theorem C1_validation_failure_leaves_transaction_open :
    (CreateNetworks envRejecting sampleCreateNetworks).trace =
      [Event.StartTransaction { ReadOnly := false } none,
       Event.DeserializeLegacy SerdeDomain.NetworkConfigSerdeDomain "cfg" [1, 2]
         (some (GoError.plain "bad config"))] ∧
    (CreateNetworks envRejecting sampleCreateNetworks).err =
      some (GoError.plain "bad config") ∧
    storeCalls (CreateNetworks envRejecting sampleCreateNetworks).trace = [] ∧
    (UpdateNetworks envRejecting sampleUpdateNetworks).trace =
      [Event.StartTransaction { ReadOnly := false } none,
       Event.DeserializeLegacy SerdeDomain.NetworkConfigSerdeDomain "cfg" [5]
         (some (GoError.plain "bad config"))] ∧
    (UpdateNetworks envRejecting sampleUpdateNetworks).err =
      some (GoError.plain "bad config") ∧
    storeCalls (UpdateNetworks envRejecting sampleUpdateNetworks).trace = [] := by
  decide

/-- C7, as stated, fails: in `WriteEntities` a storage failure with error `e` is not
returned as `e` itself but as a new status error with code `Internal`. -/
theorem C7_WriteEntities_wraps_storage_error :
    Event.Store (StoreCall.CreateEntity "n1" sampleEntity)
        (StoreResult.err (GoError.plain "store down")) ∈
      (WriteEntities envStoreDown sampleWriteCreate).trace ∧
    (WriteEntities envStoreDown sampleWriteCreate).err =
      some (GoError.status Code.Internal "store down") ∧
    (WriteEntities envStoreDown sampleWriteCreate).err ≠
      some (GoError.plain "store down") := by
  decide

/-- C7, amended. When a storage call other than `Commit` and `Rollback` fails with error
`e`, every handler except `WriteEntities` returns `e` itself, and `WriteEntities` returns
the status error with code `Internal` whose message is the message of `e`; this holds
whatever the subsequent `Rollback` answers. -/
theorem C7_storage_error_surfaced (env : Env) :
    (∀ req c e, Event.Store c (StoreResult.err e) ∈ (LoadNetworks env req).trace →
      c.isTerminal = false → (LoadNetworks env req).err = some e) ∧
    (∀ void c e, Event.Store c (StoreResult.err e) ∈ (ListNetworkIDs env void).trace →
      c.isTerminal = false → (ListNetworkIDs env void).err = some e) ∧
    (∀ req c e, Event.Store c (StoreResult.err e) ∈ (CreateNetworks env req).trace →
      c.isTerminal = false → (CreateNetworks env req).err = some e) ∧
    (∀ req c e, Event.Store c (StoreResult.err e) ∈ (UpdateNetworks env req).trace →
      c.isTerminal = false → (UpdateNetworks env req).err = some e) ∧
    (∀ req c e, Event.Store c (StoreResult.err e) ∈ (DeleteNetworks env req).trace →
      c.isTerminal = false → (DeleteNetworks env req).err = some e) ∧
    (∀ req c e, Event.Store c (StoreResult.err e) ∈ (LoadEntities env req).trace →
      c.isTerminal = false → (LoadEntities env req).err = some e) ∧
    (∀ req c e, Event.Store c (StoreResult.err e) ∈ (CreateEntities env req).trace →
      c.isTerminal = false → (CreateEntities env req).err = some e) ∧
    (∀ req c e, Event.Store c (StoreResult.err e) ∈ (UpdateEntities env req).trace →
      c.isTerminal = false → (UpdateEntities env req).err = some e) ∧
    (∀ req c e, Event.Store c (StoreResult.err e) ∈ (DeleteEntities env req).trace →
      c.isTerminal = false → (DeleteEntities env req).err = some e) ∧
    (∀ req c e, Event.Store c (StoreResult.err e) ∈ (WriteEntities env req).trace →
      c.isTerminal = false →
      (WriteEntities env req).err = some (GoError.status Code.Internal e.Error)) :=
  ⟨fun req => outcomes_failed_store (outcomes_LoadNetworks env req),
   fun void => outcomes_failed_store (outcomes_ListNetworkIDs env void),
   fun req => outcomes_failed_store (outcomes_CreateNetworks env req),
   fun req => outcomes_failed_store (outcomes_UpdateNetworks env req),
   fun req => outcomes_failed_store (outcomes_DeleteNetworks env req),
   fun req => outcomes_failed_store (outcomes_LoadEntities env req),
   fun req => outcomes_failed_store (outcomes_CreateEntities env req),
   fun req => outcomes_failed_store (outcomes_UpdateEntities env req),
   fun req => outcomes_failed_store (outcomes_DeleteEntities env req),
   fun req => outcomes_failed_store (outcomes_WriteEntities env req)⟩

/-- Witness of C7 (amended): with a store that refuses every call, each handler reports
the error of the refused call, `WriteEntities` under the code `Internal`. -/
theorem C7_storage_error_surfaced_witness :
    (Event.Store (StoreCall.LoadNetworks {} {}) (StoreResult.err (GoError.plain "store down")) ∈
        (LoadNetworks envStoreDown {}).trace ∧
      (LoadNetworks envStoreDown {}).err = some (GoError.plain "store down")) ∧
    (Event.Store (StoreCall.LoadAllNetworks { LoadMetadata := true, LoadConfigs := true }) (StoreResult.err (GoError.plain "store down")) ∈
        (ListNetworkIDs envStoreDown {}).trace ∧
      (ListNetworkIDs envStoreDown {}).err = some (GoError.plain "store down")) ∧
    (Event.Store (StoreCall.CreateNetwork sampleNetwork) (StoreResult.err (GoError.plain "store down")) ∈
        (CreateNetworks envStoreDown sampleCreateNetworks).trace ∧
      (CreateNetworks envStoreDown sampleCreateNetworks).err = some (GoError.plain "store down")) ∧
    (Event.Store (StoreCall.UpdateNetworks [sampleNetworkUpdate]) (StoreResult.err (GoError.plain "store down")) ∈
        (UpdateNetworks envStoreDown sampleUpdateNetworks).trace ∧
      (UpdateNetworks envStoreDown sampleUpdateNetworks).err = some (GoError.plain "store down")) ∧
    (Event.Store (StoreCall.UpdateNetworks [deleteNetworkCriteria "n1", deleteNetworkCriteria "n2"]) (StoreResult.err (GoError.plain "store down")) ∈
        (DeleteNetworks envStoreDown sampleDeleteNetworks).trace ∧
      (DeleteNetworks envStoreDown sampleDeleteNetworks).err = some (GoError.plain "store down")) ∧
    (Event.Store (StoreCall.LoadEntities "n1" {} {}) (StoreResult.err (GoError.plain "store down")) ∈
        (LoadEntities envStoreDown sampleLoadEntities).trace ∧
      (LoadEntities envStoreDown sampleLoadEntities).err = some (GoError.plain "store down")) ∧
    (Event.Store (StoreCall.CreateEntity "n1" sampleEntity) (StoreResult.err (GoError.plain "store down")) ∈
        (CreateEntities envStoreDown sampleCreateEntities).trace ∧
      (CreateEntities envStoreDown sampleCreateEntities).err = some (GoError.plain "store down")) ∧
    (Event.Store (StoreCall.UpdateEntity "n1" sampleUpdate) (StoreResult.err (GoError.plain "store down")) ∈
        (UpdateEntities envStoreDown sampleUpdateEntities).trace ∧
      (UpdateEntities envStoreDown sampleUpdateEntities).err = some (GoError.plain "store down")) ∧
    (Event.Store (StoreCall.UpdateEntity "n1" (EntityID.deleteCriteria { Type_ := "cfg", Key := "e1" })) (StoreResult.err (GoError.plain "store down")) ∈
        (DeleteEntities envStoreDown sampleDeleteEntities).trace ∧
      (DeleteEntities envStoreDown sampleDeleteEntities).err = some (GoError.plain "store down")) ∧
    (Event.Store (StoreCall.CreateEntity "n1" sampleEntity) (StoreResult.err (GoError.plain "store down")) ∈
        (WriteEntities envStoreDown sampleWriteCreate).trace ∧
      (WriteEntities envStoreDown sampleWriteCreate).err = some (GoError.status Code.Internal "store down")) :=
  ⟨⟨by decide, (C7_storage_error_surfaced envStoreDown).1 {}
      (StoreCall.LoadNetworks {} {}) (GoError.plain "store down") (by decide) (by decide)⟩,
   ⟨by decide, (C7_storage_error_surfaced envStoreDown).2.1 {}
      (StoreCall.LoadAllNetworks { LoadMetadata := true, LoadConfigs := true }) (GoError.plain "store down") (by decide) (by decide)⟩,
   ⟨by decide, (C7_storage_error_surfaced envStoreDown).2.2.1 sampleCreateNetworks
      (StoreCall.CreateNetwork sampleNetwork) (GoError.plain "store down") (by decide) (by decide)⟩,
   ⟨by decide, (C7_storage_error_surfaced envStoreDown).2.2.2.1 sampleUpdateNetworks
      (StoreCall.UpdateNetworks [sampleNetworkUpdate]) (GoError.plain "store down") (by decide) (by decide)⟩,
   ⟨by decide, (C7_storage_error_surfaced envStoreDown).2.2.2.2.1 sampleDeleteNetworks
      (StoreCall.UpdateNetworks [deleteNetworkCriteria "n1", deleteNetworkCriteria "n2"]) (GoError.plain "store down") (by decide) (by decide)⟩,
   ⟨by decide, (C7_storage_error_surfaced envStoreDown).2.2.2.2.2.1 sampleLoadEntities
      (StoreCall.LoadEntities "n1" {} {}) (GoError.plain "store down") (by decide) (by decide)⟩,
   ⟨by decide, (C7_storage_error_surfaced envStoreDown).2.2.2.2.2.2.1 sampleCreateEntities
      (StoreCall.CreateEntity "n1" sampleEntity) (GoError.plain "store down") (by decide) (by decide)⟩,
   ⟨by decide, (C7_storage_error_surfaced envStoreDown).2.2.2.2.2.2.2.1 sampleUpdateEntities
      (StoreCall.UpdateEntity "n1" sampleUpdate) (GoError.plain "store down") (by decide) (by decide)⟩,
   ⟨by decide, (C7_storage_error_surfaced envStoreDown).2.2.2.2.2.2.2.2.1 sampleDeleteEntities
      (StoreCall.UpdateEntity "n1" (EntityID.deleteCriteria { Type_ := "cfg", Key := "e1" })) (GoError.plain "store down") (by decide) (by decide)⟩,
   ⟨by decide, (C7_storage_error_surfaced envStoreDown).2.2.2.2.2.2.2.2.2 sampleWriteCreate
      (StoreCall.CreateEntity "n1" sampleEntity) (GoError.plain "store down") (by decide) (by decide)⟩⟩

/-- C8. When `Commit` is called and fails with error `e` (it is only called after every
validation and storage call of the request succeeded), every handler returns `e`, does
not call `Rollback`, and returns the response that it returns when the same run ends with
a successful `Commit`. -/
theorem C8_commit_failure_surfaced (env : Env) :
    (∀ req e, Event.Store StoreCall.Commit (StoreResult.err e) ∈ (LoadNetworks env req).trace →
      (LoadNetworks env req).err = some e ∧
      StoreCall.Rollback ∉ storeCalls (LoadNetworks env req).trace ∧
      (LoadNetworks env req).res = (LoadNetworks (env.withCommit fun _ => none) req).res ∧
      (LoadNetworks (env.withCommit fun _ => none) req).err = none) ∧
    (∀ void e, Event.Store StoreCall.Commit (StoreResult.err e) ∈ (ListNetworkIDs env void).trace →
      (ListNetworkIDs env void).err = some e ∧
      StoreCall.Rollback ∉ storeCalls (ListNetworkIDs env void).trace ∧
      (ListNetworkIDs env void).res = (ListNetworkIDs (env.withCommit fun _ => none) void).res ∧
      (ListNetworkIDs (env.withCommit fun _ => none) void).err = none) ∧
    (∀ req e, Event.Store StoreCall.Commit (StoreResult.err e) ∈ (CreateNetworks env req).trace →
      (CreateNetworks env req).err = some e ∧
      StoreCall.Rollback ∉ storeCalls (CreateNetworks env req).trace ∧
      (CreateNetworks env req).res = (CreateNetworks (env.withCommit fun _ => none) req).res ∧
      (CreateNetworks (env.withCommit fun _ => none) req).err = none) ∧
    (∀ req e, Event.Store StoreCall.Commit (StoreResult.err e) ∈ (UpdateNetworks env req).trace →
      (UpdateNetworks env req).err = some e ∧
      StoreCall.Rollback ∉ storeCalls (UpdateNetworks env req).trace ∧
      (UpdateNetworks env req).res = (UpdateNetworks (env.withCommit fun _ => none) req).res ∧
      (UpdateNetworks (env.withCommit fun _ => none) req).err = none) ∧
    (∀ req e, Event.Store StoreCall.Commit (StoreResult.err e) ∈ (DeleteNetworks env req).trace →
      (DeleteNetworks env req).err = some e ∧
      StoreCall.Rollback ∉ storeCalls (DeleteNetworks env req).trace ∧
      (DeleteNetworks env req).res = (DeleteNetworks (env.withCommit fun _ => none) req).res ∧
      (DeleteNetworks (env.withCommit fun _ => none) req).err = none) ∧
    (∀ req e, Event.Store StoreCall.Commit (StoreResult.err e) ∈ (LoadEntities env req).trace →
      (LoadEntities env req).err = some e ∧
      StoreCall.Rollback ∉ storeCalls (LoadEntities env req).trace ∧
      (LoadEntities env req).res = (LoadEntities (env.withCommit fun _ => none) req).res ∧
      (LoadEntities (env.withCommit fun _ => none) req).err = none) ∧
    (∀ req e, Event.Store StoreCall.Commit (StoreResult.err e) ∈ (CreateEntities env req).trace →
      (CreateEntities env req).err = some e ∧
      StoreCall.Rollback ∉ storeCalls (CreateEntities env req).trace ∧
      (CreateEntities env req).res = (CreateEntities (env.withCommit fun _ => none) req).res ∧
      (CreateEntities (env.withCommit fun _ => none) req).err = none) ∧
    (∀ req e, Event.Store StoreCall.Commit (StoreResult.err e) ∈ (UpdateEntities env req).trace →
      (UpdateEntities env req).err = some e ∧
      StoreCall.Rollback ∉ storeCalls (UpdateEntities env req).trace ∧
      (UpdateEntities env req).res = (UpdateEntities (env.withCommit fun _ => none) req).res ∧
      (UpdateEntities (env.withCommit fun _ => none) req).err = none) ∧
    (∀ req e, Event.Store StoreCall.Commit (StoreResult.err e) ∈ (DeleteEntities env req).trace →
      (DeleteEntities env req).err = some e ∧
      StoreCall.Rollback ∉ storeCalls (DeleteEntities env req).trace ∧
      (DeleteEntities env req).res = (DeleteEntities (env.withCommit fun _ => none) req).res ∧
      (DeleteEntities (env.withCommit fun _ => none) req).err = none) ∧
    (∀ req e, Event.Store StoreCall.Commit (StoreResult.err e) ∈ (WriteEntities env req).trace →
      (WriteEntities env req).err = some e ∧
      StoreCall.Rollback ∉ storeCalls (WriteEntities env req).trace ∧
      (WriteEntities env req).res = (WriteEntities (env.withCommit fun _ => none) req).res ∧
      (WriteEntities (env.withCommit fun _ => none) req).err = none) :=
  ⟨fun req => outcomes_commit_failed (outcomes_LoadNetworks env req),
   fun void => outcomes_commit_failed (outcomes_ListNetworkIDs env void),
   fun req => outcomes_commit_failed (outcomes_CreateNetworks env req),
   fun req => outcomes_commit_failed (outcomes_UpdateNetworks env req),
   fun req => outcomes_commit_failed (outcomes_DeleteNetworks env req),
   fun req => outcomes_commit_failed (outcomes_LoadEntities env req),
   fun req => outcomes_commit_failed (outcomes_CreateEntities env req),
   fun req => outcomes_commit_failed (outcomes_UpdateEntities env req),
   fun req => outcomes_commit_failed (outcomes_DeleteEntities env req),
   fun req => outcomes_commit_failed (outcomes_WriteEntities env req)⟩

/-- Witness of C8: with collaborators for which only `Commit` fails, every handler returns
the commit error together with the response of the successful run. -/
theorem C8_commit_failure_surfaced_witness :
    (Event.Store StoreCall.Commit (StoreResult.err (GoError.plain "commit failed")) ∈
        (LoadNetworks envCommitFails {}).trace ∧
      (LoadNetworks envCommitFails {}).err = some (GoError.plain "commit failed") ∧
      StoreCall.Rollback ∉ storeCalls (LoadNetworks envCommitFails {}).trace ∧
      (LoadNetworks envCommitFails {}).res =
        (LoadNetworks (envCommitFails.withCommit fun _ => none) {}).res ∧
      (LoadNetworks (envCommitFails.withCommit fun _ => none) {}).err = none) ∧
    (Event.Store StoreCall.Commit (StoreResult.err (GoError.plain "commit failed")) ∈
        (ListNetworkIDs envCommitFails {}).trace ∧
      (ListNetworkIDs envCommitFails {}).err = some (GoError.plain "commit failed") ∧
      StoreCall.Rollback ∉ storeCalls (ListNetworkIDs envCommitFails {}).trace ∧
      (ListNetworkIDs envCommitFails {}).res =
        (ListNetworkIDs (envCommitFails.withCommit fun _ => none) {}).res ∧
      (ListNetworkIDs (envCommitFails.withCommit fun _ => none) {}).err = none) ∧
    (Event.Store StoreCall.Commit (StoreResult.err (GoError.plain "commit failed")) ∈
        (CreateNetworks envCommitFails sampleCreateNetworks).trace ∧
      (CreateNetworks envCommitFails sampleCreateNetworks).err = some (GoError.plain "commit failed") ∧
      StoreCall.Rollback ∉ storeCalls (CreateNetworks envCommitFails sampleCreateNetworks).trace ∧
      (CreateNetworks envCommitFails sampleCreateNetworks).res =
        (CreateNetworks (envCommitFails.withCommit fun _ => none) sampleCreateNetworks).res ∧
      (CreateNetworks (envCommitFails.withCommit fun _ => none) sampleCreateNetworks).err = none) ∧
    (Event.Store StoreCall.Commit (StoreResult.err (GoError.plain "commit failed")) ∈
        (UpdateNetworks envCommitFails sampleUpdateNetworks).trace ∧
      (UpdateNetworks envCommitFails sampleUpdateNetworks).err = some (GoError.plain "commit failed") ∧
      StoreCall.Rollback ∉ storeCalls (UpdateNetworks envCommitFails sampleUpdateNetworks).trace ∧
      (UpdateNetworks envCommitFails sampleUpdateNetworks).res =
        (UpdateNetworks (envCommitFails.withCommit fun _ => none) sampleUpdateNetworks).res ∧
      (UpdateNetworks (envCommitFails.withCommit fun _ => none) sampleUpdateNetworks).err = none) ∧
    (Event.Store StoreCall.Commit (StoreResult.err (GoError.plain "commit failed")) ∈
        (DeleteNetworks envCommitFails sampleDeleteNetworks).trace ∧
      (DeleteNetworks envCommitFails sampleDeleteNetworks).err = some (GoError.plain "commit failed") ∧
      StoreCall.Rollback ∉ storeCalls (DeleteNetworks envCommitFails sampleDeleteNetworks).trace ∧
      (DeleteNetworks envCommitFails sampleDeleteNetworks).res =
        (DeleteNetworks (envCommitFails.withCommit fun _ => none) sampleDeleteNetworks).res ∧
      (DeleteNetworks (envCommitFails.withCommit fun _ => none) sampleDeleteNetworks).err = none) ∧
    (Event.Store StoreCall.Commit (StoreResult.err (GoError.plain "commit failed")) ∈
        (LoadEntities envCommitFails sampleLoadEntities).trace ∧
      (LoadEntities envCommitFails sampleLoadEntities).err = some (GoError.plain "commit failed") ∧
      StoreCall.Rollback ∉ storeCalls (LoadEntities envCommitFails sampleLoadEntities).trace ∧
      (LoadEntities envCommitFails sampleLoadEntities).res =
        (LoadEntities (envCommitFails.withCommit fun _ => none) sampleLoadEntities).res ∧
      (LoadEntities (envCommitFails.withCommit fun _ => none) sampleLoadEntities).err = none) ∧
    (Event.Store StoreCall.Commit (StoreResult.err (GoError.plain "commit failed")) ∈
        (CreateEntities envCommitFails sampleCreateTwo).trace ∧
      (CreateEntities envCommitFails sampleCreateTwo).err = some (GoError.plain "commit failed") ∧
      StoreCall.Rollback ∉ storeCalls (CreateEntities envCommitFails sampleCreateTwo).trace ∧
      (CreateEntities envCommitFails sampleCreateTwo).res =
        (CreateEntities (envCommitFails.withCommit fun _ => none) sampleCreateTwo).res ∧
      (CreateEntities (envCommitFails.withCommit fun _ => none) sampleCreateTwo).err = none) ∧
    (Event.Store StoreCall.Commit (StoreResult.err (GoError.plain "commit failed")) ∈
        (UpdateEntities envCommitFails sampleUpdateEntities).trace ∧
      (UpdateEntities envCommitFails sampleUpdateEntities).err = some (GoError.plain "commit failed") ∧
      StoreCall.Rollback ∉ storeCalls (UpdateEntities envCommitFails sampleUpdateEntities).trace ∧
      (UpdateEntities envCommitFails sampleUpdateEntities).res =
        (UpdateEntities (envCommitFails.withCommit fun _ => none) sampleUpdateEntities).res ∧
      (UpdateEntities (envCommitFails.withCommit fun _ => none) sampleUpdateEntities).err = none) ∧
    (Event.Store StoreCall.Commit (StoreResult.err (GoError.plain "commit failed")) ∈
        (DeleteEntities envCommitFails sampleDeleteEntities).trace ∧
      (DeleteEntities envCommitFails sampleDeleteEntities).err = some (GoError.plain "commit failed") ∧
      StoreCall.Rollback ∉ storeCalls (DeleteEntities envCommitFails sampleDeleteEntities).trace ∧
      (DeleteEntities envCommitFails sampleDeleteEntities).res =
        (DeleteEntities (envCommitFails.withCommit fun _ => none) sampleDeleteEntities).res ∧
      (DeleteEntities (envCommitFails.withCommit fun _ => none) sampleDeleteEntities).err = none) ∧
    (Event.Store StoreCall.Commit (StoreResult.err (GoError.plain "commit failed")) ∈
        (WriteEntities envCommitFails sampleWrites).trace ∧
      (WriteEntities envCommitFails sampleWrites).err = some (GoError.plain "commit failed") ∧
      StoreCall.Rollback ∉ storeCalls (WriteEntities envCommitFails sampleWrites).trace ∧
      (WriteEntities envCommitFails sampleWrites).res =
        (WriteEntities (envCommitFails.withCommit fun _ => none) sampleWrites).res ∧
      (WriteEntities (envCommitFails.withCommit fun _ => none) sampleWrites).err = none) :=
  ⟨⟨by decide, (C8_commit_failure_surfaced envCommitFails).1 {}
      (GoError.plain "commit failed") (by decide)⟩,
   ⟨by decide, (C8_commit_failure_surfaced envCommitFails).2.1 {}
      (GoError.plain "commit failed") (by decide)⟩,
   ⟨by decide, (C8_commit_failure_surfaced envCommitFails).2.2.1 sampleCreateNetworks
      (GoError.plain "commit failed") (by decide)⟩,
   ⟨by decide, (C8_commit_failure_surfaced envCommitFails).2.2.2.1 sampleUpdateNetworks
      (GoError.plain "commit failed") (by decide)⟩,
   ⟨by decide, (C8_commit_failure_surfaced envCommitFails).2.2.2.2.1 sampleDeleteNetworks
      (GoError.plain "commit failed") (by decide)⟩,
   ⟨by decide, (C8_commit_failure_surfaced envCommitFails).2.2.2.2.2.1 sampleLoadEntities
      (GoError.plain "commit failed") (by decide)⟩,
   ⟨by decide, (C8_commit_failure_surfaced envCommitFails).2.2.2.2.2.2.1 sampleCreateTwo
      (GoError.plain "commit failed") (by decide)⟩,
   ⟨by decide, (C8_commit_failure_surfaced envCommitFails).2.2.2.2.2.2.2.1 sampleUpdateEntities
      (GoError.plain "commit failed") (by decide)⟩,
   ⟨by decide, (C8_commit_failure_surfaced envCommitFails).2.2.2.2.2.2.2.2.1 sampleDeleteEntities
      (GoError.plain "commit failed") (by decide)⟩,
   ⟨by decide, (C8_commit_failure_surfaced envCommitFails).2.2.2.2.2.2.2.2.2 sampleWrites
      (GoError.plain "commit failed") (by decide)⟩⟩

theorem map_some_filterMap {α β : Type} (f : α → Option β) (l : List α)
    (h : ∀ x ∈ l, f x ≠ none) : (l.filterMap f).map some = l.map f := by
  induction l with
  | nil => rfl
  | cons x xs ih =>
    have hx := h x (by simp)
    have ih' := ih (fun y hy => h y (by simp [hy]))
    cases hfx : f x with
    | none => exact absurd hfx hx
    | some b => simp [List.filterMap_cons, hfx, ih']

theorem storeCall?_ne_none (networkID : String) (w : WriteEntityRequest)
    (h : w.Request ≠ WriteEntityRequest_Request.notSet) :
    w.storeCall? networkID ≠ none := by
  simp only [WriteEntityRequest.storeCall?]
  cases hw : w.Request with
  | Create e => simp
  | Update u => simp
  | notSet => exact absurd hw h

theorem storeCalls_committed (tr : Trace) :
    storeCalls (tr ++ [Event.Store StoreCall.Commit StoreResult.done]) =
      storeCalls tr ++ [StoreCall.Commit] := by
  simp [storeCalls_append]

/-- C10, as stated, fails: `DeleteNetworks` with two identifiers succeeds with a single
storage call, an `UpdateNetworks` that carries both deletion criteria, not with two. -/
theorem C10_DeleteNetworks_single_call :
    (DeleteNetworks envAllGood sampleDeleteNetworks).err = none ∧
    sampleDeleteNetworks.NetworkIDs.length = 2 ∧
    storeCalls (DeleteNetworks envAllGood sampleDeleteNetworks).trace =
      [StoreCall.UpdateNetworks [deleteNetworkCriteria "n1", deleteNetworkCriteria "n2"],
       StoreCall.Commit] := by
  decide

/-- C10, amended. In a successful request, the calls on the transaction are, in input
order, one creation per network (`CreateNetworks`), one creation per entity
(`CreateEntities`), one update per criteria (`UpdateEntities`), one update with a
deletion-flagged criteria per identifier (`DeleteEntities`), one creation or update per
write (`WriteEntities`), followed by `Commit`; `UpdateNetworks` and `DeleteNetworks` make
a single `UpdateNetworks` call that carries all the criteria, in input order, followed by
`Commit`. -/
theorem C10_calls_in_input_order (env : Env) :
    (∀ req, (CreateNetworks env req).err = none →
      storeCalls (CreateNetworks env req).trace =
        req.Networks.map StoreCall.CreateNetwork ++ [StoreCall.Commit]) ∧
    (∀ req, (CreateEntities env req).err = none →
      storeCalls (CreateEntities env req).trace =
        req.Entities.map (StoreCall.CreateEntity req.NetworkID) ++ [StoreCall.Commit]) ∧
    (∀ req, (UpdateEntities env req).err = none →
      storeCalls (UpdateEntities env req).trace =
        req.Updates.map (StoreCall.UpdateEntity req.NetworkID) ++ [StoreCall.Commit]) ∧
    (∀ req, (DeleteEntities env req).err = none →
      storeCalls (DeleteEntities env req).trace =
        req.ID.map (fun id => StoreCall.UpdateEntity req.NetworkID id.deleteCriteria) ++
          [StoreCall.Commit]) ∧
    (∀ req, (WriteEntities env req).err = none →
      (storeCalls (WriteEntities env req).trace).map some =
        req.Writes.map (WriteEntityRequest.storeCall? req.NetworkID) ++
          [some StoreCall.Commit]) ∧
    (∀ req, (UpdateNetworks env req).err = none →
      storeCalls (UpdateNetworks env req).trace =
        [StoreCall.UpdateNetworks req.Updates, StoreCall.Commit]) ∧
    (∀ req, (DeleteNetworks env req).err = none →
      storeCalls (DeleteNetworks env req).trace =
        [StoreCall.UpdateNetworks (req.NetworkIDs.map deleteNetworkCriteria),
         StoreCall.Commit]) := by
  refine ⟨?_, ?_, ?_, ?_, ?_, ?_, ?_⟩
  · intro req hok
    obtain ⟨tr, -, -, hgood, htr⟩ := outcomes_of_ok (outcomes_CreateNetworks env req) hok
    rw [htr, storeCalls_committed, hgood.2.1]
  · intro req hok
    obtain ⟨tr, -, -, hgood, htr⟩ := outcomes_of_ok (outcomes_CreateEntities env req) hok
    rw [htr, storeCalls_committed, hgood.2.1]
  · intro req hok
    obtain ⟨tr, -, -, hgood, htr⟩ := outcomes_of_ok (outcomes_UpdateEntities env req) hok
    rw [htr, storeCalls_committed, hgood.2.1]
  · intro req hok
    obtain ⟨tr, -, -, hgood, htr⟩ := outcomes_of_ok (outcomes_DeleteEntities env req) hok
    rw [htr, storeCalls_committed, hgood.2.1]
  · intro req hok
    obtain ⟨tr, -, -, hgood, htr⟩ := outcomes_of_ok (outcomes_WriteEntities env req) hok
    rw [htr, storeCalls_committed, hgood.2.1, List.map_append,
      map_some_filterMap _ _ (fun w hw => storeCall?_ne_none _ w (hgood.2.2.1 w hw))]
    rfl
  · intro req hok
    obtain ⟨tr, -, -, hgood, htr⟩ := outcomes_of_ok (outcomes_UpdateNetworks env req) hok
    rw [htr, storeCalls_committed, hgood.1]
    rfl
  · intro req hok
    obtain ⟨tr, -, -, hgood, htr⟩ := outcomes_of_ok (outcomes_DeleteNetworks env req) hok
    rw [htr, storeCalls_committed, hgood.1]
    rfl

/-- Witness of C10 (amended): the sample requests, with collaborators that accept
everything. -/
theorem C10_calls_in_input_order_witness :
    ((CreateNetworks envAllGood sampleCreateNetworks).err = none ∧
      storeCalls (CreateNetworks envAllGood sampleCreateNetworks).trace =
        sampleCreateNetworks.Networks.map StoreCall.CreateNetwork ++ [StoreCall.Commit]) ∧
    ((CreateEntities envAllGood sampleCreateTwo).err = none ∧
      storeCalls (CreateEntities envAllGood sampleCreateTwo).trace =
        sampleCreateTwo.Entities.map (StoreCall.CreateEntity sampleCreateTwo.NetworkID) ++
          [StoreCall.Commit]) ∧
    ((UpdateEntities envAllGood sampleUpdateEntities).err = none ∧
      storeCalls (UpdateEntities envAllGood sampleUpdateEntities).trace =
        sampleUpdateEntities.Updates.map
          (StoreCall.UpdateEntity sampleUpdateEntities.NetworkID) ++ [StoreCall.Commit]) ∧
    ((DeleteEntities envAllGood sampleDeleteEntities).err = none ∧
      storeCalls (DeleteEntities envAllGood sampleDeleteEntities).trace =
        sampleDeleteEntities.ID.map
          (fun id => StoreCall.UpdateEntity sampleDeleteEntities.NetworkID id.deleteCriteria) ++
          [StoreCall.Commit]) ∧
    ((WriteEntities envAllGood sampleWrites).err = none ∧
      (storeCalls (WriteEntities envAllGood sampleWrites).trace).map some =
        sampleWrites.Writes.map (WriteEntityRequest.storeCall? sampleWrites.NetworkID) ++
          [some StoreCall.Commit]) ∧
    ((UpdateNetworks envAllGood sampleUpdateNetworks).err = none ∧
      storeCalls (UpdateNetworks envAllGood sampleUpdateNetworks).trace =
        [StoreCall.UpdateNetworks sampleUpdateNetworks.Updates, StoreCall.Commit]) ∧
    ((DeleteNetworks envAllGood sampleDeleteNetworks).err = none ∧
      storeCalls (DeleteNetworks envAllGood sampleDeleteNetworks).trace =
        [StoreCall.UpdateNetworks (sampleDeleteNetworks.NetworkIDs.map deleteNetworkCriteria),
         StoreCall.Commit]) :=
  ⟨⟨by decide, (C10_calls_in_input_order envAllGood).1 sampleCreateNetworks (by decide)⟩,
   ⟨by decide, (C10_calls_in_input_order envAllGood).2.1 sampleCreateTwo (by decide)⟩,
   ⟨by decide, (C10_calls_in_input_order envAllGood).2.2.1 sampleUpdateEntities (by decide)⟩,
   ⟨by decide, (C10_calls_in_input_order envAllGood).2.2.2.1 sampleDeleteEntities (by decide)⟩,
   ⟨by decide, (C10_calls_in_input_order envAllGood).2.2.2.2.1 sampleWrites (by decide)⟩,
   ⟨by decide,
    (C10_calls_in_input_order envAllGood).2.2.2.2.2.1 sampleUpdateNetworks (by decide)⟩,
   ⟨by decide,
    (C10_calls_in_input_order envAllGood).2.2.2.2.2.2 sampleDeleteNetworks (by decide)⟩⟩

theorem updatedEntityRecords_committed (tr : Trace) (r : StoreResult) :
    updatedEntityRecords (tr ++ [Event.Store StoreCall.Commit r]) = updatedEntityRecords tr := by
  simp [updatedEntityRecords_append, updatedEntityRecords]

theorem createdEntityRecords_committed (tr : Trace) (r : StoreResult) :
    createdEntityRecords (tr ++ [Event.Store StoreCall.Commit r]) = createdEntityRecords tr := by
  simp [createdEntityRecords_append, createdEntityRecords]

theorem createdNetworkRecords_committed (tr : Trace) (r : StoreResult) :
    createdNetworkRecords (tr ++ [Event.Store StoreCall.Commit r]) =
      createdNetworkRecords tr := by
  simp [createdNetworkRecords_append, createdNetworkRecords]

/-- C9, as stated, fails: two updates with the same key and different types yield one
entry of the updated collection, not two; the collection is keyed by the key alone. -/
theorem C9_same_key_other_type_one_entry :
    (UpdateEntities envAllGood sampleUpdateSameKey).err = none ∧
    (sampleUpdate.Type_, sampleUpdate.Key) ≠
      (sampleUpdateOtherType.Type_, sampleUpdateOtherType.Key) ∧
    (UpdateEntities envAllGood sampleUpdateSameKey).res.UpdatedEntities =
      [("e1", { NetworkID := "n1", Type_ := "other", Key := "e1" })] := by
  decide

/-- C9, amended. In a successful `UpdateEntities` or `WriteEntities` request, the store
answered the updates of the request, in input order, with records, and the updated
collection is keyed by a key alone (the `Key` of the criteria in `UpdateEntities`, the
`Key` of the record returned by the store in `WriteEntities`): its keys are distinct, they
are exactly the keys of these updates, and the entry under a key is the record returned
for the last update with that key. -/
theorem C9_updated_keyed_by_key (env : Env) :
    (∀ req, (UpdateEntities env req).err = none →
      (updatedEntityRecords (UpdateEntities env req).trace).map Prod.fst = req.Updates ∧
      MapOf (fun p => p.1.Key) (updatedEntityRecords (UpdateEntities env req).trace)
        (UpdateEntities env req).res.UpdatedEntities) ∧
    (∀ req, (WriteEntities env req).err = none →
      (updatedEntityRecords (WriteEntities env req).trace).map Prod.fst =
        writeUpdates req.Writes ∧
      MapOf (fun p => p.2.Key) (updatedEntityRecords (WriteEntities env req).trace)
        (WriteEntities env req).res.UpdatedEntities) := by
  refine ⟨?_, ?_⟩
  · intro req hok
    obtain ⟨tr, -, -, hgood, htr⟩ := outcomes_of_ok (outcomes_UpdateEntities env req) hok
    rw [htr, updatedEntityRecords_committed]
    exact ⟨hgood.2.2.2.1, hgood.2.2.2.2⟩
  · intro req hok
    obtain ⟨tr, -, -, hgood, htr⟩ := outcomes_of_ok (outcomes_WriteEntities env req) hok
    rw [htr, updatedEntityRecords_committed]
    exact ⟨hgood.2.2.2.2.2.2.1, hgood.2.2.2.2.2.2.2⟩

/-- Witness of C9 (amended): two updates with the same key, and a creation followed by an
update. -/
theorem C9_updated_keyed_by_key_witness :
    ((UpdateEntities envAllGood sampleUpdateSameKey).err = none ∧
      (updatedEntityRecords (UpdateEntities envAllGood sampleUpdateSameKey).trace).map
          Prod.fst = [sampleUpdate, sampleUpdateOtherType] ∧
      MapOf (fun p => p.1.Key)
        (updatedEntityRecords (UpdateEntities envAllGood sampleUpdateSameKey).trace)
        (UpdateEntities envAllGood sampleUpdateSameKey).res.UpdatedEntities) ∧
    ((WriteEntities envAllGood sampleWrites).err = none ∧
      (updatedEntityRecords (WriteEntities envAllGood sampleWrites).trace).map Prod.fst =
        writeUpdates sampleWrites.Writes ∧
      MapOf (fun p => p.2.Key) (updatedEntityRecords (WriteEntities envAllGood sampleWrites).trace)
        (WriteEntities envAllGood sampleWrites).res.UpdatedEntities) :=
  ⟨⟨by decide, (C9_updated_keyed_by_key envAllGood).1 sampleUpdateSameKey (by decide)⟩,
   ⟨by decide, (C9_updated_keyed_by_key envAllGood).2 sampleWrites (by decide)⟩⟩

theorem eq_zip_of_maps {α β : Type} (l : List (α × β)) (xs : List α) (ys : List β)
    (h1 : l.map Prod.fst = xs) (h2 : l.map Prod.snd = ys) :
    ys.length = xs.length ∧ l = xs.zip ys := by
  subst h1 h2
  refine ⟨by simp, ?_⟩
  induction l with
  | nil => rfl
  | cons p l ih => simp [← ih]

theorem committed_once (tr : Trace) (h : ∀ c ∈ storeCalls tr, c.isTerminal = false) :
    (storeCalls (tr ++ [Event.Store StoreCall.Commit StoreResult.done])).count
      StoreCall.Commit = 1 ∧
    StoreCall.Rollback ∉ storeCalls (tr ++ [Event.Store StoreCall.Commit StoreResult.done]) := by
  have hc : StoreCall.Commit ∉ storeCalls tr := by
    intro hmem
    have := h _ hmem
    simp [StoreCall.isTerminal] at this
  have hr : StoreCall.Rollback ∉ storeCalls tr := by
    intro hmem
    have := h _ hmem
    simp [StoreCall.isTerminal] at this
  rw [storeCalls_committed]
  refine ⟨?_, ?_⟩
  · rw [List.count_append, List.count_eq_zero_of_not_mem hc]
    rfl
  · simp [hr]

theorem writeCreates_map (entities : List NetworkEntity) :
    writeCreates (entities.map fun e => ⟨WriteEntityRequest_Request.Create e⟩) = entities := by
  induction entities with
  | nil => rfl
  | cons e es ih =>
    simp only [writeCreates] at ih
    simp [writeCreates, ih]

/-- C4. In a batch of N creations (`CreateNetworks` with N networks, `CreateEntities`
with N entities, `WriteEntities` with N create-tagged writes) in which no call fails
(opening, validations, creations, commit), the created collection has exactly N entries,
the i-th creation answered by the store is the creation of the i-th input item and the
record it returned is the i-th entry, `Commit` is called exactly once and `Rollback` is
not called. -/
theorem C4_created_in_input_order (env : Env) :
    (∀ req, Quiet (CreateNetworks env req).trace →
      (CreateNetworks env req).res.CreatedNetworks.length = req.Networks.length ∧
      createdNetworkRecords (CreateNetworks env req).trace =
        req.Networks.zip (CreateNetworks env req).res.CreatedNetworks ∧
      (storeCalls (CreateNetworks env req).trace).count StoreCall.Commit = 1 ∧
      StoreCall.Rollback ∉ storeCalls (CreateNetworks env req).trace) ∧
    (∀ req, Quiet (CreateEntities env req).trace →
      (CreateEntities env req).res.CreatedEntities.length = req.Entities.length ∧
      createdEntityRecords (CreateEntities env req).trace =
        req.Entities.zip (CreateEntities env req).res.CreatedEntities ∧
      (storeCalls (CreateEntities env req).trace).count StoreCall.Commit = 1 ∧
      StoreCall.Rollback ∉ storeCalls (CreateEntities env req).trace) ∧
    (∀ networkID entities,
      Quiet (WriteEntities env (createWrites networkID entities)).trace →
      (WriteEntities env (createWrites networkID entities)).res.CreatedEntities.length
          = entities.length ∧
      createdEntityRecords (WriteEntities env (createWrites networkID entities)).trace =
        entities.zip (WriteEntities env (createWrites networkID entities)).res.CreatedEntities ∧
      (storeCalls (WriteEntities env (createWrites networkID entities)).trace).count
          StoreCall.Commit = 1 ∧
      StoreCall.Rollback ∉ storeCalls (WriteEntities env (createWrites networkID entities)).trace) := by
  refine ⟨?_, ?_, ?_⟩
  · intro req hq
    obtain ⟨tr, -, hnt, hgood, -, htr⟩ :=
      outcomes_of_quiet (outcomes_CreateNetworks env req) (fun h => h) hq
    obtain ⟨hlen, hzip⟩ := eq_zip_of_maps _ _ _ hgood.2.2.2.1 hgood.2.2.2.2
    rw [htr, createdNetworkRecords_committed]
    exact ⟨hlen, hzip, committed_once tr hnt⟩
  · intro req hq
    obtain ⟨tr, -, hnt, hgood, -, htr⟩ :=
      outcomes_of_quiet (outcomes_CreateEntities env req) (fun h => h) hq
    obtain ⟨hlen, hzip⟩ := eq_zip_of_maps _ _ _ hgood.2.2.2.1 hgood.2.2.2.2
    rw [htr, createdEntityRecords_committed]
    exact ⟨hlen, hzip, committed_once tr hnt⟩
  · intro networkID entities hq
    have hno : ¬ ∃ w ∈ (createWrites networkID entities).Writes,
        w.Request = WriteEntityRequest_Request.notSet := by
      rintro ⟨w, hw, hreq⟩
      obtain ⟨e, -, rfl⟩ := List.mem_map.1 hw
      cases hreq
    obtain ⟨tr, -, hnt, hgood, -, htr⟩ :=
      outcomes_of_quiet (outcomes_WriteEntities env (createWrites networkID entities)) hno hq
    have hfst : List.map Prod.fst (createdEntityRecords tr) =
        writeCreates (entities.map fun e => ⟨WriteEntityRequest_Request.Create e⟩) :=
      hgood.2.2.2.2.1
    rw [writeCreates_map] at hfst
    obtain ⟨hlen, hzip⟩ := eq_zip_of_maps _ _ _ hfst hgood.2.2.2.2.2.1
    rw [htr, createdEntityRecords_committed]
    exact ⟨hlen, hzip, committed_once tr hnt⟩

/-- Witness of C4: two networks, two entities, two create-tagged writes, with
collaborators that accept everything. -/
theorem C4_created_in_input_order_witness :
    (Quiet (CreateNetworks envAllGood sampleCreateTwoNetworks).trace ∧
      (CreateNetworks envAllGood sampleCreateTwoNetworks).res.CreatedNetworks.length =
        sampleCreateTwoNetworks.Networks.length ∧
      createdNetworkRecords (CreateNetworks envAllGood sampleCreateTwoNetworks).trace =
        sampleCreateTwoNetworks.Networks.zip
          (CreateNetworks envAllGood sampleCreateTwoNetworks).res.CreatedNetworks ∧
      (storeCalls (CreateNetworks envAllGood sampleCreateTwoNetworks).trace).count
        StoreCall.Commit = 1 ∧
      StoreCall.Rollback ∉ storeCalls (CreateNetworks envAllGood sampleCreateTwoNetworks).trace) ∧
    (Quiet (CreateEntities envAllGood sampleCreateTwo).trace ∧
      (CreateEntities envAllGood sampleCreateTwo).res.CreatedEntities.length =
        sampleCreateTwo.Entities.length ∧
      createdEntityRecords (CreateEntities envAllGood sampleCreateTwo).trace =
        sampleCreateTwo.Entities.zip
          (CreateEntities envAllGood sampleCreateTwo).res.CreatedEntities ∧
      (storeCalls (CreateEntities envAllGood sampleCreateTwo).trace).count
        StoreCall.Commit = 1 ∧
      StoreCall.Rollback ∉ storeCalls (CreateEntities envAllGood sampleCreateTwo).trace) ∧
    (Quiet (WriteEntities envAllGood
        (createWrites "n1" [sampleEntity, sampleEntity2])).trace ∧
      (WriteEntities envAllGood
        (createWrites "n1" [sampleEntity, sampleEntity2])).res.CreatedEntities.length =
        [sampleEntity, sampleEntity2].length ∧
      createdEntityRecords (WriteEntities envAllGood
        (createWrites "n1" [sampleEntity, sampleEntity2])).trace =
        [sampleEntity, sampleEntity2].zip (WriteEntities envAllGood
          (createWrites "n1" [sampleEntity, sampleEntity2])).res.CreatedEntities ∧
      (storeCalls (WriteEntities envAllGood
        (createWrites "n1" [sampleEntity, sampleEntity2])).trace).count StoreCall.Commit = 1 ∧
      StoreCall.Rollback ∉ storeCalls (WriteEntities envAllGood
        (createWrites "n1" [sampleEntity, sampleEntity2])).trace) :=
  ⟨⟨by unfold Quiet; decide,
    (C4_created_in_input_order envAllGood).1 sampleCreateTwoNetworks
      (by unfold Quiet; decide)⟩,
   ⟨by unfold Quiet; decide,
    (C4_created_in_input_order envAllGood).2.1 sampleCreateTwo (by unfold Quiet; decide)⟩,
   ⟨by unfold Quiet; decide,
    (C4_created_in_input_order envAllGood).2.2 "n1" [sampleEntity, sampleEntity2]
      (by unfold Quiet; decide)⟩⟩

/-! ## The first failing item of a batch -/

theorem forRange_ret_at {ι ρ σ : Type} (body : σ → ι → Flow ρ σ) (s0 s : σ) (seen : List ι)
    (x : ι) (later : List ι) (out : ρ) (hseen : forRange body s0 seen = Flow.next s)
    (hx : body s x = Flow.ret out) : forRange body s0 (seen ++ x :: later) = Flow.ret out := by
  rw [forRange_append, hseen]
  simp [forRange, hx]

theorem createEntity_error (env : Env) (tr : Trace) (networkID : String) (x : NetworkEntity)
    (e : GoError) (h : (createEntity env tr networkID x).2 = .error e) :
    ∃ evs, createEntity env tr networkID x = (tr ++ evs, .error e) ∧
      storeCalls evs =
        (if rejects env x.validation then [] else [StoreCall.CreateEntity networkID x]) ∧
      validations evs = x.validation := by
  rcases createEntity_cases env tr networkID x with
    ⟨err, hr, heq⟩ | ⟨err, hr, heq⟩ | ⟨r, hr, heq⟩
  · rw [heq] at h
    cases h
    exact ⟨_, heq, by simp [hr], by simp [NetworkEntity.validation]⟩
  · rw [heq] at h
    cases h
    refine ⟨x.validation.map accepted ++ [Event.Store (StoreCall.CreateEntity networkID x)
      (StoreResult.err e)], by rw [heq, List.append_assoc], ?_, ?_⟩
    · simp [hr, storeCalls_append, storeCalls_accepted]
    · simp [validations_append, validations_accepted]
  · rw [heq] at h
    cases h

theorem updateEntity_error (env : Env) (tr : Trace) (networkID : String)
    (x : EntityUpdateCriteria) (e : GoError)
    (h : (updateEntity env tr networkID x).2 = .error e) :
    ∃ evs, updateEntity env tr networkID x = (tr ++ evs, .error e) ∧
      storeCalls evs =
        (if rejects env x.validation then [] else [StoreCall.UpdateEntity networkID x]) ∧
      validations evs = x.validation := by
  rcases updateEntity_cases env tr networkID x with
    ⟨b, err, hb, hr, heq⟩ | ⟨err, hr, heq⟩ | ⟨r, hr, heq⟩
  · rw [heq] at h
    cases h
    exact ⟨_, heq, by simp [hr], by simp [EntityUpdateCriteria.validation, hb]⟩
  · rw [heq] at h
    cases h
    refine ⟨x.validation.map accepted ++ [Event.Store (StoreCall.UpdateEntity networkID x)
      (StoreResult.err e)], by rw [heq, List.append_assoc], ?_, ?_⟩
    · simp [hr, storeCalls_append, storeCalls_accepted]
    · simp [validations_append, validations_accepted]
  · rw [heq] at h
    cases h

theorem inv_of_next_CreateEntities (env : Env) (networkID : String) (seen : List NetworkEntity)
    (s : Trace × List NetworkEntity)
    (h : forRange (CreateEntities.body env networkID) (openedForWrite, []) seen = Flow.next s) :
    CreateEntities.Inv networkID seen s := by
  have := forRange_sat_indexed (CreateEntities.body env networkID)
    (CreateEntities.Inv networkID) (fun _ => True) seen
    (fun seen s x _ hs => by
      have h1 := step_CreateEntities env networkID seen s x hs
      cases hb : CreateEntities.body env networkID s x with
      | next s' => rw [hb] at h1; exact h1
      | ret out => trivial)
    [] (openedForWrite, []) (inv_opened_CreateEntities networkID)
  rw [h] at this
  simpa using this

theorem inv_of_next_UpdateEntities (env : Env) (networkID : String)
    (seen : List EntityUpdateCriteria) (s : Trace × List (String × NetworkEntity))
    (h : forRange (UpdateEntities.body env networkID) (openedForWrite, []) seen = Flow.next s) :
    UpdateEntities.Inv networkID seen s := by
  have := forRange_sat_indexed (UpdateEntities.body env networkID)
    (UpdateEntities.Inv networkID) (fun _ => True) seen
    (fun seen s x _ hs => by
      have h1 := step_UpdateEntities env networkID seen s x hs
      cases hb : UpdateEntities.body env networkID s x with
      | next s' => rw [hb] at h1; exact h1
      | ret out => trivial)
    [] (openedForWrite, []) (inv_opened_UpdateEntities networkID)
  rw [h] at this
  simpa using this

theorem inv_of_next_DeleteEntities (env : Env) (networkID : String) (seen : List EntityID)
    (s : Trace)
    (h : forRange (DeleteEntities.body env networkID) openedForWrite seen = Flow.next s) :
    DeleteEntities.Inv networkID seen s := by
  have := forRange_sat_indexed (DeleteEntities.body env networkID)
    (DeleteEntities.Inv networkID) (fun _ => True) seen
    (fun seen s x _ hs => by
      have h1 := step_DeleteEntities env networkID seen s x hs
      cases hb : DeleteEntities.body env networkID s x with
      | next s' => rw [hb] at h1; exact h1
      | ret out => trivial)
    [] openedForWrite (inv_opened_DeleteEntities networkID)
  rw [h] at this
  simpa using this

theorem inv_of_next_WriteEntities (env : Env) (networkID : String)
    (seen : List WriteEntityRequest) (s : Trace × WriteEntitiesResponse)
    (h : forRange (WriteEntities.body env networkID) (openedForWrite, { UpdatedEntities := [] })
      seen = Flow.next s) :
    WriteEntities.Inv networkID seen s := by
  have := forRange_sat_indexed (WriteEntities.body env networkID)
    (WriteEntities.Inv networkID) (fun _ => True) seen
    (fun seen' s x hx hs => by
      have h1 := step_WriteEntities env networkID seen seen' s x hx hs
      cases hb : WriteEntities.body env networkID s x with
      | next s' => rw [hb] at h1; exact h1
      | ret out => trivial)
    [] (openedForWrite, { UpdatedEntities := [] }) (inv_opened_WriteEntities networkID)
  rw [h] at this
  simpa using this

theorem terminalCalls_rolled_back (env : Env) (tr evs : Trace)
    (h1 : ∀ c ∈ storeCalls tr, c.isTerminal = false)
    (h2 : ∀ c ∈ storeCalls evs, c.isTerminal = false) :
    terminalCalls (RollbackLogOnError env (tr ++ evs)) = [StoreCall.Rollback] := by
  have e1 : (storeCalls tr).filter StoreCall.isTerminal = [] :=
    List.filter_eq_nil_iff.2 (fun c hc => by simp [h1 c hc])
  have e2 : (storeCalls evs).filter StoreCall.isTerminal = [] :=
    List.filter_eq_nil_iff.2 (fun c hc => by simp [h2 c hc])
  simp [terminalCalls, RollbackLogOnError, storeCalls_append, List.filter_append, e1, e2,
    StoreCall.isTerminal]

theorem failfast_CreateEntities (env : Env) (req : CreateEntitiesRequest)
    (seen : List NetworkEntity) (x : NetworkEntity) (later : List NetworkEntity)
    (s : Trace × List NetworkEntity) (e : GoError)
    (hstart : env.StartTransaction { ReadOnly := false } = none)
    (hitems : req.Entities = seen ++ x :: later)
    (hseen : forRange (CreateEntities.body env req.NetworkID) (openedForWrite, []) seen =
      Flow.next s)
    (hx : (createEntity env s.1 req.NetworkID x).2 = .error e) :
    (CreateEntities env req).res = {} ∧ (CreateEntities env req).err = some e ∧
    storeCalls (CreateEntities env req).trace =
      seen.map (StoreCall.CreateEntity req.NetworkID) ++
        (if rejects env x.validation then [] else [StoreCall.CreateEntity req.NetworkID x]) ++
        [StoreCall.Rollback] ∧
    validations (CreateEntities env req).trace =
      (seen ++ [x]).flatMap NetworkEntity.validation ∧
    terminalCalls (CreateEntities env req).trace = [StoreCall.Rollback] := by
  obtain ⟨evs, heq, hsc, hv⟩ := createEntity_error env s.1 req.NetworkID x e hx
  have hbody : CreateEntities.body env req.NetworkID s x =
      Flow.ret ⟨{}, some e, RollbackLogOnError env (s.1 ++ evs)⟩ := by
    simp only [CreateEntities.body, heq]
  have hrun : CreateEntities env req = ⟨{}, some e, RollbackLogOnError env (s.1 ++ evs)⟩ := by
    simp only [CreateEntities, StartTransaction, hstart]
    rw [hitems, show ([Event.StartTransaction { ReadOnly := false } none] : Trace) =
      openedForWrite from rfl, forRange_ret_at _ _ _ _ _ _ _ hseen hbody]
  obtain ⟨-, hc, hval, -, -⟩ := inv_of_next_CreateEntities env req.NetworkID seen s hseen
  rw [hrun]
  refine ⟨rfl, rfl, ?_, ?_, ?_⟩
  · simp [RollbackLogOnError, storeCalls_append, hc, hsc]
  · simp [RollbackLogOnError, validations_append, hval, hv]
  · refine terminalCalls_rolled_back env _ _ ?_ ?_
    · intro c hmem
      rw [hc] at hmem
      obtain ⟨y, -, rfl⟩ := List.mem_map.1 hmem
      rfl
    · intro c hmem
      rw [hsc] at hmem
      split at hmem
      · cases hmem
      · simp only [List.mem_singleton] at hmem
        subst hmem
        rfl

theorem failfast_UpdateEntities (env : Env) (req : UpdateEntitiesRequest)
    (seen : List EntityUpdateCriteria) (x : EntityUpdateCriteria)
    (later : List EntityUpdateCriteria) (s : Trace × List (String × NetworkEntity))
    (e : GoError)
    (hstart : env.StartTransaction { ReadOnly := false } = none)
    (hitems : req.Updates = seen ++ x :: later)
    (hseen : forRange (UpdateEntities.body env req.NetworkID) (openedForWrite, []) seen =
      Flow.next s)
    (hx : (updateEntity env s.1 req.NetworkID x).2 = .error e) :
    (UpdateEntities env req).res = {} ∧ (UpdateEntities env req).err = some e ∧
    storeCalls (UpdateEntities env req).trace =
      seen.map (StoreCall.UpdateEntity req.NetworkID) ++
        (if rejects env x.validation then [] else [StoreCall.UpdateEntity req.NetworkID x]) ++
        [StoreCall.Rollback] ∧
    validations (UpdateEntities env req).trace =
      (seen ++ [x]).flatMap EntityUpdateCriteria.validation ∧
    terminalCalls (UpdateEntities env req).trace = [StoreCall.Rollback] := by
  obtain ⟨evs, heq, hsc, hv⟩ := updateEntity_error env s.1 req.NetworkID x e hx
  have hbody : UpdateEntities.body env req.NetworkID s x =
      Flow.ret ⟨{}, some e, RollbackLogOnError env (s.1 ++ evs)⟩ := by
    simp only [UpdateEntities.body, heq]
  have hrun : UpdateEntities env req = ⟨{}, some e, RollbackLogOnError env (s.1 ++ evs)⟩ := by
    simp only [UpdateEntities, StartTransaction, hstart]
    rw [hitems, show ([Event.StartTransaction { ReadOnly := false } none] : Trace) =
      openedForWrite from rfl, forRange_ret_at _ _ _ _ _ _ _ hseen hbody]
  obtain ⟨-, hc, hval, -, -⟩ := inv_of_next_UpdateEntities env req.NetworkID seen s hseen
  rw [hrun]
  refine ⟨rfl, rfl, ?_, ?_, ?_⟩
  · simp [RollbackLogOnError, storeCalls_append, hc, hsc]
  · simp [RollbackLogOnError, validations_append, hval, hv]
  · refine terminalCalls_rolled_back env _ _ ?_ ?_
    · intro c hmem
      rw [hc] at hmem
      obtain ⟨y, -, rfl⟩ := List.mem_map.1 hmem
      rfl
    · intro c hmem
      rw [hsc] at hmem
      split at hmem
      · cases hmem
      · simp only [List.mem_singleton] at hmem
        subst hmem
        rfl

theorem failfast_DeleteEntities (env : Env) (req : DeleteEntitiesRequest)
    (seen : List EntityID) (x : EntityID) (later : List EntityID) (s : Trace) (e : GoError)
    (hstart : env.StartTransaction { ReadOnly := false } = none)
    (hitems : req.ID = seen ++ x :: later)
    (hseen : forRange (DeleteEntities.body env req.NetworkID) openedForWrite seen = Flow.next s)
    (hx : (storeUpdateEntity env s req.NetworkID x.deleteCriteria).2 = .error e) :
    (DeleteEntities env req).res = {} ∧ (DeleteEntities env req).err = some e ∧
    storeCalls (DeleteEntities env req).trace =
      (seen ++ [x]).map (fun id => StoreCall.UpdateEntity req.NetworkID id.deleteCriteria) ++
        [StoreCall.Rollback] ∧
    validations (DeleteEntities env req).trace = [] ∧
    terminalCalls (DeleteEntities env req).trace = [StoreCall.Rollback] := by
  have heq : storeUpdateEntity env s req.NetworkID x.deleteCriteria =
      (s ++ [Event.Store (StoreCall.UpdateEntity req.NetworkID x.deleteCriteria)
        (StoreResult.err e)], .error e) := by
    simp only [storeUpdateEntity] at hx ⊢
    cases hu : env.UpdateEntity s req.NetworkID x.deleteCriteria with
    | error err =>
      rw [hu] at hx
      cases hx
      rfl
    | ok r =>
      rw [hu] at hx
      cases hx
  have hbody : DeleteEntities.body env req.NetworkID s x =
      Flow.ret ⟨{}, some e, RollbackLogOnError env
        (s ++ [Event.Store (StoreCall.UpdateEntity req.NetworkID x.deleteCriteria)
          (StoreResult.err e)])⟩ := by
    have heq' := heq
    simp only [EntityID.deleteCriteria] at heq'
    simp only [DeleteEntities.body, heq']
    rfl
  have hrun : DeleteEntities env req = ⟨{}, some e, RollbackLogOnError env
      (s ++ [Event.Store (StoreCall.UpdateEntity req.NetworkID x.deleteCriteria)
        (StoreResult.err e)])⟩ := by
    simp only [DeleteEntities, StartTransaction, hstart]
    rw [hitems, show ([Event.StartTransaction { ReadOnly := false } none] : Trace) =
      openedForWrite from rfl, forRange_ret_at _ _ _ _ _ _ _ hseen hbody]
  obtain ⟨-, hc, hval⟩ := inv_of_next_DeleteEntities env req.NetworkID seen s hseen
  rw [hrun]
  refine ⟨rfl, rfl, ?_, ?_, ?_⟩
  · simp [RollbackLogOnError, storeCalls_append, hc]
  · simp [RollbackLogOnError, validations_append, hval]
  · refine terminalCalls_rolled_back env _ _ ?_ ?_
    · intro c hmem
      rw [hc] at hmem
      obtain ⟨y, -, rfl⟩ := List.mem_map.1 hmem
      rfl
    · intro c hmem
      simp only [storeCalls_cons_store, storeCalls_nil, List.mem_singleton] at hmem
      subst hmem
      rfl

theorem failfast_WriteEntities (env : Env) (req : WriteEntitiesRequest)
    (seen : List WriteEntityRequest) (x : WriteEntityRequest) (later : List WriteEntityRequest)
    (s : Trace × WriteEntitiesResponse) (e : GoError)
    (hstart : env.StartTransaction { ReadOnly := false } = none)
    (hitems : req.Writes = seen ++ x :: later)
    (hseen : forRange (WriteEntities.body env req.NetworkID)
      (openedForWrite, { UpdatedEntities := [] }) seen = Flow.next s)
    (hx : (∃ op, x.Request = WriteEntityRequest_Request.Create op ∧
        (createEntity env s.1 req.NetworkID op).2 = .error e) ∨
      (∃ op, x.Request = WriteEntityRequest_Request.Update op ∧
        (updateEntity env s.1 req.NetworkID op).2 = .error e)) :
    (WriteEntities env req).res = {} ∧
    (WriteEntities env req).err = some (GoError.status Code.Internal e.Error) ∧
    (storeCalls (WriteEntities env req).trace).map some =
      seen.map (WriteEntityRequest.storeCall? req.NetworkID) ++
        (if rejects env x.validation then [] else [x.storeCall? req.NetworkID]) ++
        [some StoreCall.Rollback] ∧
    validations (WriteEntities env req).trace =
      (seen ++ [x]).flatMap WriteEntityRequest.validation ∧
    terminalCalls (WriteEntities env req).trace = [StoreCall.Rollback] := by
  have hbody : ∃ evs, WriteEntities.body env req.NetworkID s x =
      Flow.ret ⟨{}, some (GoError.status Code.Internal e.Error),
        RollbackLogOnError env (s.1 ++ evs)⟩ ∧
      (storeCalls evs).map some =
        (if rejects env x.validation then [] else [x.storeCall? req.NetworkID]) ∧
      validations evs = x.validation ∧
      ∀ c ∈ storeCalls evs, c.isTerminal = false := by
    rcases hx with ⟨op, hreq, hop⟩ | ⟨op, hreq, hop⟩
    · obtain ⟨evs, heq, hsc, hv⟩ := createEntity_error env s.1 req.NetworkID op e hop
      refine ⟨evs, ?_, ?_, ?_, ?_⟩
      · simp only [WriteEntities.body, hreq, heq]
        rfl
      · rw [hsc]
        simp only [WriteEntityRequest.validation, WriteEntityRequest.storeCall?, hreq]
        split <;> rfl
      · rw [hv]
        simp only [WriteEntityRequest.validation, hreq]
      · intro c hmem
        rw [hsc] at hmem
        split at hmem
        · cases hmem
        · simp only [List.mem_singleton] at hmem
          subst hmem
          rfl
    · obtain ⟨evs, heq, hsc, hv⟩ := updateEntity_error env s.1 req.NetworkID op e hop
      refine ⟨evs, ?_, ?_, ?_, ?_⟩
      · simp only [WriteEntities.body, hreq, heq]
        rfl
      · rw [hsc]
        simp only [WriteEntityRequest.validation, WriteEntityRequest.storeCall?, hreq]
        split <;> rfl
      · rw [hv]
        simp only [WriteEntityRequest.validation, hreq]
      · intro c hmem
        rw [hsc] at hmem
        split at hmem
        · cases hmem
        · simp only [List.mem_singleton] at hmem
          subst hmem
          rfl
  obtain ⟨evs, hbody, hsc, hv, hnt⟩ := hbody
  have hrun : WriteEntities env req = ⟨{}, some (GoError.status Code.Internal e.Error),
      RollbackLogOnError env (s.1 ++ evs)⟩ := by
    simp only [WriteEntities, StartTransaction, hstart]
    rw [hitems, show ([Event.StartTransaction { ReadOnly := false } none] : Trace) =
      openedForWrite from rfl, forRange_ret_at _ _ _ _ _ _ _ hseen hbody]
  obtain ⟨-, hc, hk, hval, -⟩ := inv_of_next_WriteEntities env req.NetworkID seen s hseen
  rw [hrun]
  refine ⟨rfl, rfl, ?_, ?_, ?_⟩
  · simp only [RollbackLogOnError, storeCalls_append, List.map_append, hc, hsc,
      map_some_filterMap _ _ (fun w hw => storeCall?_ne_none _ w (hk w hw))]
    rfl
  · simp [RollbackLogOnError, validations_append, hval, hv]
  · refine terminalCalls_rolled_back env _ _ ?_ hnt
    intro c hmem
    rw [hc] at hmem
    obtain ⟨w, -, hw⟩ := List.mem_filterMap.1 hmem
    simp only [WriteEntityRequest.storeCall?] at hw
    split at hw <;> cases hw <;> rfl

/-- C3. Fail-fast for entity batches. If the transaction opens, the loop of the handler
runs through the items before item `x` without returning, and item `x` fails (its
validation is rejected, or its storage call fails) with error `e`, then: the response is
the empty form; the error is not nil (`e` itself, and in `WriteEntities` the `Internal`
status error made from `e`); the store received exactly the calls of the earlier items in
input order, then the call of `x` only if its validation was not rejected, then
`Rollback`; the validations requested are those of the earlier items and of `x`, so
nothing is validated or stored for a later item; and the only terminal call is one
`Rollback`. -/
theorem C3_fail_fast (env : Env) (hstart : env.StartTransaction { ReadOnly := false } = none) :
    (∀ (req : CreateEntitiesRequest) seen x later s e,
      req.Entities = seen ++ x :: later →
      forRange (CreateEntities.body env req.NetworkID) (openedForWrite, []) seen = Flow.next s →
      (createEntity env s.1 req.NetworkID x).2 = .error e →
      (CreateEntities env req).res = {} ∧ (CreateEntities env req).err = some e ∧
      storeCalls (CreateEntities env req).trace =
        seen.map (StoreCall.CreateEntity req.NetworkID) ++
          (if rejects env x.validation then [] else [StoreCall.CreateEntity req.NetworkID x]) ++
          [StoreCall.Rollback] ∧
      validations (CreateEntities env req).trace =
        (seen ++ [x]).flatMap NetworkEntity.validation ∧
      terminalCalls (CreateEntities env req).trace = [StoreCall.Rollback]) ∧
    (∀ (req : UpdateEntitiesRequest) seen x later s e,
      req.Updates = seen ++ x :: later →
      forRange (UpdateEntities.body env req.NetworkID) (openedForWrite, []) seen = Flow.next s →
      (updateEntity env s.1 req.NetworkID x).2 = .error e →
      (UpdateEntities env req).res = {} ∧ (UpdateEntities env req).err = some e ∧
      storeCalls (UpdateEntities env req).trace =
        seen.map (StoreCall.UpdateEntity req.NetworkID) ++
          (if rejects env x.validation then [] else [StoreCall.UpdateEntity req.NetworkID x]) ++
          [StoreCall.Rollback] ∧
      validations (UpdateEntities env req).trace =
        (seen ++ [x]).flatMap EntityUpdateCriteria.validation ∧
      terminalCalls (UpdateEntities env req).trace = [StoreCall.Rollback]) ∧
    (∀ (req : DeleteEntitiesRequest) seen x later s e,
      req.ID = seen ++ x :: later →
      forRange (DeleteEntities.body env req.NetworkID) openedForWrite seen = Flow.next s →
      (storeUpdateEntity env s req.NetworkID x.deleteCriteria).2 = .error e →
      (DeleteEntities env req).res = {} ∧ (DeleteEntities env req).err = some e ∧
      storeCalls (DeleteEntities env req).trace =
        (seen ++ [x]).map (fun id => StoreCall.UpdateEntity req.NetworkID id.deleteCriteria) ++
          [StoreCall.Rollback] ∧
      validations (DeleteEntities env req).trace = [] ∧
      terminalCalls (DeleteEntities env req).trace = [StoreCall.Rollback]) ∧
    (∀ (req : WriteEntitiesRequest) seen x later s e,
      req.Writes = seen ++ x :: later →
      forRange (WriteEntities.body env req.NetworkID)
        (openedForWrite, { UpdatedEntities := [] }) seen = Flow.next s →
      ((∃ op, x.Request = WriteEntityRequest_Request.Create op ∧
          (createEntity env s.1 req.NetworkID op).2 = .error e) ∨
        (∃ op, x.Request = WriteEntityRequest_Request.Update op ∧
          (updateEntity env s.1 req.NetworkID op).2 = .error e)) →
      (WriteEntities env req).res = {} ∧
      (WriteEntities env req).err = some (GoError.status Code.Internal e.Error) ∧
      (storeCalls (WriteEntities env req).trace).map some =
        seen.map (WriteEntityRequest.storeCall? req.NetworkID) ++
          (if rejects env x.validation then [] else [x.storeCall? req.NetworkID]) ++
          [some StoreCall.Rollback] ∧
      validations (WriteEntities env req).trace =
        (seen ++ [x]).flatMap WriteEntityRequest.validation ∧
      terminalCalls (WriteEntities env req).trace = [StoreCall.Rollback]) :=
  ⟨fun req seen x later s e hitems hseen hx =>
     failfast_CreateEntities env req seen x later s e hstart hitems hseen hx,
   fun req seen x later s e hitems hseen hx =>
     failfast_UpdateEntities env req seen x later s e hstart hitems hseen hx,
   fun req seen x later s e hitems hseen hx =>
     failfast_DeleteEntities env req seen x later s e hstart hitems hseen hx,
   fun req seen x later s e hitems hseen hx =>
     failfast_WriteEntities env req seen x later s e hstart hitems hseen hx⟩

/-- Witness of C3: a creation refused by the store at the second item, an update whose
configuration is rejected at the second item, a deletion refused at the first item, a
write refused by the store at the second item. -/
theorem C3_fail_fast_witness :
    ((CreateEntities envOnce sampleCreateTwice).res = {} ∧
      (CreateEntities envOnce sampleCreateTwice).err = some (GoError.plain "already exists") ∧
      storeCalls (CreateEntities envOnce sampleCreateTwice).trace =
        [StoreCall.CreateEntity "n1" sampleEntity, StoreCall.CreateEntity "n1" sampleEntity,
         StoreCall.Rollback]) ∧
    ((UpdateEntities envRejecting sampleUpdateTwo).res = {} ∧
      (UpdateEntities envRejecting sampleUpdateTwo).err = some (GoError.plain "bad config") ∧
      storeCalls (UpdateEntities envRejecting sampleUpdateTwo).trace =
        [StoreCall.UpdateEntity "n1" sampleUpdateOtherType, StoreCall.Rollback]) ∧
    ((DeleteEntities envStoreDown sampleDeleteEntities).res = {} ∧
      (DeleteEntities envStoreDown sampleDeleteEntities).err =
        some (GoError.plain "store down")) ∧
    ((WriteEntities envOnce sampleWriteTwice).res = {} ∧
      (WriteEntities envOnce sampleWriteTwice).err =
        some (GoError.status Code.Internal "already exists") ∧
      terminalCalls (WriteEntities envOnce sampleWriteTwice).trace = [StoreCall.Rollback]) := by
  refine ⟨?_, ?_, ?_, ?_⟩
  · have h := (C3_fail_fast envOnce rfl).1 sampleCreateTwice [sampleEntity] sampleEntity
      [sampleEntity2] (afterSampleCreate, [sampleCreated]) (GoError.plain "already exists")
      rfl rfl rfl
    exact ⟨h.1, h.2.1, h.2.2.1⟩
  · have h := (C3_fail_fast envRejecting rfl).2.1 sampleUpdateTwo [sampleUpdateOtherType]
      sampleUpdate [] (afterSampleUpdate, [("e1", sampleUpdatedOther)])
      (GoError.plain "bad config") rfl rfl rfl
    exact ⟨h.1, h.2.1, h.2.2.1⟩
  · have h := (C3_fail_fast envStoreDown rfl).2.2.1 sampleDeleteEntities []
      { Type_ := "cfg", Key := "e1" } [] openedForWrite (GoError.plain "store down")
      rfl rfl rfl
    exact ⟨h.1, h.2.1⟩
  · have h := (C3_fail_fast envOnce rfl).2.2.2 sampleWriteTwice
      [⟨WriteEntityRequest_Request.Create sampleEntity⟩]
      ⟨WriteEntityRequest_Request.Create sampleEntity⟩
      [⟨WriteEntityRequest_Request.Update sampleUpdate⟩]
      (afterSampleCreate, { CreatedEntities := [sampleCreated] })
      (GoError.plain "already exists") rfl rfl (Or.inl ⟨sampleEntity, rfl, rfl⟩)
    exact ⟨h.1, h.2.1, h.2.2.2.2⟩

/-- C6. In `WriteEntities`, if the transaction opens, the loop runs through the writes
before `x` without returning, and the tag of `x` is neither create nor update, then: the
error is the status error with code `InvalidArgument`, which is not the `Internal` error
reported for a validation or storage failure; the response is the empty form; the store
received exactly the calls of the earlier writes, in input order, then `Rollback`; the
validations requested are those of the earlier writes, so nothing is validated or stored
for `x` or for a later write; and the only terminal call is one `Rollback`. -/
theorem C6_unrecognized_write (env : Env) (req : WriteEntitiesRequest)
    (seen : List WriteEntityRequest) (x : WriteEntityRequest) (later : List WriteEntityRequest)
    (s : Trace × WriteEntitiesResponse)
    (hstart : env.StartTransaction { ReadOnly := false } = none)
    (hitems : req.Writes = seen ++ x :: later)
    (hseen : forRange (WriteEntities.body env req.NetworkID)
      (openedForWrite, { UpdatedEntities := [] }) seen = Flow.next s)
    (hx : x.Request = WriteEntityRequest_Request.notSet) :
    (WriteEntities env req).err =
      some (GoError.status Code.InvalidArgument writeNotRecognized) ∧
    (∀ e, (WriteEntities env req).err ≠ wrapInternal e) ∧
    (WriteEntities env req).res = {} ∧
    (storeCalls (WriteEntities env req).trace).map some =
      seen.map (WriteEntityRequest.storeCall? req.NetworkID) ++ [some StoreCall.Rollback] ∧
    validations (WriteEntities env req).trace =
      seen.flatMap WriteEntityRequest.validation ∧
    terminalCalls (WriteEntities env req).trace = [StoreCall.Rollback] := by
  have hbody : WriteEntities.body env req.NetworkID s x =
      Flow.ret ⟨{}, some (GoError.status Code.InvalidArgument writeNotRecognized),
        RollbackLogOnError env (s.1 ++ [])⟩ := by
    simp only [WriteEntities.body, hx, List.append_nil]
    rfl
  have hrun : WriteEntities env req =
      ⟨{}, some (GoError.status Code.InvalidArgument writeNotRecognized),
        RollbackLogOnError env (s.1 ++ [])⟩ := by
    simp only [WriteEntities, StartTransaction, hstart]
    rw [hitems, show ([Event.StartTransaction { ReadOnly := false } none] : Trace) =
      openedForWrite from rfl, forRange_ret_at _ _ _ _ _ _ _ hseen hbody]
  obtain ⟨-, hc, hk, hval, -⟩ := inv_of_next_WriteEntities env req.NetworkID seen s hseen
  rw [hrun]
  refine ⟨rfl, ?_, rfl, ?_, ?_, ?_⟩
  · intro e h
    simp [wrapInternal, statusError] at h
  · simp only [RollbackLogOnError, storeCalls_append, List.map_append, hc, List.append_nil,
      map_some_filterMap _ _ (fun w hw => storeCall?_ne_none _ w (hk w hw))]
    rfl
  · simp [RollbackLogOnError, validations_append, hval]
  · refine terminalCalls_rolled_back env _ _ ?_ (by simp)
    intro c hmem
    rw [hc] at hmem
    obtain ⟨w, -, hw⟩ := List.mem_filterMap.1 hmem
    simp only [WriteEntityRequest.storeCall?] at hw
    split at hw <;> cases hw <;> rfl

/-- Witness of C6: a creation, then a write without a recognized tag, then an update. -/
theorem C6_unrecognized_write_witness :
    (WriteEntities envAllGood sampleWriteNotSet).err =
      some (GoError.status Code.InvalidArgument writeNotRecognized) ∧
    (WriteEntities envAllGood sampleWriteNotSet).res = {} ∧
    storeCalls (WriteEntities envAllGood sampleWriteNotSet).trace =
      [StoreCall.CreateEntity "n1" sampleEntity, StoreCall.Rollback] ∧
    validations (WriteEntities envAllGood sampleWriteNotSet).trace =
      [(SerdeDomain.NetworkEntitySerdeDomain, "cfg", [1])] := by
  have h := C6_unrecognized_write envAllGood sampleWriteNotSet
    [⟨WriteEntityRequest_Request.Create sampleEntity⟩] ⟨WriteEntityRequest_Request.notSet⟩
    [⟨WriteEntityRequest_Request.Update sampleUpdate⟩]
    (afterSampleCreate, { CreatedEntities := [sampleCreated] }) rfl rfl rfl rfl
  exact ⟨h.1, h.2.2.1, by decide, h.2.2.2.2.1⟩

/-! ## How the transaction is opened -/

theorem openedReadOnly_append {tr : Trace} {b : Bool} (h : openedReadOnly tr = some b)
    (evs : Trace) : openedReadOnly (tr ++ evs) = some b := by
  cases tr with
  | nil => cases h
  | cons ev tr =>
    cases ev with
    | StartTransaction o r => exact h
    | DeserializeLegacy d t c r => cases h
    | Store c r => cases h

theorem opened_step_CreateEntities (env : Env) (networkID : String)
    (s : Trace × List NetworkEntity) (x : NetworkEntity)
    (h : openedReadOnly s.1 = some false) :
    (CreateEntities.body env networkID s x).sat (fun s => openedReadOnly s.1 = some false)
      (fun out => openedReadOnly out.trace = some false) := by
  simp only [CreateEntities.body]
  rcases createEntity_cases env s.1 networkID x with ⟨err, -, heq⟩ | ⟨err, -, heq⟩ | ⟨r, -, heq⟩ <;>
  · rw [heq]
    simp only [flow_sat_ret, flow_sat_next, RollbackLogOnError, List.append_assoc]
    exact openedReadOnly_append h _

theorem opened_step_UpdateEntities (env : Env) (networkID : String)
    (s : Trace × List (String × NetworkEntity)) (x : EntityUpdateCriteria)
    (h : openedReadOnly s.1 = some false) :
    (UpdateEntities.body env networkID s x).sat (fun s => openedReadOnly s.1 = some false)
      (fun out => openedReadOnly out.trace = some false) := by
  simp only [UpdateEntities.body]
  rcases updateEntity_cases env s.1 networkID x with
    ⟨b, err, -, -, heq⟩ | ⟨err, -, heq⟩ | ⟨r, -, heq⟩ <;>
  · rw [heq]
    simp only [flow_sat_ret, flow_sat_next, RollbackLogOnError, List.append_assoc]
    exact openedReadOnly_append h _

theorem opened_step_DeleteEntities (env : Env) (networkID : String) (s : Trace) (x : EntityID)
    (h : openedReadOnly s = some false) :
    (DeleteEntities.body env networkID s x).sat (fun s => openedReadOnly s = some false)
      (fun out => openedReadOnly out.trace = some false) := by
  simp only [DeleteEntities.body, storeUpdateEntity]
  cases env.UpdateEntity s networkID { Type_ := x.Type_, Key := x.Key, DeleteEntity := true } <;>
  · simp only [flow_sat_ret, flow_sat_next, RollbackLogOnError, List.append_assoc]
    exact openedReadOnly_append h _

theorem opened_step_WriteEntities (env : Env) (networkID : String)
    (s : Trace × WriteEntitiesResponse) (x : WriteEntityRequest)
    (h : openedReadOnly s.1 = some false) :
    (WriteEntities.body env networkID s x).sat (fun s => openedReadOnly s.1 = some false)
      (fun out => openedReadOnly out.trace = some false) := by
  simp only [WriteEntities.body]
  cases hreq : x.Request with
  | notSet =>
    simp only [flow_sat_ret, RollbackLogOnError]
    exact openedReadOnly_append h _
  | Create op =>
    simp only []
    rcases createEntity_cases env s.1 networkID op with
      ⟨err, -, heq⟩ | ⟨err, -, heq⟩ | ⟨r, -, heq⟩ <;>
    · rw [heq]
      simp only [flow_sat_ret, flow_sat_next, RollbackLogOnError, List.append_assoc]
      exact openedReadOnly_append h _
  | Update op =>
    simp only []
    rcases updateEntity_cases env s.1 networkID op with
      ⟨b, err, -, -, heq⟩ | ⟨err, -, heq⟩ | ⟨r, -, heq⟩ <;>
    · rw [heq]
      simp only [flow_sat_ret, flow_sat_next, RollbackLogOnError, List.append_assoc]
      exact openedReadOnly_append h _

theorem opened_step_CreateNetworks (env : Env) (s : Trace × List Network) (x : Network)
    (h : openedReadOnly s.1 = some false) :
    (CreateNetworks.body env s x).sat (fun s => openedReadOnly s.1 = some false)
      (fun out => openedReadOnly out.trace = some false) := by
  simp only [CreateNetworks.body]
  rcases networkConfigsAreValid_cases env s.1 x.Configs with heq | ⟨done, y, later, err, -, heq⟩
  · rw [heq]
    simp only [storeCreateNetwork]
    cases env.CreateNetwork (s.1 ++ List.map accepted (networkValidations x.Configs)) x <;>
    · simp only [flow_sat_ret, flow_sat_next, RollbackLogOnError, List.append_assoc]
      exact openedReadOnly_append h _
  · rw [heq]
    exact openedReadOnly_append h _

theorem opened_step_UpdateNetworks (env : Env) (s : Trace × List NetworkUpdateCriteria)
    (x : NetworkUpdateCriteria) (h : openedReadOnly s.1 = some false) :
    (UpdateNetworks.body env s x).sat (fun s => openedReadOnly s.1 = some false)
      (fun out => openedReadOnly out.trace = some false) := by
  simp only [UpdateNetworks.body]
  rcases networkConfigsAreValid_cases env s.1 x.ConfigsToAddOrUpdate with
    heq | ⟨done, y, later, err, -, heq⟩ <;>
  · rw [heq]
    exact openedReadOnly_append h _

/-- C5. `LoadEntities`, a pure load, opens its transaction with `ReadOnly = false`.  The
two other loads, `LoadNetworks` and `ListNetworkIDs`, open theirs with `ReadOnly = true`,
and the seven mutating handlers open theirs with `ReadOnly = false`. -/
theorem C5_LoadEntities_opens_read_write (env : Env) :
    (∀ req, openedReadOnly (LoadEntities env req).trace = some false) ∧
    (∀ req, openedReadOnly (LoadNetworks env req).trace = some true) ∧
    (∀ void, openedReadOnly (ListNetworkIDs env void).trace = some true) ∧
    (∀ req, openedReadOnly (CreateNetworks env req).trace = some false) ∧
    (∀ req, openedReadOnly (UpdateNetworks env req).trace = some false) ∧
    (∀ req, openedReadOnly (DeleteNetworks env req).trace = some false) ∧
    (∀ req, openedReadOnly (CreateEntities env req).trace = some false) ∧
    (∀ req, openedReadOnly (UpdateEntities env req).trace = some false) ∧
    (∀ req, openedReadOnly (DeleteEntities env req).trace = some false) ∧
    (∀ req, openedReadOnly (WriteEntities env req).trace = some false) := by
  refine ⟨?_, ?_, ?_, ?_, ?_, ?_, ?_, ?_, ?_, ?_⟩
  · intro req
    simp only [LoadEntities, StartTransaction, storeLoadEntities, RollbackLogOnError,
      storeCommit]
    cases env.StartTransaction { ReadOnly := false } with
    | some e => rfl
    | none =>
      simp only []
      cases env.LoadEntities _ req.NetworkID req.Filter req.Criteria <;> rfl
  · intro req
    simp only [LoadNetworks, StartTransaction, storeLoadNetworks, RollbackLogOnError,
      storeCommit]
    cases env.StartTransaction { ReadOnly := true } with
    | some e => rfl
    | none =>
      simp only []
      cases env.LoadNetworks _ req.Filter req.Criteria <;> rfl
  · intro void
    simp only [ListNetworkIDs, StartTransaction, storeLoadAllNetworks, RollbackLogOnError,
      storeCommit]
    cases env.StartTransaction { ReadOnly := true } with
    | some e => rfl
    | none =>
      simp only []
      cases env.LoadAllNetworks _ env.FullNetworkLoadCriteria <;> rfl
  · intro req
    simp only [CreateNetworks, StartTransaction]
    cases hs : env.StartTransaction { ReadOnly := false } with
    | some e => rfl
    | none =>
      simp only []
      have hloop := forRange_sat (CreateNetworks.body env)
        (fun s => openedReadOnly s.1 = some false)
        (fun out => openedReadOnly out.trace = some false)
        (fun s x h => opened_step_CreateNetworks env s x h) req.Networks
        ([Event.StartTransaction { ReadOnly := false } none], []) rfl
      cases hf : forRange (CreateNetworks.body env)
          ([Event.StartTransaction { ReadOnly := false } none], []) req.Networks with
      | ret out => rw [hf] at hloop; exact hloop
      | next s =>
        rw [hf] at hloop
        exact openedReadOnly_append hloop _
  · intro req
    simp only [UpdateNetworks, StartTransaction]
    cases hs : env.StartTransaction { ReadOnly := false } with
    | some e => rfl
    | none =>
      simp only []
      have hloop := forRange_sat (UpdateNetworks.body env)
        (fun s => openedReadOnly s.1 = some false)
        (fun out => openedReadOnly out.trace = some false)
        (fun s x h => opened_step_UpdateNetworks env s x h) req.Updates
        ([Event.StartTransaction { ReadOnly := false } none], []) rfl
      cases hf : forRange (UpdateNetworks.body env)
          ([Event.StartTransaction { ReadOnly := false } none], []) req.Updates with
      | ret out => rw [hf] at hloop; exact hloop
      | next s =>
        rw [hf] at hloop
        simp only [storeUpdateNetworks]
        cases env.UpdateNetworks s.1 s.2 <;>
        · simp only [RollbackLogOnError, storeCommit, List.append_assoc]
          exact openedReadOnly_append hloop _
  · intro req
    simp only [DeleteNetworks, StartTransaction, storeUpdateNetworks, RollbackLogOnError,
      storeCommit]
    cases env.StartTransaction { ReadOnly := false } with
    | some e => rfl
    | none =>
      simp only []
      cases env.UpdateNetworks _ _ <;> rfl
  · intro req
    simp only [CreateEntities, StartTransaction]
    cases hs : env.StartTransaction { ReadOnly := false } with
    | some e => rfl
    | none =>
      simp only []
      have hloop := forRange_sat (CreateEntities.body env req.NetworkID)
        (fun s => openedReadOnly s.1 = some false)
        (fun out => openedReadOnly out.trace = some false)
        (fun s x h => opened_step_CreateEntities env req.NetworkID s x h) req.Entities
        ([Event.StartTransaction { ReadOnly := false } none], []) rfl
      cases hf : forRange (CreateEntities.body env req.NetworkID)
          ([Event.StartTransaction { ReadOnly := false } none], []) req.Entities with
      | ret out => rw [hf] at hloop; exact hloop
      | next s =>
        rw [hf] at hloop
        exact openedReadOnly_append hloop _
  · intro req
    simp only [UpdateEntities, StartTransaction]
    cases hs : env.StartTransaction { ReadOnly := false } with
    | some e => rfl
    | none =>
      simp only []
      have hloop := forRange_sat (UpdateEntities.body env req.NetworkID)
        (fun s => openedReadOnly s.1 = some false)
        (fun out => openedReadOnly out.trace = some false)
        (fun s x h => opened_step_UpdateEntities env req.NetworkID s x h) req.Updates
        ([Event.StartTransaction { ReadOnly := false } none], []) rfl
      cases hf : forRange (UpdateEntities.body env req.NetworkID)
          ([Event.StartTransaction { ReadOnly := false } none], []) req.Updates with
      | ret out => rw [hf] at hloop; exact hloop
      | next s =>
        rw [hf] at hloop
        exact openedReadOnly_append hloop _
  · intro req
    simp only [DeleteEntities, StartTransaction]
    cases hs : env.StartTransaction { ReadOnly := false } with
    | some e => rfl
    | none =>
      simp only []
      have hloop := forRange_sat (DeleteEntities.body env req.NetworkID)
        (fun s => openedReadOnly s = some false)
        (fun out => openedReadOnly out.trace = some false)
        (fun s x h => opened_step_DeleteEntities env req.NetworkID s x h) req.ID
        [Event.StartTransaction { ReadOnly := false } none] rfl
      cases hf : forRange (DeleteEntities.body env req.NetworkID)
          [Event.StartTransaction { ReadOnly := false } none] req.ID with
      | ret out => rw [hf] at hloop; exact hloop
      | next s =>
        rw [hf] at hloop
        exact openedReadOnly_append hloop _
  · intro req
    simp only [WriteEntities, StartTransaction]
    cases hs : env.StartTransaction { ReadOnly := false } with
    | some e => rfl
    | none =>
      simp only []
      have hloop := forRange_sat (WriteEntities.body env req.NetworkID)
        (fun s => openedReadOnly s.1 = some false)
        (fun out => openedReadOnly out.trace = some false)
        (fun s x h => opened_step_WriteEntities env req.NetworkID s x h) req.Writes
        ([Event.StartTransaction { ReadOnly := false } none], { UpdatedEntities := [] }) rfl
      cases hf : forRange (WriteEntities.body env req.NetworkID)
          ([Event.StartTransaction { ReadOnly := false } none], { UpdatedEntities := [] }) req.Writes with
      | ret out => rw [hf] at hloop; exact hloop
      | next s =>
        rw [hf] at hloop
        exact openedReadOnly_append hloop _

end Configurator
